import Mathlib

/-!
The scope-acquire engine: memory planner, acquisition orchestrator, transport,
channel list, command line, log file, diagnose mode and the trace reader of the
DS1000Z/E driver.

A shallow embedding of `src/engine/utils.c`, `src/engine/engine.c`,
`src/scope/scope.c` and `src/scope/rigol/ds1000ze.c`.

* `size_t` is the 64-bit unsigned type of the POSIX targets the program is written
  for; values are natural numbers and every multiplication the C code performs on
  `size_t` is reduced modulo `2^64` explicitly.
* A non-null `RunConfig *` is a `RunConfig` value.
-/

namespace ScopeAcquire

/-! ## Run configuration (`src/engine/engine.h`) -/

/-- Largest value of `size_t` (64-bit). -/
def SIZE_MAX : Nat := 18446744073709551615

/-- The record `struct RunConfig`; `channels` is the array of names and `n_channels`
the separately stored count. -/
structure RunConfig where
  instr_name : Option String
  coding : Nat
  n_samples : Nat
  raw_start_idx : Nat
  n_traces : Nat
  n_flush_traces : Nat
  channels : List String
  n_channels : Nat
  outfile : Option String
  verbose : Bool
  diagnose : Bool
  deriving DecidableEq, Repr

/-! ## Memory planner (`src/engine/utils.c`) -/

/-- The fallback branch and the product of `get_total_ram_bytes`: `pages` and
`page_size` are the two `sysconf` answers. -/
def get_total_ram_bytes (pages page_size : Int) : Nat :=
  if pages > 0 ∧ page_size > 0 then
    (pages.toNat * page_size.toNat) % (SIZE_MAX + 1)
  else
    4096 * 1024 * 1024

/-- The guarded multiply `mul_size_checked`: `none` is the return value `-1`
(overflow, `*out` untouched), `some v` is the return value `0` with `*out = v`. -/
def mul_size_checked (a b : Nat) : Option Nat :=
  if a ≠ 0 ∧ b > SIZE_MAX / a then none
  else some (a * b % (SIZE_MAX + 1))

/-- The function `enforce_flush_limit` for a non-null configuration; `total_ram` is
what `get_total_ram_bytes` returned. -/
def enforce_flush_limit (cfg : RunConfig) (total_ram : Nat) : Int :=
  let bps := cfg.coding + 1
  match mul_size_checked cfg.n_samples cfg.n_channels with
  | none => -1
  | some tmp =>
    match mul_size_checked tmp bps with
    | none => -1
    | some trace_size =>
      if trace_size = 0 then -1
      else
        match mul_size_checked trace_size cfg.n_flush_traces with
        | none => -1
        | some flush_batch_size =>
          let max_bytes := total_ram / 2
          if flush_batch_size > max_bytes then -2 else 0

/-- The exact (unbounded) trace size `n_samples × n_channels × (coding+1)`. -/
def exact_trace_bytes (cfg : RunConfig) : Nat :=
  cfg.n_samples * cfg.n_channels * (cfg.coding + 1)

/-- The exact (unbounded) batch size `n_samples × n_channels × (coding+1) × n_flush_traces`. -/
def exact_batch_bytes (cfg : RunConfig) : Nat :=
  cfg.n_samples * cfg.n_channels * (cfg.coding + 1) * cfg.n_flush_traces

/-- A configuration with the given sizes and nothing else set. -/
def sized_config (n_samples n_channels coding n_flush_traces : Nat) : RunConfig :=
  { instr_name := none, coding := coding, n_samples := n_samples, raw_start_idx := 1,
    n_traces := 0, n_flush_traces := n_flush_traces, channels := [],
    n_channels := n_channels, outfile := none, verbose := false, diagnose := false }

/-! ## Acquisition orchestrator (`src/engine/engine.c`)

The producer (the thread running `engine_run`) and the writer thread
(`writer_thread_func`) are two sequential programs over shared state.  A run is a
sequence of events; every event is one atomic action of one thread, together with the
answer of the environment where the action is a call to the outside (the acquire
callback, `scope_reconnect`, `write`).

Atomicity.  A block between `pthread_mutex_lock` and the next `pthread_cond_wait` or
`pthread_mutex_unlock` is one action: the mutex excludes the other thread's blocks, and
the only shared variable touched outside the mutex, `g_stop`, is never reset, so the
reads of `g_stop` inside one block agree with a single read.  A thread inside
`pthread_cond_wait` has no action while its wait condition holds.

Trace counters (`total_traces_captured`, `total_traces_written`, `handovers_*`,
`traces_in_flush_batch`) are natural numbers: they grow by at most one batch per
action and a wrap needs `2^64` captured traces.  Byte counts computed by a
multiplication are reduced modulo `2^64`.
-/

/-- Return code `ACQ_OK` of the acquire callback. -/
def ACQ_OK : Int := 0

/-- Return code `ACQ_ERR_ARM_TIMEOUT`. -/
def ACQ_ERR_ARM_TIMEOUT : Int := -1000

/-- Return code `ACQ_ERR_TRIGGER_TIMEOUT`. -/
def ACQ_ERR_TRIGGER_TIMEOUT : Int := -1001

/-- What `engine_run` has fixed when the acquisition loop starts: the target, the batch
size, the two byte sizes stored in `EngineCore`, and `store = (cfg->outfile != NULL)`. -/
structure Setup where
  n_traces : Nat
  n_flush_traces : Nat
  bytes_per_trace : Nat
  bytes_per_flush_batch : Nat
  store : Bool
  deriving DecidableEq, Repr

deriving instance DecidableEq for Except

/-- Lines 213-243 and 257 of `engine_run`: the planner call and the size computation
with its two overflow exits.  `Except.error c` is `return c`.  The flag `overflow` of
the C code is set by the first or by the second test and leads to `return -4` in both
cases; the second test is skipped once the first has set it. -/
def engine_run_setup (cfg : RunConfig) (total_ram : Nat) : Except Int Setup :=
  if enforce_flush_limit cfg total_ram ≠ 0 then .error (-3)
  else if cfg.n_channels ≠ 0 ∧ cfg.n_samples > SIZE_MAX / cfg.n_channels then .error (-4)
  else if (cfg.coding + 1) % 4294967296 ≠ 0 ∧
      cfg.n_samples * cfg.n_channels % (SIZE_MAX + 1) >
        SIZE_MAX / ((cfg.coding + 1) % 4294967296) then .error (-4)
  else if cfg.n_flush_traces ≠ 0 ∧
      cfg.n_samples * cfg.n_channels % (SIZE_MAX + 1) * ((cfg.coding + 1) % 4294967296) %
        (SIZE_MAX + 1) > SIZE_MAX / cfg.n_flush_traces then .error (-5)
  else
    .ok { n_traces := cfg.n_traces
          n_flush_traces := cfg.n_flush_traces
          bytes_per_trace :=
            cfg.n_samples * cfg.n_channels % (SIZE_MAX + 1) *
              ((cfg.coding + 1) % 4294967296) % (SIZE_MAX + 1)
          bytes_per_flush_batch :=
            cfg.n_samples * cfg.n_channels % (SIZE_MAX + 1) *
              ((cfg.coding + 1) % 4294967296) % (SIZE_MAX + 1) * cfg.n_flush_traces %
                (SIZE_MAX + 1)
          store := cfg.outfile.isSome }

/-- Answer of one `write(2)` call: `accepted w` is a return value `w ≥ 0`, `eintr` is
`-1` with `errno == EINTR`, `failed` is `-1` with any other `errno`. -/
inductive WriteResult where
  | accepted (w : Nat)
  | eintr
  | failed
  deriving DecidableEq, Repr

/-- Program points of the producer in `engine_run`. -/
inductive ProducerPC where
  /-- line 331: before the optional `prep` callback -/
  | prep
  /-- line 340: the loop condition -/
  | loop_head
  /-- lines 341-343: computing `dst` and calling `acquire` -/
  | acquire
  /-- lines 367-368: back-off and `scope_reconnect` -/
  | reconnect
  /-- lines 385-398: locking the mutex at a full batch and the monitoring counters; a
  step of its own, since it touches only `handovers_*`, which nothing else reads -/
  | handoff_lock
  /-- lines 400-416: the wait on `condvar_written` and the hand-off proper -/
  | handoff_wait
  /-- lines 423-427: after the loop -/
  | tail
  /-- lines 429-433: the write loop of the producer -/
  | tail_write
  /-- lines 434-436 -/
  | tail_count
  /-- lines 440-443 -/
  | stop_writer
  /-- line 444 and the teardown after it -/
  | join
  /-- after `return 0` -/
  | done
  deriving DecidableEq, Repr

/-- Program points of `writer_thread_func`. -/
inductive WriterPC where
  /-- line 149: `while (!g_stop)` -/
  | loop_head
  /-- lines 150-163 -/
  | wait
  /-- lines 167-176: the write loop -/
  | write
  /-- lines 179-182 -/
  | count
  /-- line 185 -/
  | done
  deriving DecidableEq, Repr

/-- One atomic action of a run. -/
inductive Event where
  /-- `SIGINT` or `engine_request_stop` -/
  | stop_request
  /-- the `prep` callback: `none` when the pointer is NULL, else its return value -/
  | prep (rc : Option Int)
  /-- an action of the producer that calls nothing outside -/
  | producer
  /-- one call of the acquire callback, returning `rc` -/
  | acquire (rc : Int)
  /-- one call of `scope_reconnect`, returning `rc` -/
  | reconnect (rc : Int)
  /-- one `write` call of the producer's tail loop -/
  | tail_write (r : WriteResult)
  /-- an action of the writer that calls nothing outside -/
  | writer
  /-- one `write` call of the writer's loop -/
  | writer_write (r : WriteResult)
  deriving DecidableEq, Repr

/-- The shared and thread-local state of a run.  `active_buf`, `this_idx` and
`next_write_batch_idx` are `0` for `buf_a` and `1` for `buf_b`.  A buffer holds
`n_flush_traces` trace slots; a slot holds the sequence number of the captured trace
last stored there (`0`: none).  A byte of the output file is a pair (trace number,
byte index inside the trace).  The fields after `w_off` are bookkeeping that the C code
does not have: the acquire results so far (newest first), the skip lines written to the
log, the number of completed hand-offs, the bytes the producer's tail loop wrote,
whether that loop ended on a failed write, and the trailer `ntraces_written`.
`ppc` and `wpc` are the program points of the two threads, `tail_off` and `w_off` the
variables `off` of the two write loops; `ti` is the attempt index of the log lines,
without the wrap of the C `int`.  A store at a slot outside the buffer (possible only
with `n_flush_traces = 0`) is left out. -/
structure EngineState where
  g_stop : Bool
  next_write_batch_idx : Nat
  ready_batches : Nat
  total_traces_captured : Nat
  total_traces_written : Nat
  handovers_waited : Nat
  handovers_nowait : Nat
  buf_a : List Nat
  buf_b : List Nat
  fd_out : List (Nat × Nat)
  ppc : ProducerPC
  active_buf : Nat
  traces_in_flush_batch : Nat
  ti : Int
  tail_off : Nat
  wpc : WriterPC
  this_idx : Nat
  w_off : Nat
  attempts : List Int
  skip_log : List (Int × Nat × Int)
  handoffs : Nat
  tail_written : List (Nat × Nat)
  tail_failed : Bool
  log_trailer : Option Nat
  deriving DecidableEq, Repr

/-- State at line 326, after the buffers, the files and the writer thread exist. -/
def engine_init (p : Setup) : EngineState :=
  { g_stop := false
    next_write_batch_idx := 0
    ready_batches := 0
    total_traces_captured := 0
    total_traces_written := 0
    handovers_waited := 0
    handovers_nowait := 0
    buf_a := List.replicate p.n_flush_traces 0
    buf_b := List.replicate p.n_flush_traces 0
    fd_out := []
    ppc := .prep
    active_buf := 0
    traces_in_flush_batch := 0
    ti := -1
    tail_off := 0
    wpc := if p.store then .loop_head else .done
    this_idx := 0
    w_off := 0
    attempts := []
    skip_log := []
    handoffs := 0
    tail_written := []
    tail_failed := false
    log_trailer := none }

/-- The bytes `[off, off + n)` of a buffer, as file bytes. -/
def buffer_bytes (bpt : Nat) (buf : List Nat) (off n : Nat) : List (Nat × Nat) :=
  (List.range' off n).map (fun pos => (buf.getD (pos / bpt) 0, pos % bpt))

/-- The buffer `active_buf` points to. -/
def active_buffer (s : EngineState) : List Nat :=
  if s.active_buf = 0 then s.buf_a else s.buf_b

/-- The other buffer: `(active_buf == core->buf_a) ? core->buf_b : core->buf_a`. -/
def other_buf (active : Nat) : Nat :=
  if active = 0 then 1 else 0

/-- Lines 331-336: whether `prep` is present and returned non-zero. -/
def prep_failed : Option Int → Bool
  | none => false
  | some r => decide (r ≠ 0)

/-- Lines 331-336: a failing `prep` raises the stop flag. -/
def prep_step (s : EngineState) (rc : Option Int) : EngineState :=
  { s with g_stop := s.g_stop || prep_failed rc, ppc := .loop_head }

/-- Line 340: `!g_stop && (unlimited || total_traces_captured < to_capture_total)`. -/
def loop_condition (p : Setup) (s : EngineState) : Bool :=
  !s.g_stop && (decide (p.n_traces = 0) || decide (s.total_traces_captured < p.n_traces))

/-- Line 340. -/
def loop_head_step (p : Setup) (s : EngineState) : EngineState :=
  if loop_condition p s then { s with ppc := .acquire } else { s with ppc := .tail }

/-- The store of a trace at `dst = active_buf + traces_in_flush_batch * bytes_per_trace`:
slot `traces_in_flush_batch` of the active buffer. -/
def store_trace (s : EngineState) (id : Nat) : EngineState :=
  { s with
    buf_a := if s.active_buf = 0 then s.buf_a.set s.traces_in_flush_batch id else s.buf_a
    buf_b := if s.active_buf = 0 then s.buf_b else s.buf_b.set s.traces_in_flush_batch id }

/-- Lines 341-420 up to the hand-off: one acquire call and the classification of its
return value.  A failed call leaves no trace in the slot (marked `0`). -/
def acquire_step (p : Setup) (s : EngineState) (rc : Int) : EngineState :=
  let s1 := { s with ti := s.ti + 1, attempts := rc :: s.attempts }
  if rc = ACQ_ERR_ARM_TIMEOUT ∨ rc = ACQ_ERR_TRIGGER_TIMEOUT then
    { store_trace s1 0 with
      skip_log := (s1.ti, s.total_traces_captured, rc) :: s.skip_log
      ppc := .loop_head }
  else if rc < 0 then
    { store_trace s1 0 with
      skip_log := (s1.ti, s.total_traces_captured, rc) :: s.skip_log
      ppc := .reconnect }
  else
    let s2 := { store_trace s1 (s.total_traces_captured + 1) with
                total_traces_captured := s.total_traces_captured + 1
                traces_in_flush_batch := s.traces_in_flush_batch + 1 }
    if s2.traces_in_flush_batch = p.n_flush_traces then
      if p.store then { s2 with ppc := .handoff_lock }
      else { s2 with active_buf := other_buf s2.active_buf
                     traces_in_flush_batch := 0
                     ppc := .loop_head }
    else { s2 with ppc := .loop_head }

/-- Lines 367-375. -/
def reconnect_step (s : EngineState) (rc : Int) : EngineState :=
  if rc = 0 then { s with ppc := .loop_head }
  else { s with g_stop := true, ppc := .tail }

/-- Lines 385-398: the monitoring counters. -/
def handoff_lock_step (s : EngineState) : EngineState :=
  if s.ready_batches ≠ 0 then
    { s with handovers_waited := s.handovers_waited + 1, ppc := .handoff_wait }
  else
    { s with handovers_nowait := s.handovers_nowait + 1, ppc := .handoff_wait }

/-- Lines 400-416: `none` while the producer sleeps on `condvar_written`. -/
def handoff_wait_step (s : EngineState) : Option EngineState :=
  if s.ready_batches ≠ 0 ∧ s.g_stop = false then none
  else if s.g_stop then some { s with ppc := .tail }
  else
    some { s with
      ready_batches := 1
      next_write_batch_idx := if s.active_buf = 0 then 0 else 1
      active_buf := other_buf s.active_buf
      traces_in_flush_batch := 0
      handoffs := s.handoffs + 1
      ppc := .loop_head }

/-- Line 426: `bytes = traces_in_flush_batch * core->bytes_per_trace`. -/
def tail_bytes (p : Setup) (s : EngineState) : Nat :=
  s.traces_in_flush_batch * p.bytes_per_trace % (SIZE_MAX + 1)

/-- Lines 423-428, and the end of `engine_run` in no-store mode. -/
def tail_step (p : Setup) (s : EngineState) : EngineState :=
  if p.store then
    if s.traces_in_flush_batch > 0 then
      if 0 < tail_bytes p s then { s with tail_off := 0, ppc := .tail_write }
      else { s with tail_off := 0, ppc := .tail_count }
    else { s with ppc := .stop_writer }
  else { s with ppc := .done }

/-- Lines 429-433: one `write` of the producer's loop, entered with `off < bytes`.
`none` for an answer `write` cannot give (more bytes than asked for). -/
def tail_write_step (p : Setup) (s : EngineState) (r : WriteResult) : Option EngineState :=
  match r with
  | .accepted w =>
    if w ≤ tail_bytes p s - s.tail_off then
      let bytes := buffer_bytes p.bytes_per_trace (active_buffer s) s.tail_off w
      some { s with
        fd_out := s.fd_out ++ bytes
        tail_written := s.tail_written ++ bytes
        tail_off := s.tail_off + w
        ppc := if s.tail_off + w < tail_bytes p s then .tail_write else .tail_count }
    else none
  | .eintr => some s
  | .failed => some { s with tail_failed := true, ppc := .tail_count }

/-- Lines 434-436. -/
def tail_count_step (s : EngineState) : EngineState :=
  { s with
    total_traces_written := s.total_traces_written + s.traces_in_flush_batch
    ppc := .stop_writer }

/-- Lines 440-443. -/
def stop_writer_step (s : EngineState) : EngineState :=
  { s with g_stop := true, ppc := .join }

/-- Lines 444-470 once the writer has returned: the trailer of the log file. -/
def teardown_step (s : EngineState) : EngineState :=
  { s with log_trailer := some s.total_traces_written, ppc := .done }

/-- Line 149. -/
def writer_loop_head_step (s : EngineState) : EngineState :=
  if s.g_stop then { s with wpc := .done } else { s with wpc := .wait }

/-- Lines 150-163: `none` while the writer sleeps on `condvar_can_write`. -/
def writer_wait_step (p : Setup) (s : EngineState) : Option EngineState :=
  if s.ready_batches = 0 then
    if s.g_stop then some { s with wpc := .done } else none
  else
    some { s with
      this_idx := s.next_write_batch_idx
      ready_batches := 0
      w_off := 0
      wpc := if 0 < p.bytes_per_flush_batch then .write else .count }

/-- The buffer `src` of the writer: `(this_idx == 0) ? buf_a : buf_b`. -/
def writer_buffer (s : EngineState) : List Nat :=
  if s.this_idx = 0 then s.buf_a else s.buf_b

/-- Lines 167-176: one `write` of the writer's loop, entered with `off < bytes_to_write`. -/
def writer_write_step (p : Setup) (s : EngineState) (r : WriteResult) : Option EngineState :=
  match r with
  | .accepted w =>
    if w ≤ p.bytes_per_flush_batch - s.w_off then
      some { s with
        fd_out := s.fd_out ++ buffer_bytes p.bytes_per_trace (writer_buffer s) s.w_off w
        w_off := s.w_off + w
        wpc := if s.w_off + w < p.bytes_per_flush_batch then .write else .count }
    else none
  | .eintr => some s
  | .failed => some { s with g_stop := true, wpc := .count }

/-- Lines 179-182. -/
def writer_count_step (p : Setup) (s : EngineState) : EngineState :=
  { s with
    total_traces_written := s.total_traces_written + p.n_flush_traces
    wpc := .loop_head }

/-- One action; `none` when the event is not the next action of its thread, or the
thread is blocked. -/
def step (p : Setup) (s : EngineState) (e : Event) : Option EngineState :=
  match e with
  | .stop_request => some { s with g_stop := true }
  | .prep rc =>
    match s.ppc with
    | .prep => some (prep_step s rc)
    | _ => none
  | .producer =>
    match s.ppc with
    | .loop_head => some (loop_head_step p s)
    | .handoff_lock => some (handoff_lock_step s)
    | .handoff_wait => handoff_wait_step s
    | .tail => some (tail_step p s)
    | .tail_count => some (tail_count_step s)
    | .stop_writer => some (stop_writer_step s)
    | .join =>
      match s.wpc with
      | .done => some (teardown_step s)
      | _ => none
    | _ => none
  | .acquire rc =>
    match s.ppc with
    | .acquire => some (acquire_step p s rc)
    | _ => none
  | .reconnect rc =>
    match s.ppc with
    | .reconnect => some (reconnect_step s rc)
    | _ => none
  | .tail_write r =>
    match s.ppc with
    | .tail_write => tail_write_step p s r
    | _ => none
  | .writer =>
    match s.wpc with
    | .loop_head => some (writer_loop_head_step s)
    | .wait => writer_wait_step p s
    | .count => some (writer_count_step p s)
    | _ => none
  | .writer_write r =>
    match s.wpc with
    | .write => writer_write_step p s r
    | _ => none

/-- The state after a sequence of actions, when each is possible in turn. -/
def run (p : Setup) (s : EngineState) : List Event → Option EngineState
  | [] => some s
  | e :: es =>
    match step p s e with
    | none => none
    | some s1 => run p s1 es

/-! ## The step relation, counting and invariants (definitions) -/

/-- The step relation of a run: `Step p s e s1` lists, action by action, what `step`
computes. -/
inductive Step (p : Setup) (s : EngineState) : Event → EngineState → Prop where
  | stop_request : Step p s .stop_request { s with g_stop := true }
  | prep (rc : Option Int) (h : s.ppc = .prep) : Step p s (.prep rc) (prep_step s rc)
  | loop_head (h : s.ppc = .loop_head) : Step p s .producer (loop_head_step p s)
  | handoff_lock (h : s.ppc = .handoff_lock) : Step p s .producer (handoff_lock_step s)
  | handoff_wait (s1 : EngineState) (h : s.ppc = .handoff_wait)
      (h1 : handoff_wait_step s = some s1) : Step p s .producer s1
  | tail (h : s.ppc = .tail) : Step p s .producer (tail_step p s)
  | tail_count (h : s.ppc = .tail_count) : Step p s .producer (tail_count_step s)
  | stop_writer (h : s.ppc = .stop_writer) : Step p s .producer (stop_writer_step s)
  | join (h : s.ppc = .join) (hw : s.wpc = .done) : Step p s .producer (teardown_step s)
  | acquire (rc : Int) (h : s.ppc = .acquire) : Step p s (.acquire rc) (acquire_step p s rc)
  | reconnect (rc : Int) (h : s.ppc = .reconnect) :
      Step p s (.reconnect rc) (reconnect_step s rc)
  | tail_write (r : WriteResult) (s1 : EngineState) (h : s.ppc = .tail_write)
      (h1 : tail_write_step p s r = some s1) : Step p s (.tail_write r) s1
  | writer_loop_head (h : s.wpc = .loop_head) : Step p s .writer (writer_loop_head_step s)
  | writer_wait (s1 : EngineState) (h : s.wpc = .wait)
      (h1 : writer_wait_step p s = some s1) : Step p s .writer s1
  | writer_count (h : s.wpc = .count) : Step p s .writer (writer_count_step p s)
  | writer_write (r : WriteResult) (s1 : EngineState) (h : s.wpc = .write)
      (h1 : writer_write_step p s r = some s1) : Step p s (.writer_write r) s1

/-- Number of acquire results the loop treats as a captured trace: those that are
neither a timeout code nor negative, that is, the results `rc ≥ 0`. -/
def successes (l : List Int) : Nat :=
  (l.filter (fun rc => decide (0 ≤ rc))).length

/-- Counting facts of the producer loop. -/
structure CountInv (p : Setup) (s : EngineState) : Prop where
  count : s.total_traces_captured = successes s.attempts
  guard : s.ppc = .acquire → p.n_traces = 0 ∨ s.total_traces_captured < p.n_traces
  bound : p.n_traces ≠ 0 → s.total_traces_captured ≤ p.n_traces

/-- Batch accounting of the producer in store mode. -/
structure BatchInv (p : Setup) (s : EngineState) : Prop where
  account :
    s.total_traces_captured = s.handoffs * p.n_flush_traces + s.traces_in_flush_batch
  le : s.traces_in_flush_batch ≤ p.n_flush_traces
  lt : (s.ppc = .prep ∨ s.ppc = .loop_head ∨ s.ppc = .acquire ∨ s.ppc = .reconnect) →
    s.traces_in_flush_batch < p.n_flush_traces
  full : (s.ppc = .handoff_lock ∨ s.ppc = .handoff_wait) →
    s.traces_in_flush_batch = p.n_flush_traces

/-- What the producer's tail loop has written, by program point. -/
structure TailInv (p : Setup) (s : EngineState) : Prop where
  before : (s.ppc = .prep ∨ s.ppc = .loop_head ∨ s.ppc = .acquire ∨ s.ppc = .reconnect ∨
      s.ppc = .handoff_lock ∨ s.ppc = .handoff_wait ∨ s.ppc = .tail) →
    s.tail_written = [] ∧ s.tail_failed = false
  during : s.ppc = .tail_write →
    s.tail_failed = false ∧ s.tail_off < tail_bytes p s ∧
      s.tail_written = buffer_bytes p.bytes_per_trace (active_buffer s) 0 s.tail_off
  after : (s.ppc = .tail_count ∨ s.ppc = .stop_writer ∨ s.ppc = .join ∨ s.ppc = .done) →
    s.tail_failed = false →
      s.tail_written = buffer_bytes p.bytes_per_trace (active_buffer s) 0 (tail_bytes p s)

/-- Events of a run in which nothing asks the run to stop early: no stop request, no
failing `prep`, no failing reconnect and no failed write of the writer. -/
def Event.quiet : Event → Bool
  | .stop_request => false
  | .prep rc => !prep_failed rc
  | .reconnect rc => decide (rc = 0)
  | .writer_write .failed => false
  | _ => true

/-- In a quiet run the stop flag is raised by the producer's shutdown only, and the
loop is left only with the target reached. -/
structure QuietInv (p : Setup) (s : EngineState) : Prop where
  flag : s.g_stop = true → s.ppc = .join ∨ s.ppc = .done
  exited : (s.ppc = .tail ∨ s.ppc = .tail_write ∨ s.ppc = .tail_count ∨
      s.ppc = .stop_writer ∨ s.ppc = .join ∨ s.ppc = .done) →
    p.n_traces ≠ 0 ∧ p.n_traces ≤ s.total_traces_captured

/-- A store-mode setup with `bytes_per_flush_batch = bytes_per_trace * n_flush_traces`. -/
def store_setup (n b bpt : Nat) : Setup :=
  { n_traces := n, n_flush_traces := b, bytes_per_trace := bpt,
    bytes_per_flush_batch := bpt * b, store := true }

/-- A store-mode configuration with the given target, batch size and sizes. -/
def store_config (n_traces n_flush_traces n_samples n_channels coding : Nat) : RunConfig :=
  { instr_name := none, coding := coding, n_samples := n_samples, raw_start_idx := 1,
    n_traces := n_traces, n_flush_traces := n_flush_traces, channels := [],
    n_channels := n_channels, outfile := some "out_1700000000", verbose := false,
    diagnose := false }

/-- `k` successful attempts of the loop: the loop condition (line 340), then `acquire`
returning 0 (line 343). -/
def ok_attempts : Nat → List Event
  | 0 => []
  | k + 1 => Event.producer :: Event.acquire 0 :: ok_attempts k

/-- Scenario S2 (`-n 5 -b 2 -s 100 -c CHAN1 -c CHAN2 -w 1`, 400 bytes a trace): the writer
takes the first batch and its `write` returns only after the producer has handed off
the second batch, captured the fifth trace, written the tail and raised the stop flag. -/
def s2_schedule : List Event :=
  [.prep none,                         -- no prep callback
   .writer,                            -- writer 149: flag clear, goes to wait on can_write
   .producer, .acquire 0,              -- 340, 343: trace 1 into buf_a
   .producer, .acquire 0,              -- 340, 343: trace 2 into buf_a, batch full
   .producer,                          -- 385-398: lock, ready_batches == 0
   .producer,                          -- 400-416: buf_a marked ready, switch to buf_b
   .writer,                            -- writer 151-160: takes buf_a, ready_batches = 0
   .producer, .acquire 0,              -- trace 3 into buf_b
   .producer, .acquire 0,              -- trace 4 into buf_b, batch full
   .producer,                          -- 385-398: lock, ready_batches == 0
   .producer,                          -- 400-416: buf_b marked ready, switch to buf_a
   .producer, .acquire 0,              -- trace 5 into buf_a
   .producer,                          -- 340: 5 of 5 captured, loop left
   .producer,                          -- 423-428: tail of one trace, 400 bytes
   .tail_write (.accepted 400),        -- 430: the tail is written
   .producer,                          -- 434-436: total_traces_written += 1
   .producer,                          -- 440-443: g_stop = 1, broadcast
   .writer_write (.accepted 800),      -- writer 168: the write of batch 1 returns
   .writer,                            -- writer 179-182: total_traces_written += 2
   .writer,                            -- writer 149: g_stop is set, the writer returns
   .producer]                          -- 444: join, trailer, return

/-- Target 4, batches of 2, one byte a trace: the writer is still in the `write` of the
first batch when the producer hands off the second one and shuts down. -/
def lost_batch_schedule : List Event :=
  [.prep none,                         -- no prep callback
   .writer,                            -- writer 149: flag clear, goes to wait on can_write
   .producer, .acquire 0,              -- trace 1 into buf_a
   .producer, .acquire 0,              -- trace 2 into buf_a, batch full
   .producer,                          -- 385-398: lock, ready_batches == 0
   .producer,                          -- 400-416: buf_a marked ready, switch to buf_b
   .writer,                            -- writer 151-160: takes buf_a, ready_batches = 0
   .producer, .acquire 0,              -- trace 3 into buf_b
   .producer, .acquire 0,              -- trace 4 into buf_b, batch full
   .producer,                          -- 385-398: lock, ready_batches == 0
   .producer,                          -- 400-416: buf_b marked ready, ready_batches = 1
   .producer,                          -- 340: 4 of 4 captured, loop left
   .producer,                          -- 423-425: no tail
   .producer,                          -- 440-443: g_stop = 1, broadcast
   .writer_write (.accepted 2),        -- writer 168: the write of batch 1 returns
   .writer,                            -- writer 179-182: total_traces_written += 2
   .writer,                            -- writer 149: g_stop is set, the writer returns
   .producer]                          -- 444: join, trailer, return

/-- Target 3, batches of 2, one byte a trace: the producer hands off the batch, captures
the third trace and writes it as the tail before the writer, woken by the hand-off, has
run. -/
def early_tail_schedule : List Event :=
  [.prep none,                         -- no prep callback
   .writer,                            -- writer 149: flag clear, goes to wait on can_write
   .producer, .acquire 0,              -- trace 1 into buf_a
   .producer, .acquire 0,              -- trace 2 into buf_a, batch full
   .producer,                          -- 385-398: lock, ready_batches == 0
   .producer,                          -- 400-416: buf_a marked ready, signal, switch
   .producer, .acquire 0,              -- trace 3 into buf_b
   .producer,                          -- 340: 3 of 3 captured, loop left
   .producer,                          -- 423-428: tail of one trace
   .tail_write (.accepted 1)]          -- 430: the tail is written

/-- The rest of the run after `early_tail_schedule`. -/
def early_tail_rest : List Event :=
  [.producer,                          -- 434-436: total_traces_written += 1
   .producer,                          -- 440-443: g_stop = 1, broadcast
   .writer,                            -- writer 151-160: ready_batches == 1, takes buf_a
   .writer_write (.accepted 2),        -- writer 168: batch 1 is written
   .writer,                            -- writer 179-182: total_traces_written += 2
   .writer,                            -- writer 149: g_stop is set, the writer returns
   .producer]                          -- 444: join, trailer, return

/-- Target 5, batches of 2, one byte a trace: the writer has taken `buf_a` and not
written it yet when the producer, after handing off `buf_b`, is back at the acquire
call. -/
def aliasing_schedule : List Event :=
  [.prep none,                         -- no prep callback
   .writer,                            -- writer 149: flag clear, goes to wait on can_write
   .producer, .acquire 0,              -- trace 1 into buf_a
   .producer, .acquire 0,              -- trace 2 into buf_a, batch full
   .producer,                          -- 385-398: lock, ready_batches == 0
   .producer,                          -- 400-416: buf_a marked ready, switch to buf_b
   .writer,                            -- writer 151-163: takes buf_a, ready_batches = 0
   .producer, .acquire 0,              -- trace 3 into buf_b
   .producer, .acquire 0,              -- trace 4 into buf_b, batch full
   .producer,                          -- 385-398: lock, ready_batches == 0, no wait
   .producer,                          -- 400-416: buf_b marked ready, switch to buf_a
   .producer]                          -- 340: 4 of 5 captured, on to the acquire call

/-- Target 2, one batch of 2: the only `write` of the writer fails. -/
def failed_batch_schedule : List Event :=
  [.prep none,                         -- no prep callback
   .writer,                            -- writer 149: flag clear, goes to wait on can_write
   .producer, .acquire 0,              -- trace 1 into buf_a
   .producer, .acquire 0,              -- trace 2 into buf_a, batch full
   .producer,                          -- 385-398: lock, ready_batches == 0
   .producer,                          -- 400-416: buf_a marked ready
   .writer,                            -- writer 151-163: takes buf_a
   .writer_write .failed,              -- writer 168-173: write fails, g_stop = 1, break
   .writer]                            -- writer 179-182: total_traces_written += 2

/-- Target 1, batch of 2: the only `write` of the tail loop fails. -/
def failed_tail_schedule : List Event :=
  [.prep none,                         -- no prep callback
   .producer, .acquire 0,              -- trace 1 into buf_a
   .producer,                          -- 340: 1 of 1 captured, loop left
   .producer,                          -- 423-428: tail of one trace
   .tail_write .failed,                -- 430-431: write fails, break
   .producer]                          -- 434-436: total_traces_written += 1

/-- Target 20, no hand-off (batch of 32), 2 bytes a trace: the 7th attempt fails hard
with `-5`, the reconnect succeeds, every other attempt succeeds. -/
def hard_error_schedule : List Event :=
  [.prep none, .writer] ++ ok_attempts 6 ++
    [.producer, .acquire (-5),         -- the 7th attempt: hard failure
     .reconnect 0] ++                  -- 368: reconnect succeeds, continue
    ok_attempts 14 ++
    [.producer,                        -- 340: 20 of 20 captured, loop left
     .producer,                        -- 423-428: tail of 20 traces, 40 bytes
     .tail_write (.accepted 40),       -- 430: the tail is written
     .producer,                        -- 434-436: total_traces_written += 20
     .producer,                        -- 440-443: g_stop = 1, broadcast
     .writer,                          -- writer 154: nothing ready and stop: returns
     .producer]                        -- 444: join, trailer, return

/-- State at the end of `hard_error_schedule`. -/
def hard_error_final : EngineState :=
  (run (store_setup 20 32 2) (engine_init (store_setup 20 32 2)) hard_error_schedule).getD
    (engine_init (store_setup 20 32 2))

/-- Scenario S5: batches of 10, unlimited target, one byte a trace; one batch is handed
off and written, three more traces are captured, then a stop is requested. -/
def stop_mid_batch_schedule : List Event :=
  [.prep none, .writer] ++ ok_attempts 10 ++
    [.producer,                        -- 385-398: lock, ready_batches == 0
     .producer,                        -- 400-416: buf_a marked ready, switch to buf_b
     .writer,                          -- writer 151-163: takes buf_a
     .writer_write (.accepted 10),     -- writer 168: batch 1 is written
     .writer,                          -- writer 179-182: total_traces_written += 10
     .writer] ++                       -- writer 149: flag clear, goes to wait
    ok_attempts 3 ++
    [.stop_request,                    -- SIGINT
     .producer,                        -- 340: g_stop is set, loop left
     .producer,                        -- 423-428: tail of 3 traces
     .tail_write (.accepted 3),        -- 430: the tail is written
     .producer,                        -- 434-436: total_traces_written += 3
     .producer,                        -- 440-443: g_stop = 1, broadcast
     .writer,                          -- writer 154: nothing ready and stop: returns
     .producer]                        -- 444: join, trailer, return

/-- State at the end of `stop_mid_batch_schedule`. -/
def stop_mid_batch_final : EngineState :=
  (run (store_setup 0 10 1) (engine_init (store_setup 0 10 1)) stop_mid_batch_schedule).getD
    (engine_init (store_setup 0 10 1))

/-- Scenario S5 with a slow writer thread: batches of 10, unlimited target, one byte a
trace.  The `write` of the first batch has returned, but the writer has not yet run
on, when the producer hands off the second batch; three more traces are captured, then
a stop is requested.  Every `write` succeeds in full. -/
def stop_mid_batch_lost_schedule : List Event :=
  [.prep none, .writer] ++ ok_attempts 10 ++
    [.producer,                        -- 385-398: lock, ready_batches == 0
     .producer,                        -- 400-416: buf_a marked ready, switch to buf_b
     .writer] ++                       -- writer 151-163: takes buf_a, ready_batches = 0
    ok_attempts 10 ++
    [.producer,                        -- 385-398: lock, ready_batches == 0
     .producer,                        -- 400-416: buf_b marked ready, switch to buf_a
     .writer_write (.accepted 10)] ++  -- writer 168: the write of batch 1 returns
    ok_attempts 3 ++
    [.stop_request,                    -- SIGINT
     .producer,                        -- 340: g_stop is set, loop left
     .producer,                        -- 423-428: tail of 3 traces
     .tail_write (.accepted 3),        -- 430: the tail is written
     .producer,                        -- 434-436: total_traces_written += 3
     .producer,                        -- 440-443: g_stop = 1, broadcast
     .writer,                          -- writer 179-182: total_traces_written += 10
     .writer,                          -- writer 149: g_stop is set, the writer returns
     .producer]                        -- 444: join, trailer, return

/-- State at the end of `stop_mid_batch_lost_schedule`. -/
def stop_mid_batch_lost_final : EngineState :=
  (run (store_setup 0 10 1) (engine_init (store_setup 0 10 1))
    stop_mid_batch_lost_schedule).getD (engine_init (store_setup 0 10 1))

/-- In a quiet store-mode run: batch accounting, and the loop is left at its condition
with a batch that is not full. -/
structure QuietBatchInv (p : Setup) (s : EngineState) : Prop where
  batch : BatchInv p s
  quiet : QuietInv p s
  open_batch : (s.ppc = .tail ∨ s.ppc = .tail_write ∨ s.ppc = .tail_count ∨
      s.ppc = .stop_writer ∨ s.ppc = .join ∨ s.ppc = .done) →
    s.traces_in_flush_batch < p.n_flush_traces

/-- Traces handed off and not yet counted by the writer: a batch marked ready, and a
batch the writer has taken and not yet counted. -/
def in_flight (p : Setup) (s : EngineState) : Nat :=
  (if s.ready_batches = 0 then 0 else p.n_flush_traces) +
    (if s.wpc = .write ∨ s.wpc = .count then p.n_flush_traces else 0)

/-- Traces of the open batch that the producer has counted as written. -/
def tail_counted (s : EngineState) : Nat :=
  if s.ppc = .stop_writer ∨ s.ppc = .join ∨ s.ppc = .done then s.traces_in_flush_batch
  else 0

/-- Accounting of `total_traces_written` in store mode. -/
structure WrittenInv (p : Setup) (s : EngineState) : Prop where
  account : s.total_traces_written + in_flight p s =
    s.handoffs * p.n_flush_traces + tail_counted s
  joined : s.ppc = .done → s.wpc = .done

/-! ## Transport (`src/scope/scope.c`)

The VISA library (`viRead`, `viWrite`, `viSetAttribute`) is the environment of
`scope.c`.  A session value carries the instrument handle, the termination-character
switch, and the environment: the packets the instrument still has to deliver, the
results the next `viWrite` calls will report, and a log of every library call issued.

* Bytes are natural numbers below 256.
* A buffer argument is returned as the list of bytes the call stored at its start;
  the rest of the caller's buffer is left as it was.
* `(ViUInt32)x` is `x % 2^32`.
* Pointer arguments are non-null; the `malloc` of `scope_query` for long commands
  succeeds.
* `scope_open` disables the termination character and `scope_query` disables it again
  after its read, so the binary reads run with `termchar_en = false`.
-/

/-- The null session handle `VI_NULL`. -/
def VI_NULL : Nat := 0

/-- Completion code `VI_SUCCESS`. -/
def VI_SUCCESS : Int := 0

/-- Completion code `VI_SUCCESS_TERM_CHAR` (`0x3FFF0005`). -/
def VI_SUCCESS_TERM_CHAR : Int := 1073676293

/-- Completion code `VI_SUCCESS_MAX_CNT` (`0x3FFF0006`). -/
def VI_SUCCESS_MAX_CNT : Int := 1073676294

/-- Error code `VI_ERROR_TMO` (`0xBFFF0015` as a signed 32-bit value). -/
def VI_ERROR_TMO : Int := -1073807339

/-- The cast `(ViUInt32)x`. -/
def VI_UINT32 (x : Nat) : Nat := x % 4294967296

/-- What one `viRead` call reports: its status and the bytes it stored (`retCount` is
their number).  In the environment, a packet: bytes that arrive together and the status
with which the transfer of its last byte ends. -/
structure ViRead where
  st : Int
  data : List Nat
  deriving DecidableEq, Repr

/-- What one `viWrite` call reports: its status and `retCount`. -/
structure ViWrite where
  st : Int
  wrote : Nat
  deriving DecidableEq, Repr

/-- The record `struct Scope` with the state of the library behind the handle.
`rx` and `tx` are the environment; `rlog` and `wlog` record the calls issued
(`wlog` holds, per `viWrite` call, the status and the bytes the library accepted). -/
structure Scope where
  instr : Nat
  termchar_en : Bool
  rx : List ViRead
  tx : List ViWrite
  rlog : List ViRead
  wlog : List (Int × List Nat)
  deriving DecidableEq, Repr

/-- Number of bytes of `data` up to and including the first line feed; all of them when
there is none. -/
def term_stop : List Nat → Nat
  | [] => 0
  | c :: cs => if c = 10 then 1 else term_stop cs + 1

/-- Environment: `viRead(instr, buf, count, &got)`.  With nothing to deliver the call
times out.  Otherwise it delivers from the first packet: at most `count` bytes and, when
the termination character is enabled, nothing past the first line feed.  A call that
stops before the end of the packet reports `VI_SUCCESS_MAX_CNT` or
`VI_SUCCESS_TERM_CHAR` and the rest of the packet stays for the next call.  A call that
takes the packet to its end reports the packet's status, unless that status is an error
and the call has its `count` bytes: a call whose count is reached succeeds, and the
error is met by the next call. -/
def viRead (s : Scope) (count : Nat) : ViRead × Scope :=
  match s.rx with
  | [] => (⟨VI_ERROR_TMO, []⟩, { s with rlog := s.rlog ++ [⟨VI_ERROR_TMO, []⟩] })
  | p :: rest =>
    let stop := if s.termchar_en then term_stop p.data else p.data.length
    let n := min count stop
    if n < p.data.length then
      (⟨if count ≤ stop then VI_SUCCESS_MAX_CNT else VI_SUCCESS_TERM_CHAR, p.data.take n⟩,
        { s with
            rx := ⟨p.st, p.data.drop n⟩ :: rest
            rlog := s.rlog ++
              [⟨if count ≤ stop then VI_SUCCESS_MAX_CNT else VI_SUCCESS_TERM_CHAR,
                p.data.take n⟩] })
    else if p.st < 0 ∧ count ≤ p.data.length then
      (⟨VI_SUCCESS_MAX_CNT, p.data⟩,
        { s with
            rx := ⟨p.st, []⟩ :: rest
            rlog := s.rlog ++ [⟨VI_SUCCESS_MAX_CNT, p.data⟩] })
    else (p, { s with rx := rest, rlog := s.rlog ++ [p] })

/-- Environment: `viWrite(instr, buf, count, &wrote)`.  The call reports the next
scripted result, accepting no more than `count` bytes; with no scripted result left it
times out. -/
def viWrite (s : Scope) (buf : List Nat) (count : Nat) : ViWrite × Scope :=
  match s.tx with
  | [] => (⟨VI_ERROR_TMO, 0⟩, { s with wlog := s.wlog ++ [(VI_ERROR_TMO, [])] })
  | w :: rest =>
    (⟨w.st, min w.wrote count⟩,
      { s with tx := rest, wlog := s.wlog ++ [(w.st, buf.take (min w.wrote count))] })

/-- Result of `scope_read`: the return code, the value stored through `out_len` (`none`
when the call stores nothing there), the bytes stored in `buf`, and the session. -/
structure ReadOut where
  rc : Int
  out_len : Option Nat
  buf : List Nat
  s : Scope
  deriving DecidableEq, Repr

/-- The loop `while (rem > 0)` of `scope_read` (lines 211-230).  The first argument
bounds the number of iterations; every iteration that continues takes at least one
byte off `rem`, so `rem` iterations suffice (`scope_read_loop_fuel`). -/
def scope_read_loop : Nat → Scope → Nat → Nat → List Nat → ReadOut
  | 0, s, _, total, buf => ⟨0, some total, buf, s⟩
  | fuel + 1, s, rem, total, buf =>
    if rem = 0 then ⟨0, some total, buf, s⟩
    else if (viRead s (VI_UINT32 rem)).1.st < VI_SUCCESS ∧
        (viRead s (VI_UINT32 rem)).1.st ≠ VI_SUCCESS_MAX_CNT then
      ⟨-3, some (total + (viRead s (VI_UINT32 rem)).1.data.length),
        buf ++ (viRead s (VI_UINT32 rem)).1.data, (viRead s (VI_UINT32 rem)).2⟩
    else if (viRead s (VI_UINT32 rem)).1.data.length = 0 then
      ⟨-3, some total, buf, (viRead s (VI_UINT32 rem)).2⟩
    else
      scope_read_loop fuel (viRead s (VI_UINT32 rem)).2
        (rem - (viRead s (VI_UINT32 rem)).1.data.length)
        (total + (viRead s (VI_UINT32 rem)).1.data.length)
        (buf ++ (viRead s (VI_UINT32 rem)).1.data)

/-- The function `scope_read` (lines 194-232). -/
def scope_read (s : Scope) (len : Nat) (exact : Bool) : ReadOut :=
  if s.instr = VI_NULL then ⟨-1, none, [], s⟩
  else if exact = false then
    if (viRead s (VI_UINT32 len)).1.st < VI_SUCCESS ∧
        (viRead s (VI_UINT32 len)).1.st ≠ VI_SUCCESS_MAX_CNT then
      ⟨-2, none, (viRead s (VI_UINT32 len)).1.data, (viRead s (VI_UINT32 len)).2⟩
    else
      ⟨0, some (viRead s (VI_UINT32 len)).1.data.length, (viRead s (VI_UINT32 len)).1.data,
        (viRead s (VI_UINT32 len)).2⟩
  else scope_read_loop len s len 0 []

/-- Result of `scope_write`: the return code and the session. -/
structure WriteOut where
  rc : Int
  s : Scope
  deriving DecidableEq, Repr

/-- The length `this_len` of one `viWrite` call (lines 246-247). -/
def write_chunk (len : Nat) : Nat :=
  if len > 2147483647 then 2147483647 else VI_UINT32 len

/-- The loop `while (len > 0)` of `scope_write` (lines 244-256) on the bytes not yet
accepted.  The first argument bounds the number of iterations; every iteration that
continues removes at least one byte, so `len` iterations suffice
(`scope_write_loop_fuel`). -/
def scope_write_loop : Nat → Scope → List Nat → WriteOut
  | 0, s, _ => ⟨0, s⟩
  | fuel + 1, s, p =>
    if p.length = 0 then ⟨0, s⟩
    else if (viWrite s p (write_chunk p.length)).1.st < VI_SUCCESS ∨
        (viWrite s p (write_chunk p.length)).1.wrote = 0 then
      ⟨-2, (viWrite s p (write_chunk p.length)).2⟩
    else
      scope_write_loop fuel (viWrite s p (write_chunk p.length)).2
        (p.drop (viWrite s p (write_chunk p.length)).1.wrote)

/-- The function `scope_write` (lines 236-257); `len` is the length of `buf`. -/
def scope_write (s : Scope) (buf : List Nat) : WriteOut :=
  if s.instr = VI_NULL then ⟨-1, s⟩
  else if buf.length = 0 then ⟨0, s⟩
  else scope_write_loop buf.length s buf

/-- The assignment of `data` to the start of the buffer `buf`. -/
def store (buf data : List Nat) : List Nat :=
  data ++ buf.drop data.length

/-- The loop of `scope_query` that trims trailing CR and LF (lines 333-337), from the
index `n` downwards; it returns the final `n` and the buffer. -/
def trim_crlf : Nat → List Nat → Nat × List Nat
  | 0, resp => (0, resp)
  | n + 1, resp =>
    if resp.getD n 0 ≠ 10 ∧ resp.getD n 0 ≠ 13 then (n + 1, resp)
    else trim_crlf n (resp.set n 0)

/-- Result of `scope_query`: the return code, the caller's buffer `resp` after the call,
and the session. -/
structure QueryOut where
  rc : Int
  resp : List Nat
  s : Scope
  deriving DecidableEq, Repr

/-- The function `scope_query` (lines 286-340).  `cmd` holds the bytes of the command
string, `resp` is the caller's buffer and `resp_cap` its length.  The two
`viSetAttribute` calls switch the termination character on for the read and off after
it. -/
def scope_query (s : Scope) (cmd resp : List Nat) : QueryOut :=
  if s.instr = VI_NULL ∨ resp.length = 0 then ⟨-1, resp, s⟩
  else if (viWrite s (cmd ++ [10]) (VI_UINT32 (cmd.length + 1))).1.st < VI_SUCCESS ∨
      (viWrite s (cmd ++ [10]) (VI_UINT32 (cmd.length + 1))).1.wrote ≠
        VI_UINT32 (cmd.length + 1) then
    ⟨-2, resp, (viWrite s (cmd ++ [10]) (VI_UINT32 (cmd.length + 1))).2⟩
  else
    let r := viRead { (viWrite s (cmd ++ [10]) (VI_UINT32 (cmd.length + 1))).2 with
                        termchar_en := true } (VI_UINT32 (resp.length - 1))
    if r.1.st < VI_SUCCESS ∧ r.1.st ≠ VI_SUCCESS_MAX_CNT then
      ⟨-3, store resp r.1.data, { r.2 with termchar_en := false }⟩
    else
      ⟨0, (trim_crlf (if r.1.data.length < resp.length - 1 then r.1.data.length
                        else resp.length - 1)
            ((store resp r.1.data).set
              (if r.1.data.length < resp.length - 1 then r.1.data.length
                else resp.length - 1) 0)).2,
        { r.2 with termchar_en := false }⟩

/-- The string a buffer holds: its bytes before the first NUL. -/
def c_string (buf : List Nat) : List Nat :=
  buf.takeWhile (fun c => c ≠ 0)

/-- The function `scope_skip_bytes` (lines 349-359).  The first argument bounds the
number of iterations; every iteration that continues takes at least one byte off `n`,
so `n` iterations suffice (`scope_skip_bytes_fuel`). -/
def scope_skip_bytes : Nat → Scope → Nat → Int × Scope
  | 0, s, _ => (0, s)
  | fuel + 1, s, n =>
    if n = 0 then (0, s)
    else if (scope_read s (if n > 1024 then 1024 else n) false).rc ≠ 0 then
      (-1, (scope_read s (if n > 1024 then 1024 else n) false).s)
    else if (scope_read s (if n > 1024 then 1024 else n) false).out_len.getD 0 = 0 then
      (-2, (scope_read s (if n > 1024 then 1024 else n) false).s)
    else
      scope_skip_bytes fuel (scope_read s (if n > 1024 then 1024 else n) false).s
        (n - (scope_read s (if n > 1024 then 1024 else n) false).out_len.getD 0)

/-- The test `isspace` of the C locale. -/
def isspace (c : Nat) : Bool :=
  c = 32 || (9 ≤ c && c ≤ 13)

/-- The test `isdigit`. -/
def isdigit (c : Nat) : Bool :=
  48 ≤ c && c ≤ 57

/-- Largest value of `unsigned long long`. -/
def ULLONG_MAX : Nat := 18446744073709551615

/-- The digit loop of `strtoull` in base 10: it stops at the first byte that is not a
digit. -/
def strtoull_digits : List Nat → Nat → Nat
  | [], acc => acc
  | c :: cs, acc => if isdigit c then strtoull_digits cs (acc * 10 + (c - 48)) else acc

/-- Environment: `strtoull(str, NULL, 10)` of the C library on the bytes found at `str`:
white space is skipped, one sign is accepted, the digits that follow are the value, a
value out of range gives `ULLONG_MAX`, and a minus sign negates in the unsigned type. -/
def strtoull (str : List Nat) : Nat :=
  let t := str.dropWhile isspace
  let v := strtoull_digits (if t.head? = some 45 ∨ t.head? = some 43 then t.tail else t) 0
  if v > ULLONG_MAX then ULLONG_MAX
  else if t.head? = some 45 then (ULLONG_MAX + 1 - v) % (ULLONG_MAX + 1)
  else v

/-- The value of a byte read through the type `char`, taken as signed; with an unsigned
`char` the tests of `scope_read_defblock` on `hdr` decide the same way. -/
def char_of_byte (b : Nat) : Int :=
  if b ≥ 128 then (b : Int) - 256 else (b : Int)

/-- Result of `scope_read_defblock`: the return code, the value stored through
`out_len` (`none` when nothing is stored), the bytes stored in `dst`, and the session. -/
structure DefblockOut where
  rc : Int
  out_len : Option Nat
  dst : List Nat
  s : Scope
  deriving DecidableEq, Repr

/-- Steps 4 and 5 of `scope_read_defblock` (lines 381-395), once `payload_len` is
known: the payload is read into `dst` when it fits and drained otherwise, and one more
read of a single byte follows, its result ignored. -/
def defblock_payload (s : Scope) (cap payload_len : Nat) : DefblockOut :=
  if payload_len > cap then
    if (scope_skip_bytes payload_len s payload_len).1 ≠ 0 then
      ⟨-6, none, [], (scope_skip_bytes payload_len s payload_len).2⟩
    else
      ⟨-6, none, [], (scope_read (scope_skip_bytes payload_len s payload_len).2 1 false).s⟩
  else if (scope_read s payload_len true).rc ≠ 0 then
    ⟨-7, none, (scope_read s payload_len true).buf, (scope_read s payload_len true).s⟩
  else
    ⟨0, some payload_len, (scope_read s payload_len true).buf,
      (scope_read (scope_read s payload_len true).s 1 false).s⟩

/-- The function `scope_read_defblock` (lines 362-396).  `lenbuf` is what the memory of
the local array `lenbuf` (and after it) holds when the function is entered: the array
has no initialiser and the function stores only its first `ndig` bytes before
`strtoull` reads it. -/
def scope_read_defblock (s : Scope) (cap : Nat) (lenbuf : List Nat) : DefblockOut :=
  if s.instr = VI_NULL then ⟨-1, none, [], s⟩
  else if (scope_read s 2 true).rc ≠ 0 then ⟨-2, none, [], (scope_read s 2 true).s⟩
  else if char_of_byte ((scope_read s 2 true).buf.getD 0 0) ≠ 35 then
    ⟨-3, none, [], (scope_read s 2 true).s⟩
  else if char_of_byte ((scope_read s 2 true).buf.getD 1 0) - 48 ≤ 0 ∨
      char_of_byte ((scope_read s 2 true).buf.getD 1 0) - 48 > 9 then
    ⟨-4, none, [], (scope_read s 2 true).s⟩
  else if (char_of_byte ((scope_read s 2 true).buf.getD 1 0) - 48).toNat ≥ 10 then
    ⟨-4, none, [], (scope_read s 2 true).s⟩
  else if (scope_read (scope_read s 2 true).s
      (char_of_byte ((scope_read s 2 true).buf.getD 1 0) - 48).toNat true).rc ≠ 0 then
    ⟨-5, none, [], (scope_read (scope_read s 2 true).s
      (char_of_byte ((scope_read s 2 true).buf.getD 1 0) - 48).toNat true).s⟩
  else
    defblock_payload
      (scope_read (scope_read s 2 true).s
        (char_of_byte ((scope_read s 2 true).buf.getD 1 0) - 48).toNat true).s
      cap
      (strtoull (store lenbuf
        (scope_read (scope_read s 2 true).s
          (char_of_byte ((scope_read s 2 true).buf.getD 1 0) - 48).toNat true).buf))

/-! ## Channel list (`src/engine/utils.c`)

A C string is a `String` (a list of characters) without NUL, one character per byte.
The array `channels` is the list of its entries before the terminating null pointer.
`strdup` and `realloc` succeed.
-/

/-- The constant `SCOPE_MAX_CHANS` of `engine.h`. -/
def SCOPE_MAX_CHANS : Nat := 8

/-- The function `add_channel` (lines 71-101): the return code and the configuration
after the call.  The increment of the `uint8_t` counter cannot wrap, the counter being
below `SCOPE_MAX_CHANS` where it is executed. -/
def add_channel (out : RunConfig) (ch : String) : Int × RunConfig :=
  if ch = "" then (-2, out)
  else if ch ∈ out.channels.take out.n_channels then (-1, out)
  else if out.n_channels ≥ SCOPE_MAX_CHANS then (-3, out)
  else
    (0, { out with
            channels := out.channels.take out.n_channels ++ [ch]
            n_channels := out.n_channels + 1 })

/-- The trailing trim of `parse_channels_list` (lines 121-122): characters are removed
from the end while they are white space. -/
def rtrim (s : List Char) : List Char :=
  (s.reverse.dropWhile (fun c => isspace c.toNat)).reverse

/-- The text of `p` before the next comma, or all of `p` when it has no comma: its
length is `q - p` when `strchr` finds a comma and `strlen(p)` otherwise (lines 110-111). -/
def first_element (p : List Char) : List Char :=
  p.takeWhile (fun c => c ≠ ',')

/-- The element `parse_channels_list` hands to `add_channel` for the text `p` up to the
next comma (lines 113-122): at most 63 characters are copied to `tmp`, leading and then
trailing white space is dropped. -/
def element_of (p : List Char) : List Char :=
  rtrim (((first_element p).take
    (if (first_element p).length ≥ 64 then 63 else (first_element p).length)).dropWhile
      (fun c => isspace c.toNat))

/-- The loop of `parse_channels_list` (lines 109-131) on the rest `p` of the argument
with the current `rc_all`; `strchr` finds no comma when the first element is all of `p`.
The first argument bounds the number of iterations; every iteration that continues
removes at least the comma from `p` (`parse_channels_loop_fuel`). -/
def parse_channels_loop : Nat → RunConfig → List Char → Int → Int × RunConfig
  | 0, out, _, rc_all => (rc_all, out)
  | fuel + 1, out, p, rc_all =>
    if p = [] then (rc_all, out)
    else if element_of p ≠ [] then
      if (first_element p).length = p.length then
        (if (add_channel out (String.mk (element_of p))).1 ≠ 0 ∧ rc_all = 0
          then (add_channel out (String.mk (element_of p))).1 else rc_all,
          (add_channel out (String.mk (element_of p))).2)
      else
        parse_channels_loop fuel (add_channel out (String.mk (element_of p))).2
          (p.drop ((first_element p).length + 1))
          (if (add_channel out (String.mk (element_of p))).1 ≠ 0 ∧ rc_all = 0
            then (add_channel out (String.mk (element_of p))).1 else rc_all)
    else if (first_element p).length = p.length then (rc_all, out)
    else parse_channels_loop fuel out (p.drop ((first_element p).length + 1)) rc_all

/-- The function `parse_channels_list` (lines 103-133). -/
def parse_channels_list (out : RunConfig) (arg : String) : Int × RunConfig :=
  parse_channels_loop (arg.data.length + 1) out arg.data 0

/-- An empty configuration: no channel stored. -/
def empty_config : RunConfig :=
  { instr_name := none, coding := 0, n_samples := 0, raw_start_idx := 0, n_traces := 0
    n_flush_traces := 0, channels := [], n_channels := 0, outfile := none
    verbose := false, diagnose := false }

/-- The configuration after a sequence of `add_channel` calls, one per name. -/
def add_channels (out : RunConfig) : List String → RunConfig
  | [] => out
  | ch :: rest => add_channels (add_channel out ch).2 rest

/-- The elements of a comma-separated argument. -/
def split_commas : List Char → List (List Char)
  | [] => [[]]
  | c :: cs =>
    if c = ',' then [] :: split_commas cs
    else
      match split_commas cs with
      | [] => [[c]]
      | e :: es => (c :: e) :: es

/-- An element with its leading and trailing white space removed. -/
def trimmed (e : List Char) : List Char :=
  rtrim (e.dropWhile (fun c => isspace c.toNat))

/-- The return codes of a sequence of `add_channel` calls, one per name. -/
def call_codes (out : RunConfig) : List String → List Int
  | [] => []
  | ch :: rest => (add_channel out ch).1 :: call_codes (add_channel out ch).2 rest

/-- The code of the first call that failed; 0 when every call returned 0. -/
def first_failure : List Int → Int
  | [] => 0
  | rc :: rest => if rc ≠ 0 then rc else first_failure rest

/-- The names the specification of `parse_channels_list` offers: the elements of the
argument with their white space trimmed, without those that are empty then. -/
def offered_names (arg : List Char) : List String :=
  (((split_commas arg).map trimmed).filter (fun e => e ≠ [])).map String.mk

/-- Specification of `parse_channels_list`: `add_channel` is called on each offered
name in order; the result is the code of the first call that failed, or 0, and the
configuration after the calls. -/
def parse_channels_spec (out : RunConfig) (arg : String) : Int × RunConfig :=
  (first_failure (call_codes out (offered_names arg.data)),
    add_channels out (offered_names arg.data))

/-! ## Transport: streams and logs (definitions used by the statements) -/

/-- The bytes accepted by a sequence of `viWrite` calls, in order. -/
def accepted : List (Int × List Nat) → List Nat
  | [] => []
  | c :: cs => c.2 ++ accepted cs

/-- The bytes of a sequence of `viRead` results (or of packets), in order. -/
def delivered : List ViRead → List Nat
  | [] => []
  | r :: rs => r.data ++ delivered rs

/-- The packets `rx` hold the stream `bytes`: every packet is non-empty and ends with a
success status, and the bytes of the packets in order are `bytes`. -/
def delivers (rx : List ViRead) (bytes : List Nat) : Prop :=
  (∀ p ∈ rx, 0 ≤ p.st ∧ p.data ≠ []) ∧ delivered rx = bytes

/-- An open session whose instrument accepts three bytes with the first `viWrite` and
up to ten with the second. -/
def write_demo : Scope :=
  ⟨1, false, [], [⟨0, 3⟩, ⟨0, 10⟩], [], []⟩

/-- An open session whose instrument sends three bytes and then two. -/
def read_demo : Scope :=
  ⟨1, false, [⟨0, [1, 2, 3]⟩, ⟨0, [4, 5]⟩], [], [], []⟩

/-- An open session whose instrument sends three bytes and then nothing: the read that
takes them times out. -/
def read_timeout_demo : Scope :=
  ⟨1, false, [⟨VI_ERROR_TMO, [1, 2, 3]⟩], [], [], []⟩

/-- A byte string with every trailing CR and LF removed. -/
def strip_crlf (l : List Nat) : List Nat :=
  (l.reverse.dropWhile (fun c => c = 10 || c = 13)).reverse

/-- An open session whose instrument accepts any command and replies `ABCDEF` and a
line feed. -/
def query_demo : Scope :=
  ⟨1, false, [⟨0, [65, 66, 67, 68, 69, 70, 10]⟩], [⟨0, 100⟩], [], []⟩

/-- An open session whose instrument accepts any command and replies with a carriage
return, a NUL byte and a line feed. -/
def query_nul_demo : Scope :=
  ⟨1, false, [⟨0, [13, 0, 10]⟩], [⟨0, 100⟩], [], []⟩

/-- A configuration with eight channels stored. -/
def full_config : RunConfig :=
  add_channels empty_config ["CHAN1", "CHAN2", "CHAN3", "CHAN4", "MATH", "D0", "D1", "D2"]

/-! ## Definite-length blocks (definitions used by the statements) -/

/-- The decimal value of a string of ASCII digits. -/
def decimal_value (ds : List Nat) : Nat :=
  ds.foldl (fun a c => a * 10 + (c - 48)) 0

/-- The decimal digits of `L` in ASCII, most significant first. -/
def dec_digits (L : Nat) : List Nat :=
  if L = 0 then [48] else (Nat.digits 10 L).reverse.map (fun d => d + 48)

/-- The header of a definite-length block with the length digits `ds`: `#`, the digit
that counts `ds`, and `ds`. -/
def block_header (ds : List Nat) : List Nat :=
  35 :: (48 + ds.length) :: ds

/-- The bytes found in the array `lenbuf` after its first `n` do not continue a number:
the byte at index `n`, if there is one, is not a digit. -/
def ends_number (lenbuf : List Nat) (n : Nat) : Prop :=
  ∀ c, (lenbuf.drop n).head? = some c → isdigit c = false

/-- An open session, termination character disabled, whose instrument sends `bytes` in
one packet. -/
def stream_session (bytes : List Nat) : Scope :=
  ⟨1, false, [⟨0, bytes⟩], [], [], []⟩

/-- The block `#15HELLO` with its trailing line feed. -/
def hello_block : List Nat :=
  [35, 49, 53, 72, 69, 76, 76, 79, 10]

/-- The block `#15HELLO` without a trailing line feed. -/
def hello_block_no_lf : List Nat :=
  [35, 49, 53, 72, 69, 76, 76, 79]

/-- The block `#13abc` with its trailing line feed. -/
def abc_block : List Nat :=
  [35, 49, 51, 97, 98, 99, 10]

/-- A content of `lenbuf` on entry that ends every number: ten NUL bytes. -/
def clean_lenbuf : List Nat :=
  [0, 0, 0, 0, 0, 0, 0, 0, 0, 0]

/-- A content of `lenbuf` on entry with the digits `10` in its first two bytes, as a
call that read the two length digits `10` leaves them. -/
def stale_lenbuf : List Nat :=
  [49, 48, 0, 0, 0, 0, 0, 0, 0, 0]

/-- The block `#15HELLO` with its trailing line feed, followed by 44 more bytes. -/
def hello_block_and_more : List Nat :=
  hello_block ++ List.replicate 44 65

/-! ## The slice handed to `acquire` and the hand-off variables (definitions) -/

/-- Line 343: the offset of `dst` inside the active buffer,
`traces_in_flush_batch * bytes_per_trace`. -/
def dst_offset (p : Setup) (s : EngineState) : Nat :=
  s.traces_in_flush_batch * p.bytes_per_trace

/-- Fill level of the active buffer, in store mode and in no-store mode: the batch
counter never exceeds `n_flush_traces`, it is below `n_flush_traces` wherever the
producer is inside the loop body before the hand-off, and both buffers keep their
`n_flush_traces` slots. -/
structure SliceInv (p : Setup) (s : EngineState) : Prop where
  le : s.traces_in_flush_batch ≤ p.n_flush_traces
  lt : (s.ppc = .prep ∨ s.ppc = .loop_head ∨ s.ppc = .acquire ∨ s.ppc = .reconnect) →
    s.traces_in_flush_batch < p.n_flush_traces
  len_a : s.buf_a.length = p.n_flush_traces
  len_b : s.buf_b.length = p.n_flush_traces

/-- The hand-off variables: `ready_batches` and `next_write_batch_idx` are 0 or 1, so
is the index of the active buffer; before the first hand-off the index is the initial
0, afterwards it is the buffer the producer is not filling, the one it handed over;
without an output file there is no hand-off. -/
structure ReadyInv (p : Setup) (s : EngineState) : Prop where
  ready : s.ready_batches = 0 ∨ s.ready_batches = 1
  idx : s.next_write_batch_idx = 0 ∨ s.next_write_batch_idx = 1
  active : s.active_buf = 0 ∨ s.active_buf = 1
  first : s.handoffs = 0 → s.next_write_batch_idx = 0
  names : 1 ≤ s.handoffs → s.next_write_batch_idx = other_buf s.active_buf
  no_store : p.store = false →
    s.handoffs = 0 ∧ s.ppc ≠ .handoff_lock ∧ s.ppc ≠ .handoff_wait

/-- What one step does to the hand-off variables: either it is no hand-off and leaves
the number of hand-offs and `next_write_batch_idx` as they were, or it is the hand-off
of lines 407-416, which sets `next_write_batch_idx` to the buffer that was active
(the one just filled), marks one batch ready and makes the other buffer active. -/
def HandoffOrKeep (s s1 : EngineState) : Prop :=
  (s1.handoffs = s.handoffs ∧ s1.next_write_batch_idx = s.next_write_batch_idx) ∨
  (s1.handoffs = s.handoffs + 1 ∧ s1.next_write_batch_idx = s.active_buf ∧
    s1.ready_batches = 1 ∧ s1.active_buf = other_buf s.active_buf ∧
    s.ppc = .handoff_wait ∧ s.ready_batches = 0)

/-- A run without an output file that reaches the acquire call a third time: one trace
captured, one hard failure followed by a successful reconnect. -/
def slice_demo_schedule : List Event :=
  [.prep none, .producer, .acquire 0, .producer, .acquire (-7), .reconnect 0, .producer]

/-- The setup of `-n 0 -b 2` with 100 samples on one channel and no output file. -/
def slice_demo_setup : Setup :=
  { n_traces := 0, n_flush_traces := 2, bytes_per_trace := 100,
    bytes_per_flush_batch := 200, store := false }

/-- The state `slice_demo_schedule` leads to. -/
def slice_demo_state : EngineState :=
  (run slice_demo_setup (engine_init slice_demo_setup) slice_demo_schedule).getD
    (engine_init slice_demo_setup)

/-- Scenario S1 up to the first hand-off (`-n 4 -b 2`, 100 bytes a trace): two traces
fill `buf_a`, the producer hands it over and makes `buf_b` active. -/
def first_handoff_schedule : List Event :=
  [.prep none, .writer, .producer, .acquire 0, .producer, .acquire 0, .producer, .producer]

/-- The state `first_handoff_schedule` leads to. -/
def first_handoff_state : EngineState :=
  (run (store_setup 4 2 100) (engine_init (store_setup 4 2 100)) first_handoff_schedule).getD
    (engine_init (store_setup 4 2 100))

/-! ## The log handle of the acquisition loop (definitions) -/

/-- Lines 257-323: whether `core->fp_log` is an open log file when the acquisition loop
starts.  Only the store branch assigns it (line 272, and the run goes on only if
`open_log_file` returned a handle); the no-store branch leaves the field as the caller
passed it, and `main.c` passes `EngineCore core = {0}`, a null handle. -/
def fp_log_open (p : Setup) : Bool :=
  p.store

/-- A run without an output file whose first acquire call misses the arm window. -/
def nostore_soft_miss_schedule : List Event :=
  [.prep none, .producer, .acquire ACQ_ERR_ARM_TIMEOUT]

/-- A run without an output file whose first acquire call fails hard. -/
def nostore_hard_failure_schedule : List Event :=
  [.prep none, .producer, .acquire (-7)]

/-! ## Trigger status and diagnose mode (`ds1000ze.c`, `engine.c`)

A command string is given by its bytes.  An array on the stack that the C code does not
initialise (`char resp[16];`) is a parameter: the bytes it holds at entry. -/

/-- The bytes of a string literal. -/
def str_bytes (s : String) : List Nat :=
  s.data.map Char.toNat

/-- Result of `ds1000ze_check_if_armed`: the return code, the value stored through
`armed` (`none` when the call stores nothing there), and the session. -/
structure ArmedOut where
  rc : Int
  armed : Option Bool
  s : Scope
  deriving DecidableEq, Repr

/-- The function `ds1000ze_check_if_armed` (lines 194-205) for non-null arguments;
`resp` is the array `char resp[16]` as the stack holds it at entry.  The test is on the
first character of the reply: `'W'` is 87 and `'R'` is 82. -/
def ds1000ze_check_if_armed (s : Scope) (resp : List Nat) : ArmedOut :=
  if (scope_query s (str_bytes ":TRIG:STAT?") resp).rc < 0 then
    ⟨-2, none, (scope_query s (str_bytes ":TRIG:STAT?") resp).s⟩
  else
    ⟨0, some (decide ((scope_query s (str_bytes ":TRIG:STAT?") resp).resp.getD 0 0 = 87 ∨
                (scope_query s (str_bytes ":TRIG:STAT?") resp).resp.getD 0 0 = 82)),
      (scope_query s (str_bytes ":TRIG:STAT?") resp).s⟩

/-- An open session whose instrument accepts one command and answers with `reply` and a
line feed. -/
def reply_session (reply : String) : Scope :=
  ⟨1, false, [⟨0, str_bytes reply ++ [10]⟩], [⟨0, 100⟩], [], []⟩

/-- Sixteen bytes of stack left over from earlier calls. -/
def stale_resp : List Nat :=
  [87, 65, 73, 84, 0, 9, 9, 9, 9, 9, 9, 9, 9, 9, 9, 9]

/-- The calls `engine_diagnose` makes through the driver table. -/
inductive DriverCall where
  | init
  | dump_log
  | destroy
  deriving DecidableEq, Repr

/-- Result of `engine_diagnose`: the return code, the session (its write log holds the
commands sent), the driver calls in order, and the four reply buffers `idn`, `trig`,
`srate`, `wmode` as far as they were filled. -/
structure DiagnoseOut where
  rc : Int
  s : Scope
  calls : List DriverCall
  replies : List (List Nat)
  deriving DecidableEq, Repr

/-- The function `engine_diagnose` (lines 476-541) for a non-null core; `init_rc` is
what `driver->init` returned and `s` the session it left.  The driver calls are
recorded, not run; the `CHAN1` fallback, the printed report and the final
`destroy_run_config` act on the configuration and on `stdout` only and are left
out. -/
def engine_diagnose (init_rc : Int) (s : Scope) : DiagnoseOut :=
  if init_rc ≠ 0 then ⟨-2, s, [.init], []⟩
  else
    let idn := scope_query s (str_bytes "*IDN?") (List.replicate 256 0)
    if idn.rc ≠ 0 then ⟨-3, idn.s, [.init, .destroy], []⟩
    else
      let trig := scope_query idn.s (str_bytes ":TRIG:STAT?") (List.replicate 16 0)
      if trig.rc ≠ 0 then ⟨-4, trig.s, [.init, .destroy], [idn.resp]⟩
      else
        let srate := scope_query trig.s (str_bytes ":ACQ:SRAT?") (List.replicate 64 0)
        if srate.rc ≠ 0 then ⟨-5, srate.s, [.init, .destroy], [idn.resp, trig.resp]⟩
        else
          let wmode := scope_query srate.s (str_bytes ":WAV:MODE?") (List.replicate 32 0)
          ⟨0, wmode.s, [.init, .dump_log, .destroy],
            [idn.resp, trig.resp, srate.resp, wmode.resp]⟩

/-- Lines 193-197 of `engine_run`: the return value in diagnose mode. -/
def engine_run_diagnose (init_rc : Int) (s : Scope) : Int :=
  if (engine_diagnose init_rc s).rc = 0 then 0 else -1

/-- An open session whose instrument accepts every command and answers the first
`replies.length` queries, each reply followed by a line feed; later reads time out. -/
def diagnose_session (replies : List String) : Scope :=
  ⟨1, false, replies.map (fun r => ⟨0, str_bytes r ++ [10]⟩),
    List.replicate 4 ⟨0, 100⟩, [], []⟩

/-- The commands a session was sent, as the write log shows them. -/
def commands_sent (s : Scope) : List (List Nat) :=
  s.wlog.map Prod.snd

/-- The first query of `engine_diagnose` (line 493). -/
def idn_query (s : Scope) : QueryOut :=
  scope_query s (str_bytes "*IDN?") (List.replicate 256 0)

/-- The second query of `engine_diagnose` (line 501), on the session the first left. -/
def trig_query (s : Scope) : QueryOut :=
  scope_query (idn_query s).s (str_bytes ":TRIG:STAT?") (List.replicate 16 0)

/-- The third query of `engine_diagnose` (line 509). -/
def srate_query (s : Scope) : QueryOut :=
  scope_query (trig_query s).s (str_bytes ":ACQ:SRAT?") (List.replicate 64 0)

/-- The fourth query of `engine_diagnose` (line 517), its result ignored. -/
def wmode_query (s : Scope) : QueryOut :=
  scope_query (srate_query s).s (str_bytes ":WAV:MODE?") (List.replicate 32 0)

/-! ## Opening an instrument: the probe of a candidate (`src/scope/scope.c`)

A candidate session carries its three attributes and its transport; the fields after
`io` are bookkeeping that the C code does not have.  Environment: `viSetAttribute`
answers with the next status of `attr_st` (`VI_SUCCESS` when the list is exhausted)
and sets the attribute only when the status is not an error; `viFlush` discards
nothing the model keeps. -/

/-- The constant `DEFAULT_VISA_TIMEOUT_MS` of `scope.h`. -/
def DEFAULT_VISA_TIMEOUT_MS : Nat := 2500

/-- The attributes the code sets. -/
inductive ViAttr where
  | VI_ATTR_TMO_VALUE
  | VI_ATTR_TERMCHAR_EN
  | VI_ATTR_TERMCHAR
  deriving DecidableEq, Repr

/-- A session opened on a candidate resource: the timeout in milliseconds, the
termination character, the transport (with `VI_ATTR_TERMCHAR_EN`), the statuses the
coming `viSetAttribute` calls return, and the timeout that was in force at each
`viWrite` and `viRead` so far. -/
structure TestSession where
  tmo : Nat
  termchar : Nat
  io : Scope
  attr_st : List Int
  tmo_log : List Nat
  deriving DecidableEq, Repr

/-- Environment: `viSetAttribute`, the status and the session after the call. -/
def viSetAttribute (t : TestSession) (attr : ViAttr) (v : Nat) : Int × TestSession :=
  let st := t.attr_st.headD VI_SUCCESS
  let t1 := { t with attr_st := t.attr_st.tail }
  if st < VI_SUCCESS then (st, t1)
  else
    match attr with
    | .VI_ATTR_TMO_VALUE => (st, { t1 with tmo := v })
    | .VI_ATTR_TERMCHAR_EN => (st, { t1 with io := { t1.io with termchar_en := decide (v ≠ 0) } })
    | .VI_ATTR_TERMCHAR => (st, { t1 with termchar := v })

/-- The helper `_set_common_attrs` (lines 9-25). -/
def _set_common_attrs (t : TestSession) (timeout_ms : Nat) : Int × TestSession :=
  if (viSetAttribute t .VI_ATTR_TMO_VALUE timeout_ms).1 < VI_SUCCESS then
    (-1, (viSetAttribute t .VI_ATTR_TMO_VALUE timeout_ms).2)
  else if (viSetAttribute (viSetAttribute t .VI_ATTR_TMO_VALUE timeout_ms).2
      .VI_ATTR_TERMCHAR_EN 0).1 < VI_SUCCESS then
    (-2, (viSetAttribute (viSetAttribute t .VI_ATTR_TMO_VALUE timeout_ms).2
      .VI_ATTR_TERMCHAR_EN 0).2)
  else if (viSetAttribute (viSetAttribute (viSetAttribute t .VI_ATTR_TMO_VALUE timeout_ms).2
      .VI_ATTR_TERMCHAR_EN 0).2 .VI_ATTR_TERMCHAR 10).1 < VI_SUCCESS then
    (-3, (viSetAttribute (viSetAttribute (viSetAttribute t .VI_ATTR_TMO_VALUE timeout_ms).2
      .VI_ATTR_TERMCHAR_EN 0).2 .VI_ATTR_TERMCHAR 10).2)
  else
    (0, (viSetAttribute (viSetAttribute (viSetAttribute t .VI_ATTR_TMO_VALUE timeout_ms).2
      .VI_ATTR_TERMCHAR_EN 0).2 .VI_ATTR_TERMCHAR 10).2)

/-- A `viWrite` on a candidate session, the timeout in force noted. -/
def test_write (t : TestSession) (buf : List Nat) (count : Nat) : ViWrite × TestSession :=
  ((viWrite t.io buf count).1,
    { t with io := (viWrite t.io buf count).2, tmo_log := t.tmo_log ++ [t.tmo] })

/-- A `viRead` on a candidate session, the timeout in force noted. -/
def test_read (t : TestSession) (count : Nat) : ViRead × TestSession :=
  ((viRead t.io count).1,
    { t with io := (viRead t.io count).2, tmo_log := t.tmo_log ++ [t.tmo] })

/-- The helper `_idn_matches` (lines 62-86): whether the reply to `*IDN?` contains
`needle` (`none` is a null `needle`), and the session after the exchange.  `strstr`
looks at the bytes received before the first NUL. -/
def _idn_matches (t : TestSession) (needle : Option (List Nat)) : Bool × TestSession :=
  let w := test_write t (str_bytes "*IDN?\n") 6
  if w.1.st < VI_SUCCESS then (false, w.2)
  else
    let a1 := (viSetAttribute w.2 .VI_ATTR_TERMCHAR 10).2
    let a2 := (viSetAttribute a1 .VI_ATTR_TERMCHAR_EN 1).2
    let r := test_read a2 255
    let a3 := (viSetAttribute r.2 .VI_ATTR_TERMCHAR_EN 0).2
    if r.1.st < VI_SUCCESS ∧ r.1.st ≠ VI_SUCCESS_MAX_CNT then (false, a3)
    else
      match needle with
      | none => (true, a3)
      | some nd => (decide (nd <:+: c_string (r.1.data ++ [0])), a3)

/-- Lines 137-143 of `scope_auto_open`, the probe of one candidate whose `viOpen`
succeeded: the probe timeout, the common attributes with the session's `timeout_ms`,
and the `*IDN?` test. -/
def probe_candidate (timeout_ms : Nat) (test : TestSession) (needle : Option (List Nat)) :
    Bool × TestSession :=
  let t1 := (viSetAttribute test .VI_ATTR_TMO_VALUE 1000).2
  if (_set_common_attrs t1 timeout_ms).1 = 0 then
    _idn_matches (_set_common_attrs t1 timeout_ms).2 needle
  else (false, (_set_common_attrs t1 timeout_ms).2)

/-- Result of `scope_auto_open`: the return code, the session kept in `s->instr`
(`none` when none was kept) and the candidate sessions probed, in order, as the probe
left them. -/
structure AutoOpenOut where
  rc : Int
  instr : Option TestSession
  probed : List TestSession
  deriving DecidableEq, Repr

/-- The candidate loop of `scope_auto_open` (lines 132-156) over the candidates of the
tier that answered: `none` is a candidate whose `viOpen` fails. -/
def auto_open_loop (timeout_ms : Nat) (needle : Option (List Nat)) :
    List (Option TestSession) → List TestSession → AutoOpenOut
  | [], probed => ⟨-4, none, probed⟩
  | none :: rest, probed => auto_open_loop timeout_ms needle rest probed
  | some test :: rest, probed =>
    if (probe_candidate timeout_ms test needle).1 then
      ⟨0, some (probe_candidate timeout_ms test needle).2,
        probed ++ [(probe_candidate timeout_ms test needle).2]⟩
    else
      auto_open_loop timeout_ms needle rest
        (probed ++ [(probe_candidate timeout_ms test needle).2])

/-- The function `scope_auto_open` (lines 88-161) for a non-null scope whose field
`timeout_ms` holds `timeout_ms`.  `rm_st` is the status of `viOpenDefaultRM`;
`found` lists the candidates of the first tier that `viFindRsrc` answered with a
non-empty list, as far as `viFindNext` delivers them (`none`: no tier answered). -/
def scope_auto_open (timeout_ms : Nat) (needle : Option (List Nat)) (rm_st : Int)
    (found : Option (List (Option TestSession))) : AutoOpenOut :=
  if rm_st < VI_SUCCESS then ⟨-2, none, []⟩
  else
    match found with
    | none => ⟨-3, none, []⟩
    | some cands =>
      auto_open_loop (if timeout_ms ≠ 0 then timeout_ms else DEFAULT_VISA_TIMEOUT_MS)
        needle cands []

/-- A freshly opened candidate session with the VISA default timeout of 2000 ms whose
instrument answers `*IDN?` with `reply` and a line feed. -/
def fresh_candidate (reply : String) : TestSession :=
  ⟨2000, 10, reply_session reply, [], []⟩

/-! ## The log file (`src/engine/utils.c`)

A log file is the text written to it so far.  Environment: `fopen` succeeds or not
(`fopen_ok`), `strftime` delivers the time stamp `tbuf`, and `%zu` prints a `size_t` in
decimal. -/

/-- The library function `strncat(dst, src, n)` on a buffer that is large enough: at
most `n` characters of `src` are appended. -/
def strncat (dst src : String) (n : Nat) : String :=
  dst ++ String.mk (src.data.take n)

/-- The loop of `open_log_file` that joins the channel names in `chbuf` (lines
190-195), from index `i` on; `sizeof(chbuf)` is 256. -/
def chbuf_loop : Nat → List String → String → String
  | _, [], chbuf => chbuf
  | i, ch :: rest, chbuf =>
    chbuf_loop (i + 1) rest
      (strncat
        (if 0 < i ∧ chbuf ≠ "" then strncat chbuf "," (256 - chbuf.length - 1) else chbuf)
        ch
        (256 - (if 0 < i ∧ chbuf ≠ "" then strncat chbuf "," (256 - chbuf.length - 1)
                else chbuf).length - 1))

/-- The function `open_log_file` (lines 171-217): the text of the log file it returns,
`none` for a null return. -/
def open_log_file (cfg : RunConfig) (fopen_ok : Bool) (tbuf : String) : Option String :=
  match cfg.outfile with
  | none => none
  | some _ =>
    if fopen_ok = false then none
    else
      some ("acq_start_time=" ++ tbuf ++ "\n" ++
        "instrument_name=" ++ cfg.instr_name.getD "" ++ "\n" ++
        "channels=" ++ chbuf_loop 0 (cfg.channels.take cfg.n_channels) "" ++ "\n" ++
        "coding=" ++ (if cfg.coding = 0 then "BYTE" else "SHORT") ++ "\n" ++
        "nsamples=" ++ toString cfg.n_samples ++ "\n" ++
        "ntraces_per_flush=" ++ toString cfg.n_flush_traces ++ "\n")

/-- The function `close_log_file` (lines 219-237) for a non-null core: the return code
and the text of the closed file (`none` when there was no open file). -/
def close_log_file (fp_log : Option String) (tbuf : String) (total_traces_written : Nat) :
    Int × Option String :=
  match fp_log with
  | none => (-1, none)
  | some text =>
    (0, some (text ++ "acquisition_end_time=" ++ tbuf ++ "\n" ++
      "ntraces_written=" ++ toString total_traces_written ++ "\n"))

/-- The text made of the given lines, each followed by a line feed. -/
def text_of_lines (lines : List String) : String :=
  String.join (lines.map (fun l => l ++ "\n"))

/-- Scenario S2 as a configuration: `-n 5 -b 2 -s 100 -c CHAN1 -c CHAN2 -w 1 -o out`. -/
def s2_config : RunConfig :=
  { instr_name := none, coding := 1, n_samples := 100, raw_start_idx := 1, n_traces := 5,
    n_flush_traces := 2, channels := ["CHAN1", "CHAN2"], n_channels := 2,
    outfile := some "out_1700000000", verbose := false, diagnose := false }

/-! ## The command line (`src/engine/engine.c`)

The vector `argv` is the list of its strings after `argv[0]`.  Environment:
`getopt_long` of the GNU C library, given by the sequence of results its successive
calls deliver on `argv`: an argument that starts with `--` is a long option (its name
is matched in full or as an unambiguous abbreviation, its value follows `=` or is the
next argument), one that starts with `-` and is longer is a cluster of short options
looked up in the option string, `--` ends the options, any other argument is an
operand and stays for `optind`; an unknown option or a missing value gives `'?'`. -/

/-- One result of `getopt_long`: the return value and `optarg`. -/
structure GetoptResult where
  opt : Int
  optarg : Option String
  deriving DecidableEq, Repr

/-- The look-up of a short option in the option string: `none` when the character is
not listed, otherwise whether a colon follows it. -/
def shortopt : List Char → Char → Option Bool
  | [], _ => none
  | x :: rest, c =>
    if x = c ∧ c ≠ ':' then some (decide (rest.head? = some ':')) else shortopt rest c

/-- A cluster of short options `cs` (the argument without its dash), followed by the
arguments `rest`: the results it gives and the arguments left. -/
def short_cluster (optstring : List Char) : List Char → List String →
    List GetoptResult × List String
  | [], rest => ([], rest)
  | c :: cs, rest =>
    match shortopt optstring c with
    | none =>
      (⟨63, none⟩ :: (short_cluster optstring cs rest).1, (short_cluster optstring cs rest).2)
    | some false =>
      (⟨c.toNat, none⟩ :: (short_cluster optstring cs rest).1,
        (short_cluster optstring cs rest).2)
    | some true =>
      if cs ≠ [] then ([⟨c.toNat, some (String.mk cs)⟩], rest)
      else
        match rest with
        | [] => ([⟨63, none⟩], [])
        | a :: rest1 => ([⟨c.toNat, some a⟩], rest1)

/-- The look-up of a long option name in the table `longopts` (name, takes a value,
result): an exact match, or else the only entry the name abbreviates. -/
def longopt_find (longopts : List (String × Bool × Int)) (name : String) :
    Option (Bool × Int) :=
  match longopts.find? (fun o => o.1 = name) with
  | some o => some o.2
  | none =>
    match longopts.filter (fun o => name.data.isPrefixOf o.1.data) with
    | [o] => some o.2
    | _ => none

/-- A long option `body` (the argument without its two dashes), followed by the
arguments `rest`: the result it gives and the arguments left. -/
def long_option (longopts : List (String × Bool × Int)) (body : List Char)
    (rest : List String) : GetoptResult × List String :=
  let name := String.mk (body.takeWhile (fun c => c ≠ '='))
  let value := body.dropWhile (fun c => c ≠ '=')
  match longopt_find longopts name with
  | none => (⟨63, none⟩, rest)
  | some (true, val) =>
    if value ≠ [] then (⟨val, some (String.mk value.tail)⟩, rest)
    else
      match rest with
      | [] => (⟨63, none⟩, [])
      | a :: rest1 => (⟨val, some a⟩, rest1)
  | some (false, val) =>
    if value ≠ [] then (⟨63, none⟩, rest) else (⟨val, none⟩, rest)

/-- The results of the successive `getopt_long` calls on `argv` until it returns `-1`,
and whether `optind < argc` then holds (an operand is left).  The first argument bounds
the number of arguments looked at; `argv.length` suffices, every round consuming at
least one. -/
def getopt_long : Nat → List Char → List (String × Bool × Int) → List String →
    List GetoptResult × Bool
  | 0, _, _, _ => ([], false)
  | _ + 1, _, _, [] => ([], false)
  | fuel + 1, optstring, longopts, a :: rest =>
    if a = "--" then ([], decide (rest ≠ []))
    else
      match a.data with
      | '-' :: '-' :: body =>
        ((long_option longopts body rest).1 ::
            (getopt_long fuel optstring longopts (long_option longopts body rest).2).1,
          (getopt_long fuel optstring longopts (long_option longopts body rest).2).2)
      | '-' :: c :: cs =>
        ((short_cluster optstring (c :: cs) rest).1 ++
            (getopt_long fuel optstring longopts (short_cluster optstring (c :: cs) rest).2).1,
          (getopt_long fuel optstring longopts (short_cluster optstring (c :: cs) rest).2).2)
      | _ => ((getopt_long fuel optstring longopts rest).1, true)

/-- The table `longopts` of `engine_parse_cli_args` (lines 48-60). -/
def longopts : List (String × Bool × Int) :=
  [("out", true, 111), ("instrument", true, 105), ("ntraces", true, 110),
   ("batch", true, 98), ("coding", true, 119), ("nsamples", true, 115),
   ("chan", true, 99), ("channels", true, 1000), ("diagnose", false, 1001),
   ("verbose", false, 118), ("help", false, 104)]

/-- The option string passed to `getopt_long` (line 63). -/
def optstring : String := "o:i:n:b:w:c:vh"

/-- The function `make_timestamped_filename` (lines 139-155) for a non-null base;
`now` is what `time(NULL)` returned.  `malloc` succeeds. -/
def make_timestamped_filename (base : String) (now : Int) : String :=
  base ++ "_" ++ toString now

/-- The `switch` of `engine_parse_cli_args` (lines 64-107) on one result of
`getopt_long`: `Except.error c` is `return c`.  `strtoul` is `strtoull`, both types
being 64 bits wide. -/
def parse_option (now : Int) (cfg : RunConfig) (r : GetoptResult) : Except Int RunConfig :=
  let optarg := r.optarg.getD ""
  if r.opt = 111 then .ok { cfg with outfile := some (make_timestamped_filename optarg now) }
  else if r.opt = 105 then .ok { cfg with instr_name := some optarg }
  else if r.opt = 110 then .ok { cfg with n_traces := strtoull (str_bytes optarg) }
  else if r.opt = 115 then
    .ok { cfg with n_samples := strtoull (str_bytes optarg), raw_start_idx := 1 }
  else if r.opt = 98 then .ok { cfg with n_flush_traces := strtoull (str_bytes optarg) }
  else if r.opt = 119 then
    if strtoull (str_bytes optarg) > 1 then .error (-1)
    else .ok { cfg with coding := strtoull (str_bytes optarg) }
  else if r.opt = 99 then
    if (add_channel cfg optarg).1 ≠ 0 then .error (-1) else .ok (add_channel cfg optarg).2
  else if r.opt = 1000 then
    if (parse_channels_list cfg optarg).1 ≠ 0 then .error (-1)
    else .ok (parse_channels_list cfg optarg).2
  else if r.opt = 1001 then .ok { cfg with diagnose := true }
  else if r.opt = 118 then .ok { cfg with verbose := true }
  else .error (-1)

/-- The `while` loop of `engine_parse_cli_args` (lines 63-108) over the results of
`getopt_long`. -/
def parse_options : Int → RunConfig → List GetoptResult → Except Int RunConfig
  | _, cfg, [] => .ok cfg
  | now, cfg, r :: rs =>
    match parse_option now cfg r with
    | .error c => .error c
    | .ok cfg1 => parse_options now cfg1 rs

/-- The function `engine_parse_cli_args` (lines 44-140) for a non-null engine: the
return code and the configuration.  `total_ram` is what `get_total_ram_bytes`
returns; on a `return -1` from inside the loop the configuration is not used and is
given as cleared. -/
def engine_parse_cli_args (argv : List String) (now : Int) (total_ram : Nat) :
    Int × RunConfig :=
  match parse_options now empty_config
      (getopt_long argv.length optstring.data longopts argv).1 with
  | .error c => (c, empty_config)
  | .ok cfg =>
    if (getopt_long argv.length optstring.data longopts argv).2 then (-1, cfg)
    else
      let cfg1 := if cfg.n_flush_traces = 0 then { cfg with n_flush_traces := 1 } else cfg
      let cfg2 :=
        if cfg1.n_channels = 0 ∧ cfg1.channels.head? = none then (add_channel cfg1 "CHAN1").2
        else cfg1
      if cfg2.diagnose = false ∧ cfg2.n_samples > 0 then
        if enforce_flush_limit cfg2 total_ram ≠ 0 then (enforce_flush_limit cfg2 total_ram, cfg2)
        else (0, cfg2)
      else (0, cfg2)

/-! ## Reading a trace (`src/scope/rigol/ds1000ze.c`)

The buffer `dst` is given by the stores made into it: pairs of an offset from `dst` and
the bytes stored there, in order.  `lenbuf k` is what the memory of the local array
`lenbuf` of `scope_read_defblock` holds when the `k`-th block read of the call is
entered.  `snprintf` with `%zu` prints a `size_t` in decimal. -/

theorem mul_size_checked_none_iff (a b : Nat) :
    mul_size_checked a b = none ↔ SIZE_MAX < a * b := by
  unfold mul_size_checked
  by_cases ha : a = 0
  · subst ha
    simp [SIZE_MAX]
  · have hpos : 0 < a := Nat.pos_of_ne_zero ha
    have hdiv : SIZE_MAX / a < b ↔ SIZE_MAX < a * b := by
      rw [Nat.div_lt_iff_lt_mul hpos, Nat.mul_comm]
    by_cases hb : b > SIZE_MAX / a
    · simp [ha, hb, hdiv.mp hb]
    · have : ¬ SIZE_MAX < a * b := fun h => hb (hdiv.mpr h)
      simp [ha, hb, this]

theorem mul_size_checked_some_of_le (a b : Nat) (h : a * b ≤ SIZE_MAX) :
    mul_size_checked a b = some (a * b) := by
  have hn : ¬ mul_size_checked a b = none := by
    rw [mul_size_checked_none_iff]; omega
  unfold mul_size_checked at hn ⊢
  by_cases hc : a ≠ 0 ∧ b > SIZE_MAX / a
  · simp [hc] at hn
  · rw [if_neg hc]
    congr 1
    exact Nat.mod_eq_of_lt (by omega)

theorem mul_size_checked_eq_some_iff (a b v : Nat) :
    mul_size_checked a b = some v ↔ a * b ≤ SIZE_MAX ∧ v = a * b := by
  constructor
  · intro h
    have hle : a * b ≤ SIZE_MAX := by
      by_contra hgt
      have : mul_size_checked a b = none := (mul_size_checked_none_iff a b).mpr (by omega)
      rw [this] at h
      exact Option.noConfusion h
    rw [mul_size_checked_some_of_le a b hle] at h
    exact ⟨hle, (Option.some.inj h).symm⟩
  · rintro ⟨hle, rfl⟩
    exact mul_size_checked_some_of_le a b hle

/-- Acceptance by `enforce_flush_limit`, in terms of exact products. -/
theorem enforce_flush_limit_eq_zero_iff (cfg : RunConfig) (R : Nat) :
    enforce_flush_limit cfg R = 0 ↔
      (exact_trace_bytes cfg ≠ 0 ∧ exact_trace_bytes cfg ≤ SIZE_MAX ∧
        exact_batch_bytes cfg ≤ SIZE_MAX ∧ exact_batch_bytes cfg ≤ R / 2) := by
  unfold enforce_flush_limit exact_batch_bytes exact_trace_bytes
  by_cases h1 : cfg.n_samples * cfg.n_channels ≤ SIZE_MAX
  · rw [mul_size_checked_some_of_le _ _ h1]
    by_cases h2 : cfg.n_samples * cfg.n_channels * (cfg.coding + 1) ≤ SIZE_MAX
    · simp only [mul_size_checked_some_of_le _ _ h2]
      by_cases h0 : cfg.n_samples * cfg.n_channels * (cfg.coding + 1) = 0
      · simp [h0]
      · by_cases h3 :
          cfg.n_samples * cfg.n_channels * (cfg.coding + 1) * cfg.n_flush_traces ≤ SIZE_MAX
        · simp only [mul_size_checked_some_of_le _ _ h3, if_neg h0]
          by_cases h4 :
            cfg.n_samples * cfg.n_channels * (cfg.coding + 1) * cfg.n_flush_traces > R / 2
          · simp only [if_pos h4]
            constructor
            · intro h; exact absurd h (by decide)
            · rintro ⟨_, _, _, h⟩; omega
          · simp only [if_neg h4]
            constructor
            · intro _; exact ⟨h0, h2, h3, by omega⟩
            · intro _; trivial
        · have hn := (mul_size_checked_none_iff
            (cfg.n_samples * cfg.n_channels * (cfg.coding + 1)) cfg.n_flush_traces).mpr
            (by omega)
          simp only [hn, if_neg h0]
          constructor
          · intro h; exact absurd h (by decide)
          · rintro ⟨_, _, h, _⟩; exact absurd h h3
    · have hn := (mul_size_checked_none_iff
        (cfg.n_samples * cfg.n_channels) (cfg.coding + 1)).mpr (by omega)
      simp only [hn]
      constructor
      · intro h; exact absurd h (by decide)
      · rintro ⟨_, h, _, _⟩; exact absurd h h2
  · have hn := (mul_size_checked_none_iff cfg.n_samples cfg.n_channels).mpr (by omega)
    simp only [hn]
    constructor
    · intro h; exact absurd h (by decide)
    · rintro ⟨_, h, _, _⟩
      exfalso
      apply h1
      calc cfg.n_samples * cfg.n_channels
          ≤ cfg.n_samples * cfg.n_channels * (cfg.coding + 1) :=
            Nat.le_mul_of_pos_right _ (Nat.succ_pos _)
        _ ≤ SIZE_MAX := h

/-! ## The orchestrator: inversion of actions and invariants -/

theorem step_sound {p : Setup} {s s1 : EngineState} {e : Event}
    (h : step p s e = some s1) : Step p s e s1 := by
  cases e with
  | stop_request =>
    simp only [step, Option.some.injEq] at h
    subst h
    exact Step.stop_request
  | prep rc =>
    cases hp : s.ppc <;> simp [step, hp] at h
    subst h
    exact Step.prep rc hp
  | producer =>
    cases hp : s.ppc <;> simp [step, hp] at h
    · subst h; exact Step.loop_head hp
    · subst h; exact Step.handoff_lock hp
    · exact Step.handoff_wait s1 hp h
    · subst h; exact Step.tail hp
    · subst h; exact Step.tail_count hp
    · subst h; exact Step.stop_writer hp
    · cases hw : s.wpc <;> simp [hw] at h
      subst h; exact Step.join hp hw
  | acquire rc =>
    cases hp : s.ppc <;> simp [step, hp] at h
    subst h
    exact Step.acquire rc hp
  | reconnect rc =>
    cases hp : s.ppc <;> simp [step, hp] at h
    subst h
    exact Step.reconnect rc hp
  | tail_write r =>
    cases hp : s.ppc <;> simp [step, hp] at h
    exact Step.tail_write r s1 hp h
  | writer =>
    cases hw : s.wpc <;> simp [step, hw] at h
    · subst h; exact Step.writer_loop_head hw
    · exact Step.writer_wait s1 hw h
    · subst h; exact Step.writer_count hw
  | writer_write r =>
    cases hw : s.wpc <;> simp [step, hw] at h
    exact Step.writer_write r s1 hw h

/-- A property kept by every action that the events of a run satisfy `Q` holds after
the run when it holds before. -/
theorem run_invariant (p : Setup) (Q : Event → Prop) (I : EngineState → Prop)
    (hstep : ∀ s e s1, Q e → I s → Step p s e s1 → I s1) :
    ∀ (es : List Event) (s s1 : EngineState), (∀ e ∈ es, Q e) → I s →
      run p s es = some s1 → I s1 := by
  intro es
  induction es with
  | nil =>
    intro s s1 _ hI h
    simp only [run, Option.some.injEq] at h
    subst h
    exact hI
  | cons e es ih =>
    intro s s1 hQ hI h
    simp only [run] at h
    cases hs : step p s e with
    | none => simp [hs] at h
    | some s2 =>
      simp only [hs] at h
      exact ih s2 s1 (fun e1 he1 => hQ e1 (List.mem_cons_of_mem _ he1))
        (hstep s e s2 (hQ e (List.mem_cons_self _ _)) hI (step_sound hs)) h

theorem successes_cons (rc : Int) (l : List Int) :
    successes (rc :: l) = successes l + (if 0 ≤ rc then 1 else 0) := by
  unfold successes
  by_cases h : 0 ≤ rc <;> simp [List.filter_cons, h]

theorem countInv_init (p : Setup) : CountInv p (engine_init p) := by
  constructor <;> simp [engine_init, successes]

theorem handoff_wait_step_some {s s1 : EngineState} (h : handoff_wait_step s = some s1) :
    (s.g_stop = true ∧ s1 = { s with ppc := .tail }) ∨
    (s.g_stop = false ∧ s.ready_batches = 0 ∧
      s1 = { s with
        ready_batches := 1
        next_write_batch_idx := if s.active_buf = 0 then 0 else 1
        active_buf := other_buf s.active_buf
        traces_in_flush_batch := 0
        handoffs := s.handoffs + 1
        ppc := .loop_head }) := by
  unfold handoff_wait_step at h
  by_cases h1 : s.ready_batches ≠ 0 ∧ s.g_stop = false
  · rw [if_pos h1] at h
    exact Option.noConfusion h
  · rw [if_neg h1] at h
    by_cases h2 : s.g_stop = true
    · rw [if_pos h2] at h
      exact Or.inl ⟨h2, (Option.some.inj h).symm⟩
    · rw [if_neg h2] at h
      have hg : s.g_stop = false := by simpa using h2
      have hr : s.ready_batches = 0 := by
        by_contra hne
        exact h1 ⟨hne, hg⟩
      exact Or.inr ⟨hg, hr, (Option.some.inj h).symm⟩

theorem tail_write_step_some {p : Setup} {s s1 : EngineState} {r : WriteResult}
    (h : tail_write_step p s r = some s1) :
    (∃ w, r = .accepted w ∧ w ≤ tail_bytes p s - s.tail_off ∧
      s1 = { s with
        fd_out := s.fd_out ++ buffer_bytes p.bytes_per_trace (active_buffer s) s.tail_off w
        tail_written :=
          s.tail_written ++ buffer_bytes p.bytes_per_trace (active_buffer s) s.tail_off w
        tail_off := s.tail_off + w
        ppc := if s.tail_off + w < tail_bytes p s then .tail_write else .tail_count }) ∨
    (r = .eintr ∧ s1 = s) ∨
    (r = .failed ∧ s1 = { s with tail_failed := true, ppc := .tail_count }) := by
  cases r with
  | accepted w =>
    simp only [tail_write_step] at h
    by_cases hw : w ≤ tail_bytes p s - s.tail_off
    · rw [if_pos hw] at h
      exact Or.inl ⟨w, rfl, hw, (Option.some.inj h).symm⟩
    · rw [if_neg hw] at h
      exact Option.noConfusion h
  | eintr => exact Or.inr (Or.inl ⟨rfl, (Option.some.inj h).symm⟩)
  | failed => exact Or.inr (Or.inr ⟨rfl, (Option.some.inj h).symm⟩)

theorem writer_wait_step_some {p : Setup} {s s1 : EngineState}
    (h : writer_wait_step p s = some s1) :
    (s.ready_batches = 0 ∧ s.g_stop = true ∧ s1 = { s with wpc := .done }) ∨
    (s.ready_batches ≠ 0 ∧
      s1 = { s with
        this_idx := s.next_write_batch_idx
        ready_batches := 0
        w_off := 0
        wpc := if 0 < p.bytes_per_flush_batch then .write else .count }) := by
  unfold writer_wait_step at h
  by_cases h1 : s.ready_batches = 0
  · rw [if_pos h1] at h
    by_cases h2 : s.g_stop = true
    · rw [if_pos h2] at h
      exact Or.inl ⟨h1, h2, (Option.some.inj h).symm⟩
    · rw [if_neg h2] at h
      exact Option.noConfusion h
  · rw [if_neg h1] at h
    exact Or.inr ⟨h1, (Option.some.inj h).symm⟩

theorem writer_write_step_some {p : Setup} {s s1 : EngineState} {r : WriteResult}
    (h : writer_write_step p s r = some s1) :
    (∃ w, r = .accepted w ∧ w ≤ p.bytes_per_flush_batch - s.w_off ∧
      s1 = { s with
        fd_out := s.fd_out ++ buffer_bytes p.bytes_per_trace (writer_buffer s) s.w_off w
        w_off := s.w_off + w
        wpc := if s.w_off + w < p.bytes_per_flush_batch then .write else .count }) ∨
    (r = .eintr ∧ s1 = s) ∨
    (r = .failed ∧ s1 = { s with g_stop := true, wpc := .count }) := by
  cases r with
  | accepted w =>
    simp only [writer_write_step] at h
    by_cases hw : w ≤ p.bytes_per_flush_batch - s.w_off
    · rw [if_pos hw] at h
      exact Or.inl ⟨w, rfl, hw, (Option.some.inj h).symm⟩
    · rw [if_neg hw] at h
      exact Option.noConfusion h
  | eintr => exact Or.inr (Or.inl ⟨rfl, (Option.some.inj h).symm⟩)
  | failed => exact Or.inr (Or.inr ⟨rfl, (Option.some.inj h).symm⟩)

theorem countInv_step (p : Setup) (s : EngineState) (e : Event) (s1 : EngineState)
    (hI : CountInv p s) (h : Step p s e s1) : CountInv p s1 := by
  obtain ⟨hc, hg, hb⟩ := hI
  cases h with
  | stop_request => exact ⟨hc, hg, hb⟩
  | prep rc hp =>
    exact ⟨hc, by simp [prep_step], hb⟩
  | loop_head hp =>
    unfold loop_head_step
    by_cases hl : loop_condition p s = true
    · simp only [hl, if_true]
      refine ⟨hc, fun _ => ?_, hb⟩
      simp only [loop_condition, Bool.and_eq_true, Bool.or_eq_true, decide_eq_true_eq] at hl
      exact hl.2
    · simp only [hl]
      exact ⟨hc, by simp, hb⟩
  | handoff_lock hp =>
    unfold handoff_lock_step
    split_ifs <;> exact ⟨hc, by simp, hb⟩
  | handoff_wait s1 hp h1 =>
    rcases handoff_wait_step_some h1 with ⟨_, rfl⟩ | ⟨_, _, rfl⟩
    · exact ⟨hc, by simp, hb⟩
    · exact ⟨hc, by simp, hb⟩
  | tail hp =>
    unfold tail_step
    split_ifs <;> exact ⟨hc, by simp, hb⟩
  | tail_count hp => exact ⟨hc, by simp [tail_count_step], hb⟩
  | stop_writer hp => exact ⟨hc, by simp [stop_writer_step], hb⟩
  | join hp hw => exact ⟨hc, by simp [teardown_step], hb⟩
  | acquire rc hp =>
    have hlt := hg hp
    unfold acquire_step store_trace
    simp only [ACQ_ERR_ARM_TIMEOUT, ACQ_ERR_TRIGGER_TIMEOUT]
    split_ifs <;> constructor <;> simp [successes_cons] <;> (try split_ifs) <;> omega
  | reconnect rc hp =>
    unfold reconnect_step
    split_ifs <;> exact ⟨hc, by simp, hb⟩
  | tail_write r s1 hp h1 =>
    rcases tail_write_step_some h1 with ⟨w, _, _, rfl⟩ | ⟨_, rfl⟩ | ⟨_, rfl⟩
    · refine ⟨hc, ?_, hb⟩
      intro h
      dsimp only at h
      split_ifs at h
    · exact ⟨hc, hg, hb⟩
    · exact ⟨hc, by simp, hb⟩
  | writer_loop_head hw =>
    unfold writer_loop_head_step
    split_ifs <;> exact ⟨hc, hg, hb⟩
  | writer_wait s1 hw h1 =>
    rcases writer_wait_step_some h1 with ⟨_, _, rfl⟩ | ⟨_, rfl⟩
    · exact ⟨hc, hg, hb⟩
    · exact ⟨hc, hg, hb⟩
  | writer_count hw => exact ⟨hc, hg, hb⟩
  | writer_write r s1 hw h1 =>
    rcases writer_write_step_some h1 with ⟨w, _, _, rfl⟩ | ⟨_, rfl⟩ | ⟨_, rfl⟩
    · exact ⟨hc, hg, hb⟩
    · exact ⟨hc, hg, hb⟩
    · exact ⟨hc, hg, hb⟩

theorem batchInv_init (p : Setup) (hb : 1 ≤ p.n_flush_traces) :
    BatchInv p (engine_init p) := by
  constructor <;> simp [engine_init]
  omega

theorem batchInv_step (p : Setup) (hs : p.store = true) (hb : 1 ≤ p.n_flush_traces)
    (s : EngineState) (e : Event) (s1 : EngineState)
    (hI : BatchInv p s) (h : Step p s e s1) : BatchInv p s1 := by
  obtain ⟨hacc, hle, hlt, hfull⟩ := hI
  cases h with
  | stop_request => exact ⟨hacc, hle, hlt, hfull⟩
  | prep rc hp =>
    have h1 := hlt (Or.inl hp)
    exact ⟨hacc, hle, fun _ => h1, by simp [prep_step]⟩
  | loop_head hp =>
    have h1 := hlt (Or.inr (Or.inl hp))
    unfold loop_head_step
    split_ifs <;> exact ⟨hacc, hle, by simp <;> omega, by simp⟩
  | handoff_lock hp =>
    have h1 := hfull (Or.inl hp)
    unfold handoff_lock_step
    split_ifs <;> exact ⟨hacc, hle, by simp, fun _ => h1⟩
  | handoff_wait s1 hp h1 =>
    have h2 := hfull (Or.inr hp)
    rcases handoff_wait_step_some h1 with ⟨_, rfl⟩ | ⟨_, _, rfl⟩
    · exact ⟨hacc, hle, by simp, by simp⟩
    · refine ⟨?_, by simp, by simp; omega, by simp⟩
      simp only [Nat.add_mul, Nat.one_mul, Nat.add_zero]
      omega
  | tail hp =>
    unfold tail_step
    split_ifs <;> exact ⟨hacc, hle, by simp, by simp⟩
  | tail_count hp => exact ⟨hacc, hle, by simp [tail_count_step], by simp [tail_count_step]⟩
  | stop_writer hp =>
    exact ⟨hacc, hle, by simp [stop_writer_step], by simp [stop_writer_step]⟩
  | join hp hw => exact ⟨hacc, hle, by simp [teardown_step], by simp [teardown_step]⟩
  | acquire rc hp =>
    have h1 := hlt (Or.inr (Or.inr (Or.inl hp)))
    unfold acquire_step store_trace
    simp only [hs]
    split_ifs <;> constructor <;> simp <;> omega
  | reconnect rc hp =>
    have h1 := hlt (Or.inr (Or.inr (Or.inr hp)))
    unfold reconnect_step
    split_ifs
    · exact ⟨hacc, hle, fun _ => h1, by simp⟩
    · exact ⟨hacc, hle, by simp, by simp⟩
  | tail_write r s1 hp h1 =>
    rcases tail_write_step_some h1 with ⟨w, _, _, rfl⟩ | ⟨_, rfl⟩ | ⟨_, rfl⟩
    · refine ⟨hacc, hle, ?_, ?_⟩ <;> intro h <;> dsimp only at h <;> split_ifs at h <;>
        simp at h
    · exact ⟨hacc, hle, hlt, hfull⟩
    · exact ⟨hacc, hle, by simp, by simp⟩
  | writer_loop_head hw =>
    unfold writer_loop_head_step
    split_ifs <;> exact ⟨hacc, hle, hlt, hfull⟩
  | writer_wait s1 hw h1 =>
    rcases writer_wait_step_some h1 with ⟨_, _, rfl⟩ | ⟨_, rfl⟩
    · exact ⟨hacc, hle, hlt, hfull⟩
    · exact ⟨hacc, hle, hlt, hfull⟩
  | writer_count hw => exact ⟨hacc, hle, hlt, hfull⟩
  | writer_write r s1 hw h1 =>
    rcases writer_write_step_some h1 with ⟨w, _, _, rfl⟩ | ⟨_, rfl⟩ | ⟨_, rfl⟩
    · exact ⟨hacc, hle, hlt, hfull⟩
    · exact ⟨hacc, hle, hlt, hfull⟩
    · exact ⟨hacc, hle, hlt, hfull⟩

theorem buffer_bytes_append (bpt : Nat) (buf : List Nat) (off w : Nat) :
    buffer_bytes bpt buf 0 off ++ buffer_bytes bpt buf off w =
      buffer_bytes bpt buf 0 (off + w) := by
  unfold buffer_bytes
  rw [← List.map_append]
  congr 1
  have h := List.range'_append 0 off w 1
  simp only [Nat.zero_add, Nat.one_mul] at h
  rw [h, Nat.add_comm]

theorem buffer_bytes_zero (bpt : Nat) (buf : List Nat) (off : Nat) :
    buffer_bytes bpt buf off 0 = [] := by
  simp [buffer_bytes]

theorem buffer_bytes_length (bpt : Nat) (buf : List Nat) (off n : Nat) :
    (buffer_bytes bpt buf off n).length = n := by
  simp [buffer_bytes]

theorem tailInv_init (p : Setup) : TailInv p (engine_init p) := by
  constructor <;> simp [engine_init]

theorem tailInv_step (p : Setup) (hs : p.store = true)
    (s : EngineState) (e : Event) (s1 : EngineState)
    (hI : TailInv p s) (h : Step p s e s1) : TailInv p s1 := by
  obtain ⟨hbe, hdu, haf⟩ := hI
  cases h with
  | stop_request => exact ⟨hbe, hdu, haf⟩
  | prep rc hp =>
    have h1 := hbe (Or.inl hp)
    exact ⟨fun _ => h1, by simp [prep_step], by simp [prep_step]⟩
  | loop_head hp =>
    have h1 := hbe (Or.inr (Or.inl hp))
    unfold loop_head_step
    split_ifs <;> exact ⟨fun _ => h1, by simp, by simp⟩
  | handoff_lock hp =>
    have h1 := hbe (Or.inr (Or.inr (Or.inr (Or.inr (Or.inl hp)))))
    unfold handoff_lock_step
    split_ifs <;> exact ⟨fun _ => h1, by simp, by simp⟩
  | handoff_wait s1 hp h1 =>
    have h2 := hbe (Or.inr (Or.inr (Or.inr (Or.inr (Or.inr (Or.inl hp))))))
    rcases handoff_wait_step_some h1 with ⟨_, rfl⟩ | ⟨_, _, rfl⟩
    · exact ⟨fun _ => h2, by simp, by simp⟩
    · exact ⟨fun _ => h2, by simp, by simp⟩
  | tail hp =>
    have h1 := hbe (Or.inr (Or.inr (Or.inr (Or.inr (Or.inr (Or.inr hp))))))
    unfold tail_step
    simp only [hs, if_true]
    by_cases ht : s.traces_in_flush_batch > 0
    · simp only [ht, if_true]
      by_cases hz : 0 < tail_bytes p s
      · simp only [hz, if_true]
        refine ⟨by simp, fun _ => ⟨h1.2, ?_, ?_⟩, by simp⟩
        · simpa [tail_bytes] using hz
        · simp [h1.1, buffer_bytes_zero]
      · simp only [hz, if_false]
        refine ⟨by simp, by simp, fun _ _ => ?_⟩
        have hz0 : tail_bytes p s = 0 := by omega
        simp only [tail_bytes] at hz0
        simp [tail_bytes, hz0, h1.1, buffer_bytes_zero, active_buffer]
    · simp only [ht, if_false]
      refine ⟨by simp, by simp, fun _ _ => ?_⟩
      have ht0 : s.traces_in_flush_batch = 0 := by omega
      simp [tail_bytes, ht0, h1.1, buffer_bytes_zero, active_buffer]
  | tail_count hp =>
    have h1 := haf (Or.inl hp)
    exact ⟨by simp [tail_count_step], by simp [tail_count_step], fun _ hf => h1 hf⟩
  | stop_writer hp =>
    have h1 := haf (Or.inr (Or.inl hp))
    exact ⟨by simp [stop_writer_step], by simp [stop_writer_step], fun _ hf => h1 hf⟩
  | join hp hw =>
    have h1 := haf (Or.inr (Or.inr (Or.inl hp)))
    exact ⟨by simp [teardown_step], by simp [teardown_step], fun _ hf => h1 hf⟩
  | acquire rc hp =>
    have h1 := hbe (Or.inr (Or.inr (Or.inl hp)))
    unfold acquire_step store_trace
    simp only [hs]
    split_ifs <;> exact ⟨fun _ => h1, by simp, by simp⟩
  | reconnect rc hp =>
    have h1 := hbe (Or.inr (Or.inr (Or.inr (Or.inl hp))))
    unfold reconnect_step
    split_ifs <;> exact ⟨fun _ => h1, by simp, by simp⟩
  | tail_write r s1 hp h1 =>
    obtain ⟨hf, hlt, hw⟩ := hdu hp
    rcases tail_write_step_some h1 with ⟨w, _, hwle, rfl⟩ | ⟨_, rfl⟩ | ⟨_, rfl⟩
    · have happ : s.tail_written ++
            buffer_bytes p.bytes_per_trace (active_buffer s) s.tail_off w =
          buffer_bytes p.bytes_per_trace (active_buffer s) 0 (s.tail_off + w) := by
        rw [hw, buffer_bytes_append]
      by_cases hc : s.tail_off + w < tail_bytes p s
      · refine ⟨?_, fun _ => ⟨hf, ?_, ?_⟩, ?_⟩
        · simp [hc]
        · simpa [tail_bytes] using hc
        · simpa [active_buffer] using happ
        · simp [hc]
      · have heq : s.tail_off + w = tail_bytes p s := by omega
        refine ⟨?_, ?_, fun _ _ => ?_⟩
        · simp [hc]
        · simp [hc]
        · have : tail_bytes p
              { s with
                fd_out := s.fd_out ++
                  buffer_bytes p.bytes_per_trace (active_buffer s) s.tail_off w
                tail_written := s.tail_written ++
                  buffer_bytes p.bytes_per_trace (active_buffer s) s.tail_off w
                tail_off := s.tail_off + w
                ppc := if s.tail_off + w < tail_bytes p s then .tail_write
                  else .tail_count } = tail_bytes p s := rfl
          rw [this, ← heq]
          simpa [active_buffer] using happ
    · exact ⟨hbe, hdu, haf⟩
    · exact ⟨by simp, by simp, by simp⟩
  | writer_loop_head hw =>
    unfold writer_loop_head_step
    split_ifs <;> exact ⟨hbe, hdu, haf⟩
  | writer_wait s1 hw h1 =>
    rcases writer_wait_step_some h1 with ⟨_, _, rfl⟩ | ⟨_, rfl⟩
    · exact ⟨hbe, hdu, haf⟩
    · exact ⟨hbe, hdu, haf⟩
  | writer_count hw => exact ⟨hbe, hdu, haf⟩
  | writer_write r s1 hw h1 =>
    rcases writer_write_step_some h1 with ⟨w, _, _, rfl⟩ | ⟨_, rfl⟩ | ⟨_, rfl⟩
    · exact ⟨hbe, hdu, haf⟩
    · exact ⟨hbe, hdu, haf⟩
    · exact ⟨hbe, hdu, haf⟩

theorem quietInv_init (p : Setup) : QuietInv p (engine_init p) := by
  constructor <;> simp [engine_init]

theorem quietInv_step (p : Setup) (s : EngineState) (e : Event) (s1 : EngineState)
    (hq : e.quiet = true) (hI : QuietInv p s) (h : Step p s e s1) : QuietInv p s1 := by
  obtain ⟨hfl, hex⟩ := hI
  cases h with
  | stop_request => simp [Event.quiet] at hq
  | prep rc hp =>
    have hq1 : prep_failed rc = false := by simpa [Event.quiet] using hq
    have hg : s.g_stop = false := by
      cases hgs : s.g_stop with
      | false => rfl
      | true => rcases hfl hgs with h | h <;> rw [hp] at h <;> cases h
    exact ⟨by simp [prep_step, hq1, hg], by simp [prep_step]⟩
  | loop_head hp =>
    have hg : s.g_stop = false := by
      cases hgs : s.g_stop with
      | false => rfl
      | true => rcases hfl hgs with h | h <;> rw [hp] at h <;> cases h
    unfold loop_head_step
    by_cases hl : loop_condition p s = true
    · rw [if_pos hl]
      exact ⟨by simp [hg], by simp⟩
    · rw [if_neg hl]
      refine ⟨by simp [hg], fun _ => ?_⟩
      simp only [loop_condition, hg, Bool.not_false, Bool.true_and, Bool.or_eq_true,
        decide_eq_true_eq, not_or, not_lt] at hl
      exact hl
  | handoff_lock hp =>
    have hg : s.g_stop = false := by
      cases hgs : s.g_stop with
      | false => rfl
      | true => rcases hfl hgs with h | h <;> rw [hp] at h <;> cases h
    unfold handoff_lock_step
    split_ifs <;> exact ⟨by simp [hg], by simp⟩
  | handoff_wait s1 hp h1 =>
    have hg : s.g_stop = false := by
      cases hgs : s.g_stop with
      | false => rfl
      | true => rcases hfl hgs with h | h <;> rw [hp] at h <;> cases h
    rcases handoff_wait_step_some h1 with ⟨hgt, rfl⟩ | ⟨_, _, rfl⟩
    · rw [hg] at hgt; cases hgt
    · exact ⟨by simp [hg], by simp⟩
  | tail hp =>
    have h1 := hex (Or.inl hp)
    have hg : s.g_stop = false := by
      cases hgs : s.g_stop with
      | false => rfl
      | true => rcases hfl hgs with h | h <;> rw [hp] at h <;> cases h
    unfold tail_step
    split_ifs <;> exact ⟨by simp [hg], fun _ => h1⟩
  | tail_count hp =>
    have h1 := hex (Or.inr (Or.inr (Or.inl hp)))
    have hg : s.g_stop = false := by
      cases hgs : s.g_stop with
      | false => rfl
      | true => rcases hfl hgs with h | h <;> rw [hp] at h <;> cases h
    exact ⟨by simp [tail_count_step, hg], fun _ => h1⟩
  | stop_writer hp =>
    have h1 := hex (Or.inr (Or.inr (Or.inr (Or.inl hp))))
    exact ⟨by simp [stop_writer_step], fun _ => h1⟩
  | join hp hw =>
    have h1 := hex (Or.inr (Or.inr (Or.inr (Or.inr (Or.inl hp)))))
    exact ⟨by simp [teardown_step], fun _ => h1⟩
  | acquire rc hp =>
    have hg : s.g_stop = false := by
      cases hgs : s.g_stop with
      | false => rfl
      | true => rcases hfl hgs with h | h <;> rw [hp] at h <;> cases h
    unfold acquire_step store_trace
    split_ifs <;> (try dsimp only) <;> (try split_ifs) <;> exact ⟨by simp [hg], by simp⟩
  | reconnect rc hp =>
    have hrc : rc = 0 := by simpa [Event.quiet] using hq
    have hg : s.g_stop = false := by
      cases hgs : s.g_stop with
      | false => rfl
      | true => rcases hfl hgs with h | h <;> rw [hp] at h <;> cases h
    unfold reconnect_step
    rw [if_pos hrc]
    exact ⟨by simp [hg], by simp⟩
  | tail_write r s1 hp h1 =>
    have h2 := hex (Or.inr (Or.inl hp))
    have hg : s.g_stop = false := by
      cases hgs : s.g_stop with
      | false => rfl
      | true => rcases hfl hgs with h | h <;> rw [hp] at h <;> cases h
    rcases tail_write_step_some h1 with ⟨w, _, _, rfl⟩ | ⟨_, rfl⟩ | ⟨_, rfl⟩
    · exact ⟨by simp [hg], fun _ => h2⟩
    · exact ⟨hfl, hex⟩
    · exact ⟨by simp [hg], fun _ => h2⟩
  | writer_loop_head hw =>
    unfold writer_loop_head_step
    split_ifs <;> exact ⟨hfl, hex⟩
  | writer_wait s1 hw h1 =>
    rcases writer_wait_step_some h1 with ⟨_, _, rfl⟩ | ⟨_, rfl⟩
    · exact ⟨hfl, hex⟩
    · exact ⟨hfl, hex⟩
  | writer_count hw => exact ⟨hfl, hex⟩
  | writer_write r s1 hw h1 =>
    rcases writer_write_step_some h1 with ⟨w, _, _, rfl⟩ | ⟨_, rfl⟩ | ⟨hr, rfl⟩
    · exact ⟨hfl, hex⟩
    · exact ⟨hfl, hex⟩
    · rw [hr] at hq
      simp [Event.quiet] at hq

/-- What a successful `engine_run_setup` guarantees about the sizes. -/
theorem engine_run_setup_ok {cfg : RunConfig} {R : Nat} {p : Setup}
    (h : engine_run_setup cfg R = .ok p) :
    p.n_traces = cfg.n_traces ∧ p.n_flush_traces = cfg.n_flush_traces ∧
    p.store = cfg.outfile.isSome ∧
    p.bytes_per_trace * p.n_flush_traces ≤ SIZE_MAX ∧
    p.bytes_per_flush_batch = p.bytes_per_trace * p.n_flush_traces := by
  unfold engine_run_setup at h
  by_cases h1 : enforce_flush_limit cfg R ≠ 0
  · rw [if_pos h1] at h; cases h
  · rw [if_neg h1] at h
    by_cases h2 : cfg.n_channels ≠ 0 ∧ cfg.n_samples > SIZE_MAX / cfg.n_channels
    · rw [if_pos h2] at h; cases h
    · rw [if_neg h2] at h
      by_cases h3 : (cfg.coding + 1) % 4294967296 ≠ 0 ∧
          cfg.n_samples * cfg.n_channels % (SIZE_MAX + 1) >
            SIZE_MAX / ((cfg.coding + 1) % 4294967296)
      · rw [if_pos h3] at h; cases h
      · rw [if_neg h3] at h
        by_cases h4 : cfg.n_flush_traces ≠ 0 ∧
            cfg.n_samples * cfg.n_channels % (SIZE_MAX + 1) *
              ((cfg.coding + 1) % 4294967296) % (SIZE_MAX + 1) >
                SIZE_MAX / cfg.n_flush_traces
        · rw [if_pos h4] at h; cases h
        · rw [if_neg h4] at h
          have h5 : cfg.n_samples * cfg.n_channels % (SIZE_MAX + 1) *
              ((cfg.coding + 1) % 4294967296) % (SIZE_MAX + 1) * cfg.n_flush_traces ≤
                SIZE_MAX := by
            by_cases hn : cfg.n_flush_traces = 0
            · simp [hn]
            · have hpos : 0 < cfg.n_flush_traces := Nat.pos_of_ne_zero hn
              have h6 := not_and.mp h4 hn
              rw [gt_iff_lt, not_lt, Nat.le_div_iff_mul_le hpos] at h6
              exact h6
          cases h
          exact ⟨rfl, rfl, rfl, h5, Nat.mod_eq_of_lt (Nat.lt_succ_of_le h5)⟩

theorem quietBatchInv_init (p : Setup) (hb : 1 ≤ p.n_flush_traces) :
    QuietBatchInv p (engine_init p) :=
  ⟨batchInv_init p hb, quietInv_init p, by simp [engine_init]⟩

theorem quietBatchInv_step (p : Setup) (hs : p.store = true) (hb : 1 ≤ p.n_flush_traces)
    (s : EngineState) (e : Event) (s1 : EngineState)
    (hq : e.quiet = true) (hI : QuietBatchInv p s) (h : Step p s e s1) :
    QuietBatchInv p s1 := by
  obtain ⟨hB, hQ, hop⟩ := hI
  refine ⟨batchInv_step p hs hb s e s1 hB h, quietInv_step p s e s1 hq hQ h, ?_⟩
  cases h with
  | stop_request => simp [Event.quiet] at hq
  | prep rc hp => simp [prep_step]
  | loop_head hp =>
    have h1 := hB.lt (Or.inr (Or.inl hp))
    unfold loop_head_step
    split_ifs
    · simp
    · exact fun _ => h1
  | handoff_lock hp =>
    unfold handoff_lock_step
    split_ifs <;> simp
  | handoff_wait s1 hp h1 =>
    rcases handoff_wait_step_some h1 with ⟨hg, rfl⟩ | ⟨_, _, rfl⟩
    · rcases hQ.flag hg with h | h <;> rw [hp] at h <;> cases h
    · simp
  | tail hp =>
    have h1 := hop (Or.inl hp)
    unfold tail_step
    split_ifs <;> exact fun _ => h1
  | tail_count hp => exact fun _ => hop (Or.inr (Or.inr (Or.inl hp)))
  | stop_writer hp => exact fun _ => hop (Or.inr (Or.inr (Or.inr (Or.inl hp))))
  | join hp hw => exact fun _ => hop (Or.inr (Or.inr (Or.inr (Or.inr (Or.inl hp)))))
  | acquire rc hp =>
    unfold acquire_step store_trace
    split_ifs <;> (try dsimp only) <;> (try split_ifs) <;> simp
  | reconnect rc hp =>
    have hrc : rc = 0 := by simpa [Event.quiet] using hq
    unfold reconnect_step
    rw [if_pos hrc]
    simp
  | tail_write r s1 hp h1 =>
    have h2 := hop (Or.inr (Or.inl hp))
    rcases tail_write_step_some h1 with ⟨w, _, _, rfl⟩ | ⟨_, rfl⟩ | ⟨_, rfl⟩
    · exact fun _ => h2
    · exact hop
    · exact fun _ => h2
  | writer_loop_head hw =>
    unfold writer_loop_head_step
    split_ifs <;> exact hop
  | writer_wait s1 hw h1 =>
    rcases writer_wait_step_some h1 with ⟨_, _, rfl⟩ | ⟨_, rfl⟩
    · exact hop
    · exact hop
  | writer_count hw => exact hop
  | writer_write r s1 hw h1 =>
    rcases writer_write_step_some h1 with ⟨w, _, _, rfl⟩ | ⟨_, rfl⟩ | ⟨_, rfl⟩
    · exact hop
    · exact hop
    · exact hop

theorem run_quietBatchInv {p : Setup} {es : List Event} {s : EngineState}
    (hs : p.store = true) (hb : 1 ≤ p.n_flush_traces)
    (hq : ∀ e ∈ es, e.quiet = true)
    (h : run p (engine_init p) es = some s) : QuietBatchInv p s :=
  run_invariant p (fun e => e.quiet = true) (QuietBatchInv p)
    (fun s0 e s1 hqe hI hst => quietBatchInv_step p hs hb s0 e s1 hqe hI hst) es _ _
    hq (quietBatchInv_init p hb) h

/-- Quotient and remainder by the batch size are determined. -/
theorem batch_split_unique {b h t k r : Nat} (ht : t < b) (hr : r < b)
    (heq : h * b + t = k * b + r) : h = k ∧ t = r := by
  have hbpos : 0 < b := by omega
  have h1 : (h * b + t) / b = h := by
    rw [Nat.add_comm, Nat.add_mul_div_right _ _ hbpos, Nat.div_eq_of_lt ht, Nat.zero_add]
  have h2 : (k * b + r) / b = k := by
    rw [Nat.add_comm, Nat.add_mul_div_right _ _ hbpos, Nat.div_eq_of_lt hr, Nat.zero_add]
  have hk : h = k := by rw [← h1, ← h2, heq]
  subst hk
  exact ⟨rfl, by omega⟩


theorem writtenInv_init (p : Setup) (hs : p.store = true) : WrittenInv p (engine_init p) := by
  constructor <;> simp [engine_init, in_flight, tail_counted, hs]

theorem writtenInv_step (p : Setup) (hs : p.store = true)
    (s : EngineState) (e : Event) (s1 : EngineState)
    (hI : WrittenInv p s) (h : Step p s e s1) : WrittenInv p s1 := by
  obtain ⟨hacc, hj⟩ := hI
  have hwd : s.wpc ≠ .done → s.ppc ≠ .done := fun hne hd => hne (hj hd)
  cases h with
  | stop_request => exact ⟨hacc, hj⟩
  | prep rc hp =>
    refine ⟨?_, by simp [prep_step]⟩
    have h1 : tail_counted s = 0 := by simp [tail_counted, hp]
    have h2 : tail_counted (prep_step s rc) = 0 := by simp [tail_counted, prep_step]
    have h3 : in_flight p (prep_step s rc) = in_flight p s := rfl
    rw [h2, h3, ← h1]
    exact hacc
  | loop_head hp =>
    have h1 : tail_counted s = 0 := by simp [tail_counted, hp]
    unfold loop_head_step
    split_ifs
    · refine ⟨?_, by simp⟩
      have h2 : tail_counted { s with ppc := .acquire } = 0 := by simp [tail_counted]
      have h3 : in_flight p { s with ppc := .acquire } = in_flight p s := rfl
      rw [h2, h3, ← h1]
      exact hacc
    · refine ⟨?_, by simp⟩
      have h2 : tail_counted { s with ppc := .tail } = 0 := by simp [tail_counted]
      have h3 : in_flight p { s with ppc := .tail } = in_flight p s := rfl
      rw [h2, h3, ← h1]
      exact hacc
  | handoff_lock hp =>
    have h1 : tail_counted s = 0 := by simp [tail_counted, hp]
    have h2 : tail_counted (handoff_lock_step s) = 0 := by
      unfold handoff_lock_step
      split_ifs <;> simp [tail_counted]
    have h3 : in_flight p (handoff_lock_step s) = in_flight p s := by
      unfold handoff_lock_step
      split_ifs <;> rfl
    have h4 : (handoff_lock_step s).total_traces_written = s.total_traces_written ∧
        (handoff_lock_step s).handoffs = s.handoffs ∧
        (handoff_lock_step s).ppc = .handoff_wait := by
      unfold handoff_lock_step
      split_ifs <;> exact ⟨rfl, rfl, rfl⟩
    refine ⟨?_, by simp [h4.2.2]⟩
    rw [h2, h3, h4.1, h4.2.1, ← h1]
    exact hacc
  | handoff_wait s1 hp h1 =>
    have h0 : tail_counted s = 0 := by simp [tail_counted, hp]
    rcases handoff_wait_step_some h1 with ⟨_, rfl⟩ | ⟨_, hr, rfl⟩
    · refine ⟨?_, by simp⟩
      have h2 : tail_counted { s with ppc := .tail } = 0 := by simp [tail_counted]
      have h3 : in_flight p { s with ppc := .tail } = in_flight p s := rfl
      rw [h2, h3, ← h0]
      exact hacc
    · refine ⟨?_, by simp⟩
      rw [h0] at hacc
      simp only [in_flight, hr, if_true] at hacc
      simp only [in_flight, tail_counted, Nat.add_mul, Nat.one_mul]
      simp only [reduceCtorEq, or_self, if_false, Nat.one_ne_zero]
      omega
  | tail hp =>
    have h0 : tail_counted s = 0 := by simp [tail_counted, hp]
    rw [h0] at hacc
    unfold tail_step
    simp only [hs, if_true]
    by_cases ht : s.traces_in_flush_batch > 0
    · simp only [ht, if_true]
      split_ifs
      · refine ⟨?_, by simp⟩
        have h2 : tail_counted { s with tail_off := 0, ppc := .tail_write } = 0 := by
          simp [tail_counted]
        rw [h2]
        exact hacc
      · refine ⟨?_, by simp⟩
        have h2 : tail_counted { s with tail_off := 0, ppc := .tail_count } = 0 := by
          simp [tail_counted]
        rw [h2]
        exact hacc
    · simp only [ht, if_false]
      have ht0 : s.traces_in_flush_batch = 0 := by omega
      refine ⟨?_, by simp⟩
      have h2 : tail_counted { s with ppc := .stop_writer } = 0 := by
        simp [tail_counted, ht0]
      rw [h2]
      exact hacc
  | tail_count hp =>
    have h0 : tail_counted s = 0 := by simp [tail_counted, hp]
    rw [h0] at hacc
    refine ⟨?_, by simp [tail_count_step]⟩
    have h2 : tail_counted (tail_count_step s) = s.traces_in_flush_batch := by
      simp [tail_counted, tail_count_step]
    have h3 : in_flight p (tail_count_step s) = in_flight p s := rfl
    rw [h2, h3]
    simp only [tail_count_step]
    omega
  | stop_writer hp =>
    have h0 : tail_counted s = s.traces_in_flush_batch := by simp [tail_counted, hp]
    refine ⟨?_, by simp [stop_writer_step]⟩
    have h2 : tail_counted (stop_writer_step s) = s.traces_in_flush_batch := by
      simp [tail_counted, stop_writer_step]
    have h3 : in_flight p (stop_writer_step s) = in_flight p s := rfl
    rw [h2, h3, ← h0]
    exact hacc
  | join hp hw =>
    have h0 : tail_counted s = s.traces_in_flush_batch := by simp [tail_counted, hp]
    refine ⟨?_, by simpa [teardown_step] using hw⟩
    have h2 : tail_counted (teardown_step s) = s.traces_in_flush_batch := by
      simp [tail_counted, teardown_step]
    have h3 : in_flight p (teardown_step s) = in_flight p s := rfl
    rw [h2, h3, ← h0]
    exact hacc
  | acquire rc hp =>
    have h0 : tail_counted s = 0 := by simp [tail_counted, hp]
    rw [h0] at hacc
    have h2 : tail_counted (acquire_step p s rc) = 0 ∧
        in_flight p (acquire_step p s rc) = in_flight p s ∧
        (acquire_step p s rc).total_traces_written = s.total_traces_written ∧
        (acquire_step p s rc).handoffs = s.handoffs ∧
        (acquire_step p s rc).ppc ≠ .done := by
      unfold acquire_step store_trace
      simp only [hs]
      split_ifs <;> (try dsimp only) <;> simp [tail_counted, in_flight]
    refine ⟨?_, fun hd => absurd hd h2.2.2.2.2⟩
    rw [h2.1, h2.2.1, h2.2.2.1, h2.2.2.2.1]
    exact hacc
  | reconnect rc hp =>
    have h0 : tail_counted s = 0 := by simp [tail_counted, hp]
    rw [h0] at hacc
    unfold reconnect_step
    split_ifs
    · refine ⟨?_, by simp⟩
      have h2 : tail_counted { s with ppc := .loop_head } = 0 := by simp [tail_counted]
      rw [h2]
      exact hacc
    · refine ⟨?_, by simp⟩
      have h2 : tail_counted { s with g_stop := true, ppc := .tail } = 0 := by
        simp [tail_counted]
      rw [h2]
      exact hacc
  | tail_write r s1 hp h1 =>
    have h0 : tail_counted s = 0 := by simp [tail_counted, hp]
    rw [h0] at hacc
    rcases tail_write_step_some h1 with ⟨w, _, _, rfl⟩ | ⟨_, rfl⟩ | ⟨_, rfl⟩
    · by_cases hc : s.tail_off + w < tail_bytes p s
      · refine ⟨?_, by simp [hc]⟩
        simp only [in_flight, tail_counted, hc, if_true, reduceCtorEq, or_self, if_false]
        exact hacc
      · refine ⟨?_, by simp [hc]⟩
        simp only [in_flight, tail_counted, hc, if_false, reduceCtorEq, or_self]
        exact hacc
    · refine ⟨?_, hj⟩
      rw [h0]
      exact hacc
    · refine ⟨?_, by simp⟩
      simp only [in_flight, tail_counted, reduceCtorEq, or_self, if_false]
      exact hacc
  | writer_loop_head hw =>
    have hpd : s.ppc ≠ .done := hwd (by rw [hw]; exact fun h => by cases h)
    simp only [in_flight, hw, reduceCtorEq, or_self, if_false] at hacc
    unfold writer_loop_head_step
    split_ifs
    · refine ⟨?_, fun hd => absurd hd hpd⟩
      have h2 : tail_counted { s with wpc := .done } = tail_counted s := rfl
      rw [h2]
      simp only [in_flight, reduceCtorEq, or_self, if_false]
      exact hacc
    · refine ⟨?_, fun hd => absurd hd hpd⟩
      have h2 : tail_counted { s with wpc := .wait } = tail_counted s := rfl
      rw [h2]
      simp only [in_flight, reduceCtorEq, or_self, if_false]
      exact hacc
  | writer_wait s1 hw h1 =>
    have hpd : s.ppc ≠ .done := hwd (by rw [hw]; exact fun h => by cases h)
    simp only [in_flight, hw, reduceCtorEq, or_self, if_false] at hacc
    rcases writer_wait_step_some h1 with ⟨_, _, rfl⟩ | ⟨hr, rfl⟩
    · refine ⟨?_, fun hd => absurd hd hpd⟩
      have h2 : tail_counted { s with wpc := .done } = tail_counted s := rfl
      rw [h2]
      simp only [in_flight, reduceCtorEq, or_self, if_false]
      exact hacc
    · refine ⟨?_, fun hd => absurd hd hpd⟩
      simp only [hr, if_false] at hacc
      by_cases hz : 0 < p.bytes_per_flush_batch
      · have h2 : tail_counted { s with
            this_idx := s.next_write_batch_idx
            ready_batches := 0
            w_off := 0
            wpc := if 0 < p.bytes_per_flush_batch then .write else .count } =
              tail_counted s := rfl
        rw [h2]
        simp only [in_flight, hz, if_true, true_or]
        omega
      · have h2 : tail_counted { s with
            this_idx := s.next_write_batch_idx
            ready_batches := 0
            w_off := 0
            wpc := if 0 < p.bytes_per_flush_batch then .write else .count } =
              tail_counted s := rfl
        rw [h2]
        simp only [in_flight, hz, if_false, or_true, if_true]
        omega
  | writer_count hw =>
    have hpd : s.ppc ≠ .done := hwd (by rw [hw]; exact fun h => by cases h)
    simp only [in_flight, hw, or_true, if_true] at hacc
    refine ⟨?_, fun hd => absurd hd hpd⟩
    have h2 : tail_counted (writer_count_step p s) = tail_counted s := rfl
    rw [h2]
    simp only [in_flight, writer_count_step, reduceCtorEq, or_self, if_false]
    omega
  | writer_write r s1 hw h1 =>
    have hpd : s.ppc ≠ .done := hwd (by rw [hw]; exact fun h => by cases h)
    simp only [in_flight, hw, true_or, if_true] at hacc
    rcases writer_write_step_some h1 with ⟨w, _, _, rfl⟩ | ⟨_, rfl⟩ | ⟨_, rfl⟩
    · refine ⟨?_, fun hd => absurd hd hpd⟩
      by_cases hc : s.w_off + w < p.bytes_per_flush_batch
      · have h2 : tail_counted { s with
            fd_out := s.fd_out ++
              buffer_bytes p.bytes_per_trace (writer_buffer s) s.w_off w
            w_off := s.w_off + w
            wpc := if s.w_off + w < p.bytes_per_flush_batch then .write else .count } =
              tail_counted s := rfl
        rw [h2]
        simp only [in_flight, hc, if_true, true_or]
        exact hacc
      · have h2 : tail_counted { s with
            fd_out := s.fd_out ++
              buffer_bytes p.bytes_per_trace (writer_buffer s) s.w_off w
            w_off := s.w_off + w
            wpc := if s.w_off + w < p.bytes_per_flush_batch then .write else .count } =
              tail_counted s := rfl
        rw [h2]
        simp only [in_flight, hc, if_false, or_true, if_true]
        exact hacc
    · refine ⟨?_, hj⟩
      simp only [in_flight, hw, true_or, if_true]
      exact hacc
    · refine ⟨?_, fun hd => absurd hd hpd⟩
      have h2 : tail_counted { s with g_stop := true, wpc := .count } = tail_counted s := rfl
      rw [h2]
      simp only [in_flight, or_true, if_true]
      exact hacc

theorem run_writtenInv {p : Setup} {es : List Event} {s : EngineState}
    (hs : p.store = true) (h : run p (engine_init p) es = some s) : WrittenInv p s :=
  run_invariant p (fun _ => True) (WrittenInv p)
    (fun s0 e s1 _ hI hst => writtenInv_step p hs s0 e s1 hI hst) es _ _
    (fun _ _ => trivial) (writtenInv_init p hs) h

/-! ## Reachable states -/

theorem run_countInv {p : Setup} {es : List Event} {s : EngineState}
    (h : run p (engine_init p) es = some s) : CountInv p s :=
  run_invariant p (fun _ => True) (CountInv p)
    (fun s0 e s1 _ hI hs => countInv_step p s0 e s1 hI hs) es _ _
    (fun _ _ => trivial) (countInv_init p) h

theorem run_batchInv {p : Setup} {es : List Event} {s : EngineState}
    (hs : p.store = true) (hb : 1 ≤ p.n_flush_traces)
    (h : run p (engine_init p) es = some s) : BatchInv p s :=
  run_invariant p (fun _ => True) (BatchInv p)
    (fun s0 e s1 _ hI hst => batchInv_step p hs hb s0 e s1 hI hst) es _ _
    (fun _ _ => trivial) (batchInv_init p hb) h

theorem run_tailInv {p : Setup} {es : List Event} {s : EngineState}
    (hs : p.store = true) (h : run p (engine_init p) es = some s) : TailInv p s :=
  run_invariant p (fun _ => True) (TailInv p)
    (fun s0 e s1 _ hI hst => tailInv_step p hs s0 e s1 hI hst) es _ _
    (fun _ _ => trivial) (tailInv_init p) h

theorem run_quietInv {p : Setup} {es : List Event} {s : EngineState}
    (hq : ∀ e ∈ es, e.quiet = true)
    (h : run p (engine_init p) es = some s) : QuietInv p s :=
  run_invariant p (fun e => e.quiet = true) (QuietInv p)
    (fun s0 e s1 hqe hI hst => quietInv_step p s0 e s1 hqe hI hst) es _ _
    hq (quietInv_init p) h

/-! ## Counting acquire results -/

theorem successes_append (l1 l2 : List Int) :
    successes (l1 ++ l2) = successes l1 + successes l2 := by
  simp [successes, List.filter_append]

theorem successes_reverse (l : List Int) : successes l.reverse = successes l := by
  simp [successes, List.filter_reverse]

theorem successes_replicate_ok (n : Nat) : successes (List.replicate n ACQ_OK) = n := by
  induction n with
  | zero => simp [successes]
  | succ n ih =>
    rw [List.replicate_succ, successes_cons, ih]
    simp [ACQ_OK]

/-- After the join, the written count falls short of the captured count by one batch
exactly when a batch is still marked ready. -/
theorem written_after_join {p : Setup} {es : List Event} {s : EngineState}
    (hstore : p.store = true) (hb : 1 ≤ p.n_flush_traces)
    (hrun : run p (engine_init p) es = some s) (hdone : s.ppc = .done) :
    s.total_traces_written + (if s.ready_batches = 0 then 0 else p.n_flush_traces) =
      s.total_traces_captured := by
  obtain ⟨hacc, hj⟩ := run_writtenInv hstore hrun
  obtain ⟨hcap, _, _, _⟩ := run_batchInv hstore hb hrun
  have hw := hj hdone
  simp only [in_flight, tail_counted, hw, hdone, reduceCtorEq, or_self, if_false, or_true,
    if_true, Nat.add_zero] at hacc
  omega

/-- A quiet store-mode run with target `k × b + r`, `r < b`, ends with the target
captured, `k` hand-offs and `r` traces in the open batch, which the producer has written
from the start of the active buffer unless one of its writes failed. -/
theorem quiet_run_capture {cfg : RunConfig} {R : Nat} {p : Setup} {es : List Event}
    {s : EngineState} {k r : Nat}
    (hsetup : engine_run_setup cfg R = .ok p) (hstore : p.store = true)
    (hr : r < p.n_flush_traces) (hn : p.n_traces = k * p.n_flush_traces + r)
    (hpos : 0 < p.n_traces)
    (hq : ∀ e ∈ es, e.quiet = true) (hrun : run p (engine_init p) es = some s)
    (hdone : s.ppc = .done) :
    s.total_traces_captured = k * p.n_flush_traces + r ∧ s.handoffs = k ∧
      s.traces_in_flush_batch = r ∧
      (s.tail_failed = false → s.tail_written =
        buffer_bytes p.bytes_per_trace (active_buffer s) 0 (r * p.bytes_per_trace)) := by
  have hb : 1 ≤ p.n_flush_traces := by omega
  obtain ⟨hB, hQ, hop⟩ := run_quietBatchInv hstore hb hq hrun
  obtain ⟨_, _, hbound⟩ := run_countInv hrun
  obtain ⟨_, _, haf⟩ := run_tailInv hstore hrun
  obtain ⟨_, _, _, hsize, _⟩ := engine_run_setup_ok hsetup
  have hd : s.ppc = .tail ∨ s.ppc = .tail_write ∨ s.ppc = .tail_count ∨
      s.ppc = .stop_writer ∨ s.ppc = .join ∨ s.ppc = .done :=
    Or.inr (Or.inr (Or.inr (Or.inr (Or.inr hdone))))
  have hge := (hQ.exited hd).2
  have hle := hbound (by omega)
  have hcap : s.total_traces_captured = k * p.n_flush_traces + r := by omega
  have hsplit := batch_split_unique (hop hd) hr (by rw [← hB.account, hcap])
  refine ⟨hcap, hsplit.1, hsplit.2, ?_⟩
  intro hf
  have htb : tail_bytes p s = r * p.bytes_per_trace := by
    unfold tail_bytes
    rw [hsplit.2]
    apply Nat.mod_eq_of_lt
    have h1 : r * p.bytes_per_trace ≤ p.n_flush_traces * p.bytes_per_trace :=
      Nat.mul_le_mul_right _ (Nat.le_of_lt hr)
    rw [Nat.mul_comm p.n_flush_traces] at h1
    omega
  rw [← htb]
  exact haf (Or.inr (Or.inr (Or.inr hdone))) hf

/-! ## The claims -/

/-- C1: for every run configuration with `n_flush_traces ≥ 1` (`engine_parse_cli_args`
replaces 0 by 1 before the planner runs, engine.c:126-127) and every RAM size `R`,
`enforce_flush_limit` returns 0 exactly when the trace size
`n_samples × n_channels × (coding+1)` is non-zero and its product with `n_flush_traces`
fits in `size_t` and is at most `R / 2`.  Every accepted configuration has
`2 × batch ≤ R`, and scenario S4 (`n_samples = 1048576`, one channel, `coding = 1`,
`n_flush_traces = 2`, `R` = 1 MiB) is rejected. -/
theorem C1_enforce_flush_limit_accepts (cfg : RunConfig) (R : Nat)
    (hb : 1 ≤ cfg.n_flush_traces) :
    (enforce_flush_limit cfg R = 0 ↔
      (exact_trace_bytes cfg ≠ 0 ∧ exact_batch_bytes cfg ≤ SIZE_MAX ∧
        exact_batch_bytes cfg ≤ R / 2)) ∧
    (enforce_flush_limit cfg R = 0 → 2 * exact_batch_bytes cfg ≤ R) ∧
    enforce_flush_limit (sized_config 1048576 1 1 2) 1048576 ≠ 0 := by
  have hiff := enforce_flush_limit_eq_zero_iff cfg R
  refine ⟨?_, ?_, by decide⟩
  · rw [hiff]
    constructor
    · rintro ⟨h0, _, h2, h3⟩
      exact ⟨h0, h2, h3⟩
    · rintro ⟨h0, h2, h3⟩
      refine ⟨h0, ?_, h2, h3⟩
      have hle : exact_trace_bytes cfg ≤ exact_batch_bytes cfg := by
        unfold exact_batch_bytes exact_trace_bytes
        exact Nat.le_mul_of_pos_right _ hb
      omega
  · intro h
    have h3 := (hiff.mp h).2.2.2
    omega

/-- C1 on an accepted and on a rejected configuration: 100 samples, 2 channels, WORD
coding, batches of 2 with 8 GiB of RAM are accepted, the batch of 800 bytes being below
half of the RAM; the same with 1 KiB of RAM is rejected, 800 being above 512. -/
theorem C1_enforce_flush_limit_accepts_witness :
    enforce_flush_limit (sized_config 100 2 1 2) 8589934592 = 0 ∧
    exact_batch_bytes (sized_config 100 2 1 2) = 800 ∧
    enforce_flush_limit (sized_config 100 2 1 2) 1024 ≠ 0 ∧
    (enforce_flush_limit (sized_config 100 2 1 2) 8589934592 = 0 ↔
      (exact_trace_bytes (sized_config 100 2 1 2) ≠ 0 ∧
        exact_batch_bytes (sized_config 100 2 1 2) ≤ SIZE_MAX ∧
        exact_batch_bytes (sized_config 100 2 1 2) ≤ 8589934592 / 2)) :=
  ⟨by decide, by decide, by decide,
    (C1_enforce_flush_limit_accepts (sized_config 100 2 1 2) 8589934592 (by decide)).1⟩

/-- C2: `mul_size_checked a b` reports overflow exactly when `a × b > SIZE_MAX` and
otherwise stores the exact product; and every configuration whose exact product
`n_samples × n_channels × (coding+1) × n_flush_traces` exceeds `SIZE_MAX` makes
`enforce_flush_limit` return a non-zero code, whatever the RAM size. -/
theorem C2_overflow_rejected :
    (∀ a b : Nat, (mul_size_checked a b = none ↔ SIZE_MAX < a * b) ∧
      (a * b ≤ SIZE_MAX → mul_size_checked a b = some (a * b))) ∧
    (∀ (cfg : RunConfig) (R : Nat), SIZE_MAX < exact_batch_bytes cfg →
      enforce_flush_limit cfg R ≠ 0) := by
  refine ⟨fun a b => ⟨mul_size_checked_none_iff a b, mul_size_checked_some_of_le a b⟩, ?_⟩
  intro cfg R h h0
  have := ((enforce_flush_limit_eq_zero_iff cfg R).mp h0).2.2.1
  omega

/-- C2 at a concrete overflow: `2^62` samples on 4 channels, one byte each, one trace a
batch: the product is `2^64` and the configuration is rejected. -/
theorem C2_overflow_rejected_witness :
    SIZE_MAX < exact_batch_bytes (sized_config 4611686018427387904 4 0 1) ∧
      enforce_flush_limit (sized_config 4611686018427387904 4 0 1) 8589934592 ≠ 0 :=
  ⟨by decide,
    C2_overflow_rejected.2 (sized_config 4611686018427387904 4 0 1) 8589934592 (by decide)⟩

set_option maxRecDepth 1000000 in
/-- C3.  What holds in every store-mode run with target `k × b + r` (`r < b`, target
positive) in which every acquire succeeds or is retried, no write of the writer fails
and no stop is requested: the run ends with `total_traces_captured = k × b + r`, `k`
batches handed to the writer and a tail of `r` traces that the producer writes from the
start of the active buffer, and `total_traces_written` is `k × b + r` when no batch is
left marked ready and one batch less otherwise.  The code at a failing input, scenario
S2 (target 5, batches of 2, 400 bytes a trace): the writer's `write` of the first batch
returns after the producer has raised the stop flag, and the writer leaves its loop at
`while (!g_stop)` with the second batch still ready; the run ends with 5 traces
captured, `total_traces_written = 3`, a file of 1200 bytes and the trailer
`ntraces_written=3`, where 5, 2000 and 5 are expected. -/
theorem C3_tail_flush_loses_ready_batch :
    (∀ (cfg : RunConfig) (R : Nat) (p : Setup) (es : List Event) (s : EngineState)
        (k r : Nat),
      engine_run_setup cfg R = .ok p → p.store = true → r < p.n_flush_traces →
      p.n_traces = k * p.n_flush_traces + r → 0 < p.n_traces →
      (∀ e ∈ es, e.quiet = true) → run p (engine_init p) es = some s → s.ppc = .done →
      s.total_traces_captured = k * p.n_flush_traces + r ∧ s.handoffs = k ∧
        s.traces_in_flush_batch = r ∧
        (s.tail_failed = false → s.tail_written =
          buffer_bytes p.bytes_per_trace (active_buffer s) 0 (r * p.bytes_per_trace)) ∧
        s.total_traces_written + (if s.ready_batches = 0 then 0 else p.n_flush_traces) =
          k * p.n_flush_traces + r) ∧
    engine_run_setup (store_config 5 2 100 2 1) 8589934592 = .ok (store_setup 5 2 400) ∧
    (∀ e ∈ s2_schedule, e.quiet = true) ∧
    ∃ s, run (store_setup 5 2 400) (engine_init (store_setup 5 2 400)) s2_schedule = some s ∧
      s.ppc = .done ∧ s.wpc = .done ∧ s.handoffs = 2 ∧
      s.total_traces_captured = 5 ∧ s.total_traces_written = 3 ∧
      s.fd_out.length = 1200 ∧ s.log_trailer = some 3 ∧ s.ready_batches = 1 := by
  refine ⟨?_, by decide, by decide, _, rfl, by decide⟩
  intro cfg R p es s k r hsetup hstore hr hn hpos hq hrun hdone
  obtain ⟨h1, h2, h3, h4⟩ := quiet_run_capture hsetup hstore hr hn hpos hq hrun hdone
  refine ⟨h1, h2, h3, h4, ?_⟩
  rw [← h1]
  exact written_after_join hstore (by omega) hrun hdone

/-- C5.  What holds in every store-mode run with `n_flush_traces = b ≥ 1`: once
`engine_run` has joined the writer, `total_traces_written` equals
`total_traces_captured` when no batch is marked ready, and is one batch short when a
batch is still marked ready.  The code at a failing input (target 4, batches of 2, no
write error, no stop request): the producer hands off the second batch
(`ready_batches = 1`) and sets the stop flag while the writer is still in the `write`
of the first batch; the writer finishes it, tests `while (!g_stop)` and returns.  After
the join the second batch is still marked ready and was never written: 4 traces
captured, 2 written. -/
theorem C5_ready_batch_lost_at_shutdown :
    (∀ (p : Setup) (es : List Event) (s : EngineState),
      p.store = true → 1 ≤ p.n_flush_traces → run p (engine_init p) es = some s →
      s.ppc = .done →
      s.wpc = .done ∧
        s.total_traces_written + (if s.ready_batches = 0 then 0 else p.n_flush_traces) =
          s.total_traces_captured) ∧
    (∀ e ∈ lost_batch_schedule, e.quiet = true) ∧
    ∃ s, run (store_setup 4 2 1) (engine_init (store_setup 4 2 1)) lost_batch_schedule =
        some s ∧
      s.ppc = .done ∧ s.wpc = .done ∧ s.ready_batches = 1 ∧ s.next_write_batch_idx = 1 ∧
      s.buf_b = [3, 4] ∧ s.fd_out = [(1, 0), (2, 0)] ∧
      s.total_traces_captured = 4 ∧ s.total_traces_written = 2 ∧
      s.log_trailer = some 2 :=
  ⟨fun _ _ _ hstore hb hrun hdone =>
      ⟨(run_writtenInv hstore hrun).joined hdone, written_after_join hstore hb hrun hdone⟩,
    by decide, _, rfl, by decide⟩

/-- C6, the code at a failing input: target 3, batches of 2.  The producer writes the
tail (trace 3) while the handed-off batch (traces 1 and 2) is still marked ready and
unwritten; the writer writes the batch afterwards.  The file holds trace 3 before
traces 1 and 2, although all three traces are counted as written. -/
theorem C6_tail_written_before_ready_batch :
    (∃ s, run (store_setup 3 2 1) (engine_init (store_setup 3 2 1)) early_tail_schedule =
        some s ∧
      s.ready_batches = 1 ∧ s.wpc = .wait ∧ s.buf_a = [1, 2] ∧ s.fd_out = [(3, 0)]) ∧
    (∃ s, run (store_setup 3 2 1) (engine_init (store_setup 3 2 1))
        (early_tail_schedule ++ early_tail_rest) = some s ∧
      s.ppc = .done ∧ s.wpc = .done ∧
      s.total_traces_captured = 3 ∧ s.total_traces_written = 3 ∧
      s.fd_out = [(3, 0), (1, 0), (2, 0)]) :=
  ⟨⟨_, rfl, by decide⟩, ⟨_, rfl, by decide⟩⟩

/-- C7, the code at a failing input: target 5, batches of 2.  The writer has taken
`buf_a` (`this_idx = 0`, nothing written yet) when the producer, having handed off
`buf_b`, is at the acquire call with `active_buf = buf_a` and offset 0.  The fifth trace
overwrites the first one before it reaches the disk: the writer then writes traces
5 and 2. -/
theorem C7_acquire_into_buffer_being_written :
    (∃ s, run (store_setup 5 2 1) (engine_init (store_setup 5 2 1)) aliasing_schedule =
        some s ∧
      s.ppc = .acquire ∧ s.active_buf = 0 ∧ s.traces_in_flush_batch = 0 ∧
      s.wpc = .write ∧ s.this_idx = 0 ∧ s.w_off = 0 ∧ s.buf_a = [1, 2] ∧ s.fd_out = []) ∧
    (∃ s, run (store_setup 5 2 1) (engine_init (store_setup 5 2 1))
        (aliasing_schedule ++ [.acquire 0, .writer_write (.accepted 2)]) = some s ∧
      s.buf_a = [5, 2] ∧ s.fd_out = [(5, 0), (2, 0)]) :=
  ⟨⟨_, rfl, by decide⟩, ⟨_, rfl, by decide⟩⟩

/-- C8, the code at two failing inputs.  Writer: the `write` of a batch of 2 fails
(not `EINTR`) with no byte written; the writer still adds `n_flush_traces = 2` to
`total_traces_written`.  Producer: the `write` of a one-trace tail fails; the producer
still adds 1.  In both runs the file is empty. -/
theorem C8_written_counted_after_failed_write :
    (∃ s, run (store_setup 2 2 1) (engine_init (store_setup 2 2 1)) failed_batch_schedule =
        some s ∧
      s.fd_out = [] ∧ s.total_traces_written = 2) ∧
    (∃ s, run (store_setup 1 2 1) (engine_init (store_setup 1 2 1)) failed_tail_schedule =
        some s ∧
      s.fd_out = [] ∧ s.tail_failed = true ∧ s.total_traces_written = 1) :=
  ⟨⟨_, rfl, by decide⟩, ⟨_, rfl, by decide⟩⟩

/-- C9, counterexample: target 20, the 7th attempt returns the hard error `-5`, the
reconnect succeeds and every other attempt succeeds.  The loop makes 21 attempts and
the run ends with 20 traces captured and written (40 bytes at 2 bytes a trace), not 19. -/
theorem C9_counterexample :
    ∃ s, run (store_setup 20 32 2) (engine_init (store_setup 20 32 2)) hard_error_schedule =
        some s ∧
      s.ppc = .done ∧ s.wpc = .done ∧
      s.attempts.reverse = List.replicate 6 0 ++ (-5) :: List.replicate 14 0 ∧
      s.total_traces_captured = 20 ∧ s.total_traces_written = 20 ∧
      s.fd_out.length = 20 * 2 ∧ s.total_traces_captured ≠ 19 :=
  ⟨_, rfl, by decide⟩

/-- C9, amended: in a run with target 20 in which nothing requests a stop, the 7th
acquire attempt returns a hard error (negative, not a timeout code), the reconnect
succeeds and every other attempt returns `ACQ_OK`, the run ends with
`total_traces_captured = 20`, after 21 attempts: the failed attempt is not counted and
the loop goes on until 20 traces are captured; in store mode
`total_traces_written = 20` as well when the run ends with no batch marked ready. -/
theorem C9_hard_error_is_retried (p : Setup) (es : List Event) (s : EngineState)
    (rc : Int) (k : Nat)
    (hn : p.n_traces = 20)
    (hq : ∀ e ∈ es, e.quiet = true)
    (hrun : run p (engine_init p) es = some s)
    (hdone : s.ppc = .done)
    (hrc : rc < 0 ∧ rc ≠ ACQ_ERR_ARM_TIMEOUT ∧ rc ≠ ACQ_ERR_TRIGGER_TIMEOUT)
    (hatt : s.attempts.reverse = List.replicate 6 ACQ_OK ++ rc :: List.replicate k ACQ_OK) :
    s.total_traces_captured = 20 ∧ s.attempts.length = 21 ∧
    (p.store = true → 1 ≤ p.n_flush_traces → s.ready_batches = 0 →
      s.total_traces_written = 20) := by
  obtain ⟨hc, _, hb⟩ := run_countInv hrun
  obtain ⟨_, hex⟩ := run_quietInv hq hrun
  have hge := (hex (Or.inr (Or.inr (Or.inr (Or.inr (Or.inr hdone)))))).2
  have hle := hb (by omega)
  have h20 : s.total_traces_captured = 20 := by omega
  have hs : successes s.attempts = 6 + k := by
    rw [← successes_reverse, hatt, successes_append, successes_cons,
      successes_replicate_ok, successes_replicate_ok]
    have : ¬ (0 ≤ rc) := by omega
    simp [this]
  have hlen : s.attempts.length = 6 + (k + 1) := by
    rw [← List.length_reverse, hatt]
    simp only [List.length_append, List.length_replicate, List.length_cons]
  refine ⟨h20, by omega, ?_⟩
  intro hstore hb1 hready
  have hw := written_after_join hstore hb1 hrun hdone
  rw [if_pos hready] at hw
  omega

/-- C9 on the run of the counterexample: 21 attempts, 20 traces captured and, no batch
being left ready, 20 written. -/
theorem C9_hard_error_is_retried_witness :
    run (store_setup 20 32 2) (engine_init (store_setup 20 32 2)) hard_error_schedule =
      some hard_error_final ∧
    hard_error_final.total_traces_captured = 20 ∧ hard_error_final.attempts.length = 21 ∧
    hard_error_final.total_traces_written = 20 :=
  ⟨by decide,
    (C9_hard_error_is_retried (store_setup 20 32 2) hard_error_schedule hard_error_final
      (-5) 14 (by decide) (by decide) (by decide) (by decide) (by decide) (by decide)).1,
    (C9_hard_error_is_retried (store_setup 20 32 2) hard_error_schedule hard_error_final
      (-5) 14 (by decide) (by decide) (by decide) (by decide) (by decide) (by decide)).2.1,
    (C9_hard_error_is_retried (store_setup 20 32 2) hard_error_schedule hard_error_final
      (-5) 14 (by decide) (by decide) (by decide) (by decide) (by decide) (by decide)).2.2
      (by decide) (by decide) (by decide)⟩

/-- C10.  What holds in every store-mode run with `n_flush_traces = b ≥ 1` on a setup
`engine_run` computes: in every state, and so whenever the loop is left,
`total_traces_captured = h × b + traces_in_flush_batch` with `h` the number of completed
hand-offs; once the producer is past its tail write and none of its `write` calls
failed, the bytes it wrote are exactly the first
`traces_in_flush_batch × bytes_per_trace` bytes of the active buffer; and after the
join `total_traces_written` is `total_traces_captured` less one batch when a batch is
still marked ready.  The code at a failing input, scenario S5 with every `write`
succeeding (batches of 10, stop raised at 3 of 10 after two hand-offs, the writer
having finished the `write` of the first batch but not yet tested its loop condition):
the writer counts its batch, finds the stop flag set at line 149 and returns although
the second batch is marked ready.  23 traces are captured (`2 × 10 + 3`), the tail of 3
is written, and the file and the trailer hold 13 traces, not 23: the traces 11 to 20
are never written.  When the writer has taken every batch before the stop (one
hand-off, the batch written, then 3 traces and the stop) the same code writes all 13
traces, `1 × 10 + 3`. -/
theorem C10_ready_batch_lost_when_stopped_mid_batch :
    (∀ (cfg : RunConfig) (R : Nat) (p : Setup) (es : List Event) (s : EngineState),
      engine_run_setup cfg R = .ok p → p.store = true → 1 ≤ p.n_flush_traces →
      run p (engine_init p) es = some s →
      s.total_traces_captured = s.handoffs * p.n_flush_traces + s.traces_in_flush_batch ∧
      ((s.ppc = .stop_writer ∨ s.ppc = .join ∨ s.ppc = .done) → s.tail_failed = false →
        s.tail_written =
          buffer_bytes p.bytes_per_trace (active_buffer s) 0
            (s.traces_in_flush_batch * p.bytes_per_trace)) ∧
      (s.ppc = .done →
        s.total_traces_written + (if s.ready_batches = 0 then 0 else p.n_flush_traces) =
          s.handoffs * p.n_flush_traces + s.traces_in_flush_batch)) ∧
    engine_run_setup (store_config 0 10 1 1 0) 8589934592 = .ok (store_setup 0 10 1) ∧
    run (store_setup 0 10 1) (engine_init (store_setup 0 10 1)) stop_mid_batch_schedule =
      some stop_mid_batch_final ∧
    stop_mid_batch_final.handoffs = 1 ∧ stop_mid_batch_final.traces_in_flush_batch = 3 ∧
    stop_mid_batch_final.ready_batches = 0 ∧
    stop_mid_batch_final.fd_out.map Prod.fst = List.range' 1 13 ∧
    stop_mid_batch_final.total_traces_written = 13 ∧
    (∀ e ∈ stop_mid_batch_lost_schedule,
      e ≠ .tail_write .failed ∧ e ≠ .writer_write .failed) ∧
    run (store_setup 0 10 1) (engine_init (store_setup 0 10 1))
      stop_mid_batch_lost_schedule = some stop_mid_batch_lost_final ∧
    stop_mid_batch_lost_final.ppc = .done ∧ stop_mid_batch_lost_final.wpc = .done ∧
    stop_mid_batch_lost_final.handoffs = 2 ∧
    stop_mid_batch_lost_final.traces_in_flush_batch = 3 ∧
    stop_mid_batch_lost_final.total_traces_captured = 23 ∧
    stop_mid_batch_lost_final.tail_written = [(21, 0), (22, 0), (23, 0)] ∧
    stop_mid_batch_lost_final.ready_batches = 1 ∧
    stop_mid_batch_lost_final.next_write_batch_idx = 1 ∧
    stop_mid_batch_lost_final.buf_b = List.range' 11 10 ∧
    stop_mid_batch_lost_final.fd_out.map Prod.fst = List.range' 1 10 ++ [21, 22, 23] ∧
    stop_mid_batch_lost_final.total_traces_written = 13 ∧
    stop_mid_batch_lost_final.log_trailer = some 13 ∧
    stop_mid_batch_lost_final.handoffs * 10 + 3 = 23 := by
  refine ⟨?_, by set_option maxRecDepth 100000 in decide⟩
  intro cfg R p es s hsetup hstore hb hrun
  obtain ⟨hacc, hle, _, _⟩ := run_batchInv hstore hb hrun
  obtain ⟨_, _, haf⟩ := run_tailInv hstore hrun
  obtain ⟨_, _, _, hsize, _⟩ := engine_run_setup_ok hsetup
  have htb : tail_bytes p s = s.traces_in_flush_batch * p.bytes_per_trace := by
    unfold tail_bytes
    apply Nat.mod_eq_of_lt
    have h1 : s.traces_in_flush_batch * p.bytes_per_trace ≤
        p.n_flush_traces * p.bytes_per_trace := Nat.mul_le_mul_right _ hle
    rw [Nat.mul_comm p.n_flush_traces] at h1
    omega
  refine ⟨hacc, ?_, ?_⟩
  · intro hp hf
    rw [← htb]
    exact haf (Or.inr hp) hf
  · intro hdone
    have hw := written_after_join hstore hb hrun hdone
    omega

/-! ## Transport: the library calls -/

theorem viWrite_spec (s : Scope) (p : List Nat) (count : Nat) :
    (viWrite s p count).2.wlog =
        s.wlog ++ [((viWrite s p count).1.st, p.take (viWrite s p count).1.wrote)] ∧
      (viWrite s p count).1.wrote ≤ count ∧
      (viWrite s p count).2.instr = s.instr ∧
      (viWrite s p count).2.rx = s.rx ∧
      (viWrite s p count).2.rlog = s.rlog ∧
      (viWrite s p count).2.termchar_en = s.termchar_en := by
  unfold viWrite
  cases h : s.tx with
  | nil => simp [VI_ERROR_TMO]
  | cons w rest => simp

theorem write_chunk_le (n : Nat) : write_chunk n ≤ n := by
  unfold write_chunk VI_UINT32
  split_ifs
  · omega
  · exact Nat.mod_le _ _

/-- The write loop: its log grows by the calls it issues; it returns 0 after calls that
all succeeded with at least one byte and together accepted the buffer, or -2 right
after the first call that failed or accepted nothing. -/
theorem scope_write_loop_spec (fuel : Nat) : ∀ (s : Scope) (p : List Nat), p.length ≤ fuel →
    ∃ calls, (scope_write_loop fuel s p).s.wlog = s.wlog ++ calls ∧
      (((scope_write_loop fuel s p).rc = 0 ∧ (∀ c ∈ calls, 0 ≤ c.1 ∧ c.2 ≠ []) ∧
          accepted calls = p) ∨
        ((scope_write_loop fuel s p).rc = -2 ∧
          ∃ init last, calls = init ++ [last] ∧ (∀ c ∈ init, 0 ≤ c.1 ∧ c.2 ≠ []) ∧
            (last.1 < 0 ∨ last.2 = []) ∧ ∃ rest, accepted calls ++ rest = p)) := by
  induction fuel with
  | zero =>
    intro s p hp
    have : p = [] := List.length_eq_zero.mp (by omega)
    subst this
    exact ⟨[], by simp [scope_write_loop], Or.inl ⟨rfl, by simp, rfl⟩⟩
  | succ fuel ih =>
    intro s p hp
    rw [scope_write_loop]
    by_cases h0 : p.length = 0
    · rw [if_pos h0]
      have : p = [] := List.length_eq_zero.mp h0
      subst this
      exact ⟨[], by simp, Or.inl ⟨rfl, by simp, rfl⟩⟩
    · rw [if_neg h0]
      obtain ⟨hlog, hle, -⟩ := viWrite_spec s p (write_chunk p.length)
      have hcl := write_chunk_le p.length
      generalize viWrite s p (write_chunk p.length) = r at hlog hle ⊢
      by_cases hf : r.1.st < VI_SUCCESS ∨ r.1.wrote = 0
      · rw [if_pos hf]
        refine ⟨[(r.1.st, p.take r.1.wrote)], hlog, Or.inr ⟨rfl, [], _, rfl, by simp, ?_, ?_⟩⟩
        · rcases hf with hf | hf
          · exact Or.inl hf
          · exact Or.inr (by simp [hf])
        · exact ⟨p.drop r.1.wrote, by simp [accepted]⟩
      · rw [if_neg hf]
        have hst : 0 ≤ r.1.st := by
          have := not_or.mp hf
          simpa [VI_SUCCESS] using this.1
        have hw : r.1.wrote ≠ 0 := (not_or.mp hf).2
        have hlen : (p.drop r.1.wrote).length ≤ fuel := by
          rw [List.length_drop]; omega
        obtain ⟨calls, hc, hres⟩ := ih r.2 (p.drop r.1.wrote) hlen
        have hne : p.take r.1.wrote ≠ [] := by
          intro h
          have := congrArg List.length h
          rw [List.length_take, List.length_nil] at this
          omega
        refine ⟨(r.1.st, p.take r.1.wrote) :: calls, ?_, ?_⟩
        · rw [hc, hlog]; simp
        · rcases hres with ⟨h1, h2, h3⟩ | ⟨h1, init, last, h2, h3, h4, rest, h5⟩
          · refine Or.inl ⟨h1, ?_, ?_⟩
            · intro c hcm
              rcases List.mem_cons.mp hcm with rfl | hcm
              · exact ⟨hst, hne⟩
              · exact h2 c hcm
            · simp [accepted, h3]
          · refine Or.inr ⟨h1, (r.1.st, p.take r.1.wrote) :: init, last, by simp [h2], ?_, h4,
              rest, ?_⟩
            · intro c hcm
              rcases List.mem_cons.mp hcm with rfl | hcm
              · exact ⟨hst, hne⟩
              · exact h3 c hcm
            · simp only [accepted, List.append_assoc]
              rw [h5]; simp

theorem term_stop_le (data : List Nat) : term_stop data ≤ data.length := by
  induction data with
  | nil => simp [term_stop]
  | cons c cs ih =>
    simp only [term_stop, List.length_cons]
    split_ifs <;> omega

theorem viRead_spec (s : Scope) (count : Nat) :
    (viRead s count).2.rlog = s.rlog ++ [(viRead s count).1] ∧
      (viRead s count).1.data.length ≤ count ∧
      (viRead s count).2.instr = s.instr ∧
      (viRead s count).2.termchar_en = s.termchar_en ∧
      (viRead s count).2.tx = s.tx ∧
      (viRead s count).2.wlog = s.wlog ∧
      ((viRead s count).1.st < 0 →
        (viRead s count).1.data.length < count ∨ (viRead s count).1.data = []) := by
  unfold viRead
  cases h : s.rx with
  | nil => simp
  | cons p rest =>
    have hts := term_stop_le p.data
    simp only
    by_cases h1 : min count (if s.termchar_en then term_stop p.data else p.data.length) <
        p.data.length
    · rw [if_pos h1]
      refine ⟨rfl, ?_, rfl, rfl, rfl, rfl, ?_⟩
      · simp only [List.length_take]; omega
      · intro hneg
        exfalso
        revert hneg
        simp only [VI_SUCCESS_MAX_CNT, VI_SUCCESS_TERM_CHAR]
        split_ifs <;> omega
    · rw [if_neg h1]
      have hle : p.data.length ≤ count := by
        split_ifs at h1 <;> omega
      by_cases h2 : p.st < 0 ∧ count ≤ p.data.length
      · rw [if_pos h2]
        refine ⟨rfl, hle, rfl, rfl, rfl, rfl, ?_⟩
        intro hneg
        simp [VI_SUCCESS_MAX_CNT] at hneg
      · rw [if_neg h2]
        refine ⟨rfl, hle, rfl, rfl, rfl, rfl, ?_⟩
        intro hneg
        left
        have hn : ¬ count ≤ p.data.length := fun hc => h2 ⟨hneg, hc⟩
        exact Nat.lt_of_not_le hn

/-- The status test of `scope_read` and `scope_query` is the test for a negative
status: `VI_SUCCESS_MAX_CNT` is positive. -/
theorem status_failed_iff (st : Int) :
    (st < VI_SUCCESS ∧ st ≠ VI_SUCCESS_MAX_CNT) ↔ st < 0 := by
  unfold VI_SUCCESS VI_SUCCESS_MAX_CNT
  omega

theorem VI_UINT32_le (n : Nat) : VI_UINT32 n ≤ n :=
  Nat.mod_le _ _

/-- The exact-read loop: its log grows by the reads it issues and the buffer by their
bytes; it returns 0 after reads that all succeeded with at least one byte and together
delivered `rem` bytes, or -3 right after the first read that failed or delivered
nothing, with the count of all bytes received, which is below `rem`. -/
theorem scope_read_loop_spec (fuel : Nat) :
    ∀ (s : Scope) (rem total : Nat) (buf : List Nat), rem ≤ fuel →
    ∃ reads, (scope_read_loop fuel s rem total buf).s.rlog = s.rlog ++ reads ∧
      (scope_read_loop fuel s rem total buf).buf = buf ++ delivered reads ∧
      (((scope_read_loop fuel s rem total buf).rc = 0 ∧
          (∀ r ∈ reads, 0 ≤ r.st ∧ r.data ≠ []) ∧ (delivered reads).length = rem ∧
          (scope_read_loop fuel s rem total buf).out_len = some (total + rem)) ∨
        ((scope_read_loop fuel s rem total buf).rc = -3 ∧
          (scope_read_loop fuel s rem total buf).out_len =
            some (total + (delivered reads).length) ∧
          (delivered reads).length < rem ∧
          ∃ init last, reads = init ++ [last] ∧ (∀ r ∈ init, 0 ≤ r.st ∧ r.data ≠ []) ∧
            (last.st < 0 ∨ last.data = []) ∧ (delivered init).length < rem)) := by
  induction fuel with
  | zero =>
    intro s rem total buf h
    have : rem = 0 := by omega
    subst this
    exact ⟨[], by simp [scope_read_loop], by simp [scope_read_loop, delivered],
      Or.inl ⟨rfl, by simp, rfl, rfl⟩⟩
  | succ fuel ih =>
    intro s rem total buf h
    rw [scope_read_loop]
    by_cases h0 : rem = 0
    · rw [if_pos h0]
      subst h0
      exact ⟨[], by simp, by simp [delivered], Or.inl ⟨rfl, by simp, rfl, rfl⟩⟩
    · rw [if_neg h0]
      obtain ⟨hlog, hle, -, -, -, -, herr⟩ := viRead_spec s (VI_UINT32 rem)
      have hcl := VI_UINT32_le rem
      generalize viRead s (VI_UINT32 rem) = r at hlog hle herr ⊢
      by_cases hf : r.1.st < VI_SUCCESS ∧ r.1.st ≠ VI_SUCCESS_MAX_CNT
      · rw [if_pos hf]
        have hneg : r.1.st < 0 := (status_failed_iff _).mp hf
        have hshort : r.1.data.length < rem := by
          rcases herr hneg with h1 | h1
          · omega
          · rw [h1]; simp only [List.length_nil]; omega
        refine ⟨[r.1], hlog, by simp [delivered], Or.inr ⟨rfl, by simp [delivered], ?_, [], r.1,
          rfl, by simp, Or.inl hneg, ?_⟩⟩
        · simpa [delivered] using hshort
        · simp only [delivered, List.length_nil]; omega
      · rw [if_neg hf]
        have hst : 0 ≤ r.1.st := by
          have := (status_failed_iff r.1.st).not.mp hf
          omega
        by_cases hz : r.1.data.length = 0
        · rw [if_pos hz]
          have hnil : r.1.data = [] := List.length_eq_zero.mp hz
          refine ⟨[r.1], hlog, by simp [delivered, hnil], Or.inr ⟨rfl, by simp [delivered, hnil],
            ?_, [], r.1, rfl, by simp, Or.inr hnil, ?_⟩⟩
          · simp only [delivered, hnil, List.append_nil, List.length_nil]; omega
          · simp only [delivered, List.length_nil]; omega
        · rw [if_neg hz]
          have hne : r.1.data ≠ [] := fun h => hz (by simp [h])
          obtain ⟨reads, hr, hb, hres⟩ :=
            ih r.2 (rem - r.1.data.length) (total + r.1.data.length) (buf ++ r.1.data)
              (by omega)
          refine ⟨r.1 :: reads, ?_, ?_, ?_⟩
          · rw [hr, hlog]; simp
          · rw [hb]; simp [delivered]
          · rcases hres with ⟨h1, h2, h3, h4⟩ | ⟨h1, h2, hlt, init, last, h3, h4, h5, h6⟩
            · refine Or.inl ⟨h1, ?_, ?_, ?_⟩
              · intro c hcm
                rcases List.mem_cons.mp hcm with rfl | hcm
                · exact ⟨hst, hne⟩
                · exact h2 c hcm
              · simp only [delivered, List.length_append, h3]; omega
              · rw [h4]; congr 1; omega
            · refine Or.inr ⟨h1, ?_, ?_, r.1 :: init, last, by simp [h3], ?_, h5, ?_⟩
              · rw [h2]; simp only [delivered, List.length_append]; congr 1; omega
              · simp only [delivered, List.length_append]; omega
              · intro c hcm
                rcases List.mem_cons.mp hcm with rfl | hcm
                · exact ⟨hst, hne⟩
                · exact h4 c hcm
              · simp only [delivered, List.length_append]; omega

/-! ## The trim loop of the query -/

theorem set_eq_take_cons_drop (b : List Nat) : ∀ n, n < b.length →
    b.set n 0 = b.take n ++ 0 :: b.drop (n + 1) := by
  induction b with
  | nil => intro n h; simp at h
  | cons c cs ih =>
    intro n h
    cases n with
    | zero => simp
    | succ n =>
      simp only [List.length_cons] at h
      simp [ih n (by omega)]

theorem strip_crlf_snoc_keep (l : List Nat) (c : Nat) (h : c ≠ 10 ∧ c ≠ 13) :
    strip_crlf (l ++ [c]) = l ++ [c] := by
  unfold strip_crlf
  simp [List.dropWhile, h.1, h.2]

theorem strip_crlf_snoc_drop (l : List Nat) (c : Nat) (h : ¬ (c ≠ 10 ∧ c ≠ 13)) :
    strip_crlf (l ++ [c]) = strip_crlf l := by
  unfold strip_crlf
  have : (c = 10 || c = 13) = true := by
    simp only [Bool.or_eq_true, decide_eq_true_eq]
    omega
  simp [List.dropWhile, this]

theorem strip_crlf_length_le (l : List Nat) : (strip_crlf l).length ≤ l.length := by
  unfold strip_crlf
  rw [List.length_reverse]
  calc (List.dropWhile _ l.reverse).length ≤ l.reverse.length :=
        (List.dropWhile_sublist _).length_le
    _ = l.length := List.length_reverse l

theorem trim_crlf_spec : ∀ (n : Nat) (b : List Nat), n ≤ b.length →
    (trim_crlf n b).1 = (strip_crlf (b.take n)).length ∧
    (trim_crlf n b).2 =
      strip_crlf (b.take n) ++ List.replicate (n - (strip_crlf (b.take n)).length) 0 ++
        b.drop n := by
  intro n
  induction n with
  | zero => intro b _; simp [trim_crlf, strip_crlf]
  | succ n ih =>
    intro b hb
    have hn : n < b.length := by omega
    have htake : b.take (n + 1) = b.take n ++ [b.getD n 0] := by
      rw [List.take_succ]
      simp [List.getD, List.getElem?_eq_getElem hn]
    rw [trim_crlf]
    by_cases hk : b.getD n 0 ≠ 10 ∧ b.getD n 0 ≠ 13
    · rw [if_pos hk, htake, strip_crlf_snoc_keep _ _ hk]
      rw [← htake]
      simp [List.length_take, Nat.min_eq_left hb]
    · rw [if_neg hk, htake, strip_crlf_snoc_drop _ _ hk]
      have hset := set_eq_take_cons_drop b n hn
      have hlen : n ≤ (b.set n 0).length := by simp; omega
      obtain ⟨h1, h2⟩ := ih (b.set n 0) hlen
      have ht : (b.set n 0).take n = b.take n := by
        rw [hset, List.take_append_of_le_length (by simp; omega)]
        simp [List.take_take]
      have hd : (b.set n 0).drop n = 0 :: b.drop (n + 1) := by
        rw [hset]
        have : (b.take n).length = n := by simp; omega
        rw [List.drop_append_of_le_length (by omega), List.drop_of_length_le (by omega)]
        simp
      rw [ht] at h1 h2
      rw [hd] at h2
      refine ⟨h1, ?_⟩
      rw [h2]
      have hm : (strip_crlf (b.take n)).length ≤ n := by
        have := strip_crlf_length_le (b.take n)
        simp at this; omega
      have : n + 1 - (strip_crlf (List.take n b)).length =
          (n - (strip_crlf (List.take n b)).length) + 1 := by omega
      rw [this, List.replicate_succ']
      simp

theorem store_set (resp data : List Nat) (h : data.length < resp.length) :
    (store resp data).set data.length 0 = data ++ 0 :: resp.drop (data.length + 1) := by
  unfold store
  rw [set_eq_take_cons_drop _ _ (by simp; omega)]
  simp [List.take_append_of_le_length, List.drop_append_of_le_length, Nat.add_comm]

/-- A successful `scope_query` issued one read; the buffer then holds the received
bytes without their trailing CR and LF, zeros up to and including the index of the
terminator, and its old content after that. -/
theorem scope_query_ok (s : Scope) (cmd resp : List Nat)
    (h : (scope_query s cmd resp).rc = 0) :
    ∃ r : ViRead, (scope_query s cmd resp).s.rlog = s.rlog ++ [r] ∧ 0 ≤ r.st ∧
      r.data.length ≤ resp.length - 1 ∧ 1 ≤ resp.length ∧
      (scope_query s cmd resp).resp =
        strip_crlf r.data ++
          List.replicate (r.data.length - (strip_crlf r.data).length + 1) 0 ++
            resp.drop (r.data.length + 1) := by
  unfold scope_query at h ⊢
  by_cases h1 : s.instr = VI_NULL ∨ resp.length = 0
  · rw [if_pos h1] at h; simp at h
  · rw [if_neg h1] at h ⊢
    by_cases h2 : (viWrite s (cmd ++ [10]) (VI_UINT32 (cmd.length + 1))).1.st < VI_SUCCESS ∨
        (viWrite s (cmd ++ [10]) (VI_UINT32 (cmd.length + 1))).1.wrote ≠
          VI_UINT32 (cmd.length + 1)
    · rw [if_pos h2] at h; simp at h
    · rw [if_neg h2] at h ⊢
      obtain ⟨-, -, -, -, hwl, -⟩ := viWrite_spec s (cmd ++ [10]) (VI_UINT32 (cmd.length + 1))
      generalize (viWrite s (cmd ++ [10]) (VI_UINT32 (cmd.length + 1))).2 = s1 at h hwl ⊢
      obtain ⟨hrl, hle, -⟩ := viRead_spec { s1 with termchar_en := true }
        (VI_UINT32 (resp.length - 1))
      have hcl := VI_UINT32_le (resp.length - 1)
      generalize viRead { s1 with termchar_en := true } (VI_UINT32 (resp.length - 1)) = r
        at h hrl hle ⊢
      simp only at h ⊢
      by_cases h3 : r.1.st < VI_SUCCESS ∧ r.1.st ≠ VI_SUCCESS_MAX_CNT
      · rw [if_pos h3] at h; simp at h
      · rw [if_neg h3]
        have hst : 0 ≤ r.1.st := by
          have := (status_failed_iff r.1.st).not.mp h3
          omega
        have hpos : 1 ≤ resp.length := by
          have := not_or.mp h1
          omega
        have hn : (if r.1.data.length < resp.length - 1 then r.1.data.length
            else resp.length - 1) = r.1.data.length := by
          split_ifs <;> omega
        refine ⟨r.1, ?_, hst, by omega, hpos, ?_⟩
        · simp only [hrl, hwl]
        · simp only [hn]
          rw [store_set resp r.1.data (by omega)]
          have hspec := trim_crlf_spec r.1.data.length
            (r.1.data ++ 0 :: resp.drop (r.1.data.length + 1)) (by simp)
          rw [hspec.2, List.replicate_succ']
          simp

theorem c_string_append_zero (a rest : List Nat) (h : 0 ∉ a) :
    c_string (a ++ 0 :: rest) = a := by
  unfold c_string
  induction a with
  | nil => simp [List.takeWhile]
  | cons c cs ih =>
    have hc : c ≠ 0 := fun hc => h (by simp [hc])
    have hcs : 0 ∉ cs := fun hcs => h (by simp [hcs])
    have ih2 := ih hcs
    simp only [List.cons_append, List.takeWhile_cons, decide_eq_true_eq.mpr hc, ite_true]
    rw [ih2]

theorem mem_strip_crlf (l : List Nat) (x : Nat) (h : x ∈ strip_crlf l) : x ∈ l := by
  unfold strip_crlf at h
  rw [List.mem_reverse] at h
  exact List.mem_reverse.mp ((List.dropWhile_sublist _).subset h)

theorem strip_crlf_getLast (l : List Nat) :
    (strip_crlf l).getLast? ≠ some 10 ∧ (strip_crlf l).getLast? ≠ some 13 := by
  unfold strip_crlf
  rw [List.getLast?_reverse]
  have := List.head?_dropWhile_not (fun c => c = 10 || c = 13) l.reverse
  constructor <;> intro h <;> rw [h] at this <;> simp at this

theorem term_stop_gt : ∀ (data : List Nat) (k : Nat), k < data.length →
    10 ∉ data.take k → k < term_stop data := by
  intro data
  induction data with
  | nil => intro k h; simp at h
  | cons c cs ih =>
    intro k hk hno
    cases k with
    | zero => simp only [term_stop]; split_ifs <;> omega
    | succ k =>
      simp only [List.take_succ_cons, List.mem_cons, not_or] at hno
      simp only [List.length_cons] at hk
      have hc : c ≠ 10 := fun h => hno.1 h.symm
      simp only [term_stop, if_neg hc]
      have := ih k (by omega) hno.2
      omega

/-- The read of `scope_query` when the reply does not fit: with the termination
character enabled, a packet longer than `count` without a line feed among its first
`count` bytes gives `VI_SUCCESS_MAX_CNT` with these bytes, and the rest stays. -/
theorem viRead_max_cnt (s : Scope) (count : Nat) (p : ViRead) (rest : List ViRead)
    (hrx : s.rx = p :: rest) (hlong : count < p.data.length)
    (hnolf : 10 ∉ p.data.take count) :
    viRead s count =
      (⟨VI_SUCCESS_MAX_CNT, p.data.take count⟩,
        { s with rx := ⟨p.st, p.data.drop count⟩ :: rest,
                 rlog := s.rlog ++ [⟨VI_SUCCESS_MAX_CNT, p.data.take count⟩] }) := by
  have hstop : count ≤ (if s.termchar_en then term_stop p.data else p.data.length) := by
    have := term_stop_gt p.data count hlong hnolf
    split_ifs <;> omega
  unfold viRead
  rw [hrx]
  simp only [Nat.min_eq_left hstop, if_pos hlong, if_pos hstop]

/-! ## Channel list -/

/-- The two ways `add_channel` ends on a configuration whose count is the length of its
list: the name is appended and 0 returned, or nothing changes and the code is not 0. -/
theorem add_channel_cases (out : RunConfig) (ch : String)
    (hwf : out.n_channels = out.channels.length) :
    (add_channel out ch =
        (0, { out with channels := out.channels ++ [ch], n_channels := out.n_channels + 1 }) ∧
      ch ≠ "" ∧ ch ∉ out.channels ∧ out.channels.length < 8) ∨
    ((add_channel out ch).2 = out ∧ (add_channel out ch).1 ≠ 0 ∧
      (ch = "" ∨ ch ∈ out.channels ∨ 8 ≤ out.channels.length)) := by
  have htake : out.channels.take out.n_channels = out.channels := by
    rw [hwf]; exact List.take_length _
  unfold add_channel
  rw [htake]
  by_cases h1 : ch = ""
  · rw [if_pos h1]; exact Or.inr ⟨rfl, by simp, Or.inl h1⟩
  · rw [if_neg h1]
    by_cases h2 : ch ∈ out.channels
    · rw [if_pos h2]; exact Or.inr ⟨rfl, by simp, Or.inr (Or.inl h2)⟩
    · rw [if_neg h2]
      by_cases h3 : out.n_channels ≥ SCOPE_MAX_CHANS
      · rw [if_pos h3]
        refine Or.inr ⟨rfl, by simp, Or.inr (Or.inr ?_)⟩
        unfold SCOPE_MAX_CHANS at h3; omega
      · rw [if_neg h3]
        refine Or.inl ⟨rfl, h1, h2, ?_⟩
        unfold SCOPE_MAX_CHANS at h3; omega

/-- A sequence of `add_channel` calls keeps the list free of duplicates, at most eight
long and counted by `n_channels`; it only appends, in the order of the calls, and a
non-empty name is missing afterwards only when the list is full. -/
theorem add_channels_inv (names : List String) : ∀ (out : RunConfig),
    out.n_channels = out.channels.length → out.channels.Nodup → out.channels.length ≤ 8 →
    (add_channels out names).n_channels = (add_channels out names).channels.length ∧
    (add_channels out names).channels.Nodup ∧
    (add_channels out names).channels.length ≤ 8 ∧
    (∃ added, (add_channels out names).channels = out.channels ++ added ∧
      added.Sublist names) ∧
    (∀ n ∈ names, n ≠ "" →
      n ∈ (add_channels out names).channels ∨ (add_channels out names).channels.length = 8) := by
  induction names with
  | nil =>
    intro out hwf hnd hlen
    exact ⟨hwf, hnd, hlen, ⟨[], by simp [add_channels], List.Sublist.refl _⟩, by simp⟩
  | cons ch rest ih =>
    intro out hwf hnd hlen
    rw [add_channels]
    rcases add_channel_cases out ch hwf with ⟨heq, h1, h2, h3⟩ | ⟨heq, -, hrej⟩
    · rw [heq]
      have hwf2 : out.n_channels + 1 = (out.channels ++ [ch]).length := by simp [hwf]
      have hnd2 : (out.channels ++ [ch]).Nodup := by
        rw [List.nodup_append]
        exact ⟨hnd, List.nodup_singleton ch, by
          intro a ha hb
          rw [List.mem_singleton] at hb
          exact h2 (hb ▸ ha)⟩
      have hlen2 : (out.channels ++ [ch]).length ≤ 8 := by simp; omega
      obtain ⟨i1, i2, i3, ⟨added, i4, i5⟩, i6⟩ :=
        ih { out with channels := out.channels ++ [ch], n_channels := out.n_channels + 1 }
          hwf2 hnd2 hlen2
      refine ⟨i1, i2, i3, ⟨ch :: added, by simp [i4], i5.cons₂ ch⟩, ?_⟩
      intro n hn hne
      rcases List.mem_cons.mp hn with rfl | hn
      · left; rw [i4]; simp
      · exact i6 n hn hne
    · rw [heq]
      obtain ⟨i1, i2, i3, ⟨added, i4, i5⟩, i6⟩ := ih out hwf hnd hlen
      refine ⟨i1, i2, i3, ⟨added, i4, i5.cons ch⟩, ?_⟩
      intro n hn hne
      rcases List.mem_cons.mp hn with rfl | hn
      · rcases hrej with h | h | h
        · exact absurd h hne
        · left; rw [i4]; exact List.mem_append_left _ h
        · right
          have : out.channels.length ≤ (add_channels out rest).channels.length := by
            rw [i4]; simp
          omega
      · exact i6 n hn hne

theorem takeWhile_eq_self (f : Char → Bool) (l : List Char)
    (h : (l.takeWhile f).length = l.length) : l.takeWhile f = l :=
  (List.takeWhile_prefix f).eq_of_length h

theorem split_commas_eq (p : List Char) :
    split_commas p =
      if (first_element p).length = p.length then [p]
      else first_element p :: split_commas (p.drop ((first_element p).length + 1)) := by
  induction p with
  | nil => simp [split_commas, first_element]
  | cons c cs ih =>
    by_cases hc : c = ','
    · subst hc
      simp [split_commas, first_element]
    · have hf : first_element (c :: cs) = c :: first_element cs := by
        simp [first_element, List.takeWhile_cons, hc]
      rw [hf]
      simp only [split_commas, if_neg hc, List.length_cons, Nat.add_right_cancel_iff,
        List.drop_succ_cons]
      rw [ih]
      by_cases hl : (first_element cs).length = cs.length
      · simp [hl]
      · simp [hl]

theorem element_of_eq (p : List Char) (h : (first_element p).length < 64) :
    element_of p = trimmed (first_element p) := by
  unfold element_of trimmed
  rw [if_neg (by omega), List.take_length]

theorem first_element_eq_self (p : List Char) (h : (first_element p).length = p.length) :
    first_element p = p :=
  takeWhile_eq_self _ p h

theorem offered_names_last (p : List Char) (h : (first_element p).length = p.length) :
    offered_names p =
      if trimmed (first_element p) ≠ [] then [String.mk (trimmed (first_element p))]
      else [] := by
  have hp : first_element p = p := takeWhile_eq_self _ p h
  unfold offered_names
  rw [split_commas_eq, if_pos h, hp]
  by_cases ht : trimmed p = []
  · simp [ht]
  · simp [ht]

theorem offered_names_cons (p : List Char) (h : (first_element p).length ≠ p.length) :
    offered_names p =
      (if trimmed (first_element p) ≠ [] then [String.mk (trimmed (first_element p))]
        else []) ++ offered_names (p.drop ((first_element p).length + 1)) := by
  unfold offered_names
  rw [split_commas_eq, if_neg h]
  by_cases ht : trimmed (first_element p) = []
  · simp [ht]
  · simp [ht]

theorem first_failure_keep (rc_all rc : Int) (codes : List Int) :
    (if rc_all ≠ 0 then rc_all else first_failure (rc :: codes)) =
      if (if rc ≠ 0 ∧ rc_all = 0 then rc else rc_all) ≠ 0
        then (if rc ≠ 0 ∧ rc_all = 0 then rc else rc_all)
      else first_failure codes := by
  simp only [first_failure]
  by_cases h1 : rc_all = 0 <;> by_cases h2 : rc = 0 <;> simp [h1, h2]

/-- The loop of `parse_channels_list` calls `add_channel` on the offered names of `p`,
in order, and keeps the first code that is not 0. -/
theorem parse_channels_loop_spec (fuel : Nat) :
    ∀ (out : RunConfig) (p : List Char) (rc_all : Int), p.length < fuel →
    (∀ e ∈ split_commas p, e.length < 64) →
    parse_channels_loop fuel out p rc_all =
      (if rc_all ≠ 0 then rc_all else first_failure (call_codes out (offered_names p)),
        add_channels out (offered_names p)) := by
  induction fuel with
  | zero => intro out p rc_all h; omega
  | succ fuel ih =>
    intro out p rc_all hlen hshort
    rw [parse_channels_loop]
    by_cases hp : p = []
    · subst hp
      have : offered_names [] = [] := by decide
      rw [if_pos rfl, this]
      simp only [call_codes, first_failure, add_channels]
      by_cases h0 : rc_all = 0 <;> simp [h0]
    · rw [if_neg hp]
      have hsplit := split_commas_eq p
      have hfirst : (first_element p).length < 64 := by
        apply hshort
        rw [hsplit]
        split_ifs with hq
        · rw [first_element_eq_self p hq]; simp
        · simp
      rw [element_of_eq p hfirst]
      by_cases hq : (first_element p).length = p.length
      · rw [offered_names_last p hq]
        by_cases he : trimmed (first_element p) = []
        · rw [if_neg (not_not.mpr he), if_pos hq, if_neg (not_not.mpr he)]
          simp only [call_codes, first_failure, add_channels]
          by_cases h0 : rc_all = 0 <;> simp [h0]
        · rw [if_pos he, if_pos hq, if_pos he]
          simp only [call_codes, add_channels]
          rw [first_failure_keep]
          simp only [first_failure]
          generalize (add_channel out (String.mk (trimmed (first_element p)))).1 = rc
          by_cases h0 : rc_all = 0 <;> by_cases h1 : rc = 0 <;> simp [h0, h1]
      · have hrest : ∀ e ∈ split_commas (p.drop ((first_element p).length + 1)),
            e.length < 64 := by
          intro e hm
          apply hshort
          rw [hsplit, if_neg hq]
          exact List.mem_cons_of_mem _ hm
        have hdrop : (p.drop ((first_element p).length + 1)).length < fuel := by
          rw [List.length_drop]
          have : p.length ≠ 0 := fun h => hp (List.length_eq_zero.mp h)
          omega
        rw [offered_names_cons p hq]
        by_cases he : trimmed (first_element p) = []
        · rw [if_neg (not_not.mpr he), if_neg hq, ih _ _ _ hdrop hrest,
            if_neg (not_not.mpr he)]
          rfl
        · rw [if_pos he, if_neg hq, ih _ _ _ hdrop hrest, if_pos he]
          simp only [List.singleton_append, call_codes, add_channels]
          rw [first_failure_keep]
          rfl

theorem first_failure_eq_zero_iff (codes : List Int) :
    first_failure codes = 0 ↔ ∀ rc ∈ codes, rc = 0 := by
  induction codes with
  | nil => simp [first_failure]
  | cons rc rest ih =>
    simp only [first_failure, List.mem_cons, forall_eq_or_imp]
    by_cases h : rc = 0
    · simp [h, ih]
    · simp [h]

/-! ## Transport: reading a stream -/

theorem split_front (xs ys xs1 ys1 : List Nat) (h : xs ++ ys = xs1 ++ ys1)
    (hl : xs1.length ≤ xs.length) : ∃ xs2, xs = xs1 ++ xs2 ∧ ys1 = xs2 ++ ys := by
  rcases List.append_eq_append_iff.mp h with ⟨a, h1, h2⟩ | ⟨c, h1, h2⟩
  · have ha : a = [] := by
      have := congrArg List.length h1
      simp only [List.length_append] at this
      exact List.length_eq_zero.mp (by omega)
    subst ha
    exact ⟨[], by simpa using h1.symm, by simpa using h2.symm⟩
  · exact ⟨c, h1, h2⟩

theorem delivers_nil (rx : List ViRead) (h : delivers rx []) : rx = [] := by
  cases rx with
  | nil => rfl
  | cons p rest =>
    exfalso
    have hp := h.1 p (List.mem_cons_self _ _)
    have hd := h.2
    simp only [delivered, List.append_eq_nil] at hd
    exact hp.2 hd.1

/-- One `viRead` on a stream that is not empty, the termination character disabled:
the call succeeds and takes a non-empty prefix of at most `count` bytes off the stream. -/
theorem viRead_delivers (s : Scope) (count : Nat) (b : Nat) (bs : List Nat)
    (hterm : s.termchar_en = false) (hd : delivers s.rx (b :: bs)) (hc : 1 ≤ count) :
    ∃ xs ys, b :: bs = xs ++ ys ∧ xs ≠ [] ∧ xs.length ≤ count ∧
      (viRead s count).1.data = xs ∧ 0 ≤ (viRead s count).1.st ∧
      delivers (viRead s count).2.rx ys ∧ (viRead s count).2.instr = s.instr ∧
      (viRead s count).2.termchar_en = false := by
  obtain ⟨-, -, hi, ht, -⟩ := viRead_spec s count
  rw [hterm] at ht
  cases hrx : s.rx with
  | nil =>
    rw [hrx] at hd
    have := hd.2
    simp [delivered] at this
  | cons p rest =>
    rw [hrx] at hd
    have hp := hd.1 p (List.mem_cons_self _ _)
    have hrest : ∀ q ∈ rest, 0 ≤ q.st ∧ q.data ≠ [] :=
      fun q hq => hd.1 q (List.mem_cons_of_mem _ hq)
    have hbytes : p.data ++ delivered rest = b :: bs := hd.2
    have hlen : 0 < p.data.length := List.length_pos.mpr hp.2
    by_cases hlt : count < p.data.length
    · have hv : viRead s count =
          (⟨VI_SUCCESS_MAX_CNT, p.data.take count⟩,
            { s with rx := ⟨p.st, p.data.drop count⟩ :: rest,
                     rlog := s.rlog ++ [⟨VI_SUCCESS_MAX_CNT, p.data.take count⟩] }) := by
        unfold viRead
        rw [hrx]
        simp only [hterm, Bool.false_eq_true, if_false, Nat.min_eq_left (le_of_lt hlt),
          if_pos hlt, if_pos (le_of_lt hlt)]
      refine ⟨p.data.take count, p.data.drop count ++ delivered rest, ?_, ?_, ?_, ?_, ?_, ?_,
        hi, ht⟩
      · rw [← hbytes, ← List.append_assoc, List.take_append_drop]
      · intro h
        have := congrArg List.length h
        rw [List.length_take, List.length_nil] at this
        omega
      · rw [List.length_take]; omega
      · rw [hv]
      · rw [hv]; simp [VI_SUCCESS_MAX_CNT]
      · rw [hv]
        refine ⟨?_, rfl⟩
        intro q hq
        rcases List.mem_cons.mp hq with rfl | hq
        · refine ⟨hp.1, ?_⟩
          intro h
          have := congrArg List.length h
          simp only [List.length_drop, List.length_nil] at this
          omega
        · exact hrest q hq
    · have hv : viRead s count = (p, { s with rx := rest, rlog := s.rlog ++ [p] }) := by
        unfold viRead
        rw [hrx]
        have hmin : ¬ (min count p.data.length < p.data.length) := by omega
        have herr : ¬ (p.st < 0 ∧ count ≤ p.data.length) := fun h => by omega
        simp only [hterm, Bool.false_eq_true, if_false, if_neg hmin, if_neg herr]
      refine ⟨p.data, delivered rest, hbytes.symm, hp.2, by omega, ?_, ?_, ?_, hi, ht⟩
      · rw [hv]
      · rw [hv]; exact hp.1
      · rw [hv]; exact ⟨hrest, rfl⟩

/-- The exact-read loop on a stream that holds the `rem` bytes `xs`: it returns 0 with
`xs` appended to the buffer and leaves the rest of the stream. -/
theorem scope_read_loop_delivers (fuel : Nat) :
    ∀ (s : Scope) (rem total : Nat) (buf xs ys : List Nat),
    s.termchar_en = false → delivers s.rx (xs ++ ys) → xs.length = rem → rem ≤ fuel →
    rem < 4294967296 →
    (scope_read_loop fuel s rem total buf).rc = 0 ∧
    (scope_read_loop fuel s rem total buf).out_len = some (total + rem) ∧
    (scope_read_loop fuel s rem total buf).buf = buf ++ xs ∧
    delivers (scope_read_loop fuel s rem total buf).s.rx ys ∧
    (scope_read_loop fuel s rem total buf).s.instr = s.instr ∧
    (scope_read_loop fuel s rem total buf).s.termchar_en = false := by
  induction fuel with
  | zero =>
    intro s rem total buf xs ys hterm hd hx hf _
    have h0 : rem = 0 := by omega
    subst h0
    have : xs = [] := List.length_eq_zero.mp hx
    subst this
    exact ⟨rfl, rfl, by simp [scope_read_loop], hd, rfl, hterm⟩
  | succ fuel ih =>
    intro s rem total buf xs ys hterm hd hx hf h32
    rw [scope_read_loop]
    by_cases h0 : rem = 0
    · subst h0
      have : xs = [] := List.length_eq_zero.mp hx
      subst this
      rw [if_pos rfl]
      exact ⟨rfl, rfl, by simp, hd, rfl, hterm⟩
    · rw [if_neg h0]
      have hu : VI_UINT32 rem = rem := Nat.mod_eq_of_lt h32
      rw [hu]
      cases xs with
      | nil => simp at hx; omega
      | cons b bs =>
        obtain ⟨xs1, ys1, hsplit, hne, hle, hdata, hst, hd1, hi1, ht1⟩ :=
          viRead_delivers s rem b (bs ++ ys) hterm hd (by omega)
        obtain ⟨xs2, hx2, hy2⟩ := split_front (b :: bs) ys xs1 ys1 hsplit (by omega)
        generalize viRead s rem = r at hdata hst hd1 hi1 ht1 ⊢
        have hnf : ¬ (r.1.st < VI_SUCCESS ∧ r.1.st ≠ VI_SUCCESS_MAX_CNT) := by
          rw [status_failed_iff]; omega
        have hnz : ¬ r.1.data.length = 0 := by
          rw [hdata]; exact fun h => hne (List.length_eq_zero.mp h)
        rw [if_neg hnf, if_neg hnz]
        have hlen : xs2.length = rem - r.1.data.length := by
          have := congrArg List.length hx2
          rw [List.length_append, hx] at this
          rw [hdata]; omega
        rw [hy2] at hd1
        obtain ⟨i1, i2, i3, i4, i5, i6⟩ :=
          ih r.2 (rem - r.1.data.length) (total + r.1.data.length) (buf ++ r.1.data) xs2 ys
            ht1 hd1 hlen (by rw [hdata]; have := List.length_pos.mpr hne; omega) (by omega)
        refine ⟨i1, ?_, ?_, i4, i5.trans hi1, i6⟩
        · rw [i2]; congr 1; rw [← hdata] at hle; omega
        · rw [i3, hx2, hdata]; simp

/-- The exact read of `len` bytes on an open session whose stream holds them. -/
theorem scope_read_exact_delivers (s : Scope) (len : Nat) (xs ys : List Nat)
    (hopen : s.instr ≠ VI_NULL) (hterm : s.termchar_en = false)
    (hd : delivers s.rx (xs ++ ys)) (hx : xs.length = len) (h32 : len < 4294967296) :
    (scope_read s len true).rc = 0 ∧ (scope_read s len true).buf = xs ∧
    delivers (scope_read s len true).s.rx ys ∧
    (scope_read s len true).s.instr = s.instr ∧
    (scope_read s len true).s.termchar_en = false := by
  have hw : scope_read s len true = scope_read_loop len s len 0 [] := by
    unfold scope_read
    rw [if_neg hopen]
    simp
  rw [hw]
  obtain ⟨i1, -, i3, i4, i5, i6⟩ :=
    scope_read_loop_delivers len s len 0 [] xs ys hterm hd hx (le_refl _) h32
  exact ⟨i1, by simpa using i3, i4, i5, i6⟩

/-- The single read on an open session whose stream is not empty. -/
theorem scope_read_once_delivers (s : Scope) (count : Nat) (b : Nat) (bs : List Nat)
    (hopen : s.instr ≠ VI_NULL) (hterm : s.termchar_en = false)
    (hd : delivers s.rx (b :: bs)) (hc : 1 ≤ count) (h32 : count < 4294967296) :
    ∃ xs ys, b :: bs = xs ++ ys ∧ xs ≠ [] ∧ xs.length ≤ count ∧
      (scope_read s count false).rc = 0 ∧
      (scope_read s count false).out_len = some xs.length ∧
      delivers (scope_read s count false).s.rx ys ∧
      (scope_read s count false).s.instr = s.instr ∧
      (scope_read s count false).s.termchar_en = false := by
  have hu : VI_UINT32 count = count := Nat.mod_eq_of_lt h32
  obtain ⟨xs, ys, h1, h2, h3, h4, h5, h6, h7, h8⟩ := viRead_delivers s count b bs hterm hd hc
  have hnf : ¬ ((viRead s count).1.st < VI_SUCCESS ∧
      (viRead s count).1.st ≠ VI_SUCCESS_MAX_CNT) := by
    rw [status_failed_iff]; omega
  have hw : scope_read s count false =
      ⟨0, some (viRead s count).1.data.length, (viRead s count).1.data, (viRead s count).2⟩ := by
    unfold scope_read
    rw [if_neg hopen, if_pos rfl, hu, if_neg hnf]
  refine ⟨xs, ys, h1, h2, h3, ?_, ?_, ?_, ?_, ?_⟩
  · rw [hw]
  · rw [hw, ← h4]
  · rw [hw]; exact h6
  · rw [hw]; exact h7
  · rw [hw]; exact h8

/-- The read of the optional line feed (lines 385 and 392): it takes one byte off the
stream, whatever the byte is, and nothing when the stream is empty. -/
theorem scope_read_one_delivers (s : Scope) (tail : List Nat)
    (hopen : s.instr ≠ VI_NULL) (hterm : s.termchar_en = false)
    (hd : delivers s.rx tail) :
    delivers (scope_read s 1 false).s.rx (tail.drop 1) ∧
    (scope_read s 1 false).s.instr = s.instr ∧
    (scope_read s 1 false).s.termchar_en = false := by
  cases tail with
  | nil =>
    have hrx := delivers_nil s.rx hd
    have hv : viRead s (VI_UINT32 1) =
        (⟨VI_ERROR_TMO, []⟩, { s with rlog := s.rlog ++ [⟨VI_ERROR_TMO, []⟩] }) := by
      unfold viRead
      rw [hrx]
    unfold scope_read
    rw [if_neg hopen, if_pos rfl, hv]
    simp only [VI_ERROR_TMO, VI_SUCCESS, VI_SUCCESS_MAX_CNT]
    rw [if_pos (by decide)]
    refine ⟨?_, rfl, hterm⟩
    show delivers s.rx []
    exact hd
  | cons b bs =>
    obtain ⟨xs, ys, h1, h2, h3, -, -, h6, h7, h8⟩ :=
      scope_read_once_delivers s 1 b bs hopen hterm hd (le_refl _) (by decide)
    have hxs : xs = [b] ∧ ys = bs := by
      cases xs with
      | nil => exact absurd rfl h2
      | cons x xs' =>
        cases xs' with
        | nil => simp at h1; exact ⟨by rw [h1.1], h1.2.symm⟩
        | cons y zs => simp at h3
    rw [hxs.2] at h6
    exact ⟨h6, h7, h8⟩

/-- The drain loop on an open session whose stream holds the `n` bytes `xs`: it returns
0 and leaves the rest of the stream. -/
theorem scope_skip_bytes_delivers (fuel : Nat) :
    ∀ (s : Scope) (n : Nat) (xs ys : List Nat),
    s.instr ≠ VI_NULL → s.termchar_en = false → delivers s.rx (xs ++ ys) →
    xs.length = n → n ≤ fuel →
    (scope_skip_bytes fuel s n).1 = 0 ∧ delivers (scope_skip_bytes fuel s n).2.rx ys ∧
    (scope_skip_bytes fuel s n).2.instr = s.instr ∧
    (scope_skip_bytes fuel s n).2.termchar_en = false := by
  induction fuel with
  | zero =>
    intro s n xs ys _ hterm hd hx hf
    have h0 : n = 0 := by omega
    subst h0
    have : xs = [] := List.length_eq_zero.mp hx
    subst this
    exact ⟨rfl, hd, rfl, hterm⟩
  | succ fuel ih =>
    intro s n xs ys hopen hterm hd hx hf
    rw [scope_skip_bytes]
    by_cases h0 : n = 0
    · subst h0
      have : xs = [] := List.length_eq_zero.mp hx
      subst this
      rw [if_pos rfl]
      exact ⟨rfl, hd, rfl, hterm⟩
    · rw [if_neg h0]
      cases xs with
      | nil => simp at hx; omega
      | cons b bs =>
        have hc1 : 1 ≤ (if n > 1024 then 1024 else n) := by split_ifs <;> omega
        have hc2 : (if n > 1024 then 1024 else n) ≤ n := by split_ifs <;> omega
        have hc3 : (if n > 1024 then 1024 else n) < 4294967296 := by split_ifs <;> omega
        obtain ⟨xs1, ys1, hsplit, hne, hle, hrc, hol, hd1, hi1, ht1⟩ :=
          scope_read_once_delivers s (if n > 1024 then 1024 else n) b (bs ++ ys) hopen hterm hd
            hc1 hc3
        obtain ⟨xs2, hx2, hy2⟩ := split_front (b :: bs) ys xs1 ys1 hsplit (by omega)
        generalize scope_read s (if n > 1024 then 1024 else n) false = o
          at hrc hol hd1 hi1 ht1 ⊢
        have hpos : 0 < xs1.length := List.length_pos.mpr hne
        have hlen : xs2.length = n - xs1.length := by
          have := congrArg List.length hx2
          rw [List.length_append, hx] at this
          omega
        rw [if_neg (by rw [hrc]; simp), hol]
        simp only [Option.getD_some]
        rw [if_neg (by omega)]
        rw [hy2] at hd1
        obtain ⟨i1, i2, i3, i4⟩ :=
          ih o.s (n - xs1.length) xs2 ys (by rw [hi1]; exact hopen) ht1 hd1 hlen (by omega)
        exact ⟨i1, i2, i3.trans hi1, i4⟩

/-! ## Definite-length blocks -/

theorem strtoull_digits_append (ds rest : List Nat) (hds : ∀ c ∈ ds, isdigit c = true)
    (hrest : ∀ c, rest.head? = some c → isdigit c = false) :
    ∀ acc, strtoull_digits (ds ++ rest) acc = ds.foldl (fun a c => a * 10 + (c - 48)) acc := by
  induction ds with
  | nil =>
    intro acc
    cases rest with
    | nil => rfl
    | cons c cs => simp [strtoull_digits, hrest c rfl]
  | cons d ds ih =>
    intro acc
    have hd : isdigit d = true := hds d (List.mem_cons_self _ _)
    simp only [List.cons_append, strtoull_digits, hd, if_true, List.foldl_cons]
    exact ih (fun c hc => hds c (List.mem_cons_of_mem _ hc)) _

theorem foldl_digits_lt (ds : List Nat) (hds : ∀ c ∈ ds, isdigit c = true) :
    ∀ acc, ds.foldl (fun a c => a * 10 + (c - 48)) acc < (acc + 1) * 10 ^ ds.length := by
  induction ds with
  | nil => intro acc; simp
  | cons d ds ih =>
    intro acc
    have hd : isdigit d = true := hds d (List.mem_cons_self _ _)
    have hd9 : d - 48 ≤ 9 := by
      simp only [isdigit, Bool.and_eq_true, decide_eq_true_eq] at hd
      omega
    have h1 := ih (fun c hc => hds c (List.mem_cons_of_mem _ hc)) (acc * 10 + (d - 48))
    simp only [List.foldl_cons, List.length_cons]
    calc List.foldl (fun a c => a * 10 + (c - 48)) (acc * 10 + (d - 48)) ds
        < (acc * 10 + (d - 48) + 1) * 10 ^ ds.length := h1
      _ ≤ ((acc + 1) * 10) * 10 ^ ds.length := Nat.mul_le_mul_right _ (by omega)
      _ = (acc + 1) * 10 ^ (ds.length + 1) := by rw [Nat.pow_succ]; ring

theorem decimal_value_lt (ds : List Nat) (hds : ∀ c ∈ ds, isdigit c = true)
    (hlen : ds.length ≤ 9) : decimal_value ds < 1000000000 := by
  have h := foldl_digits_lt ds hds 0
  have hp : 10 ^ ds.length ≤ 10 ^ 9 := Nat.pow_le_pow_right (by decide) hlen
  unfold decimal_value
  omega

/-- What `strtoull` returns on `lenbuf` when the array holds a string of at most nine
digits followed by something that is not a digit: the decimal value of the string. -/
theorem strtoull_of_digits (ds rest : List Nat) (hne : ds ≠ [])
    (hds : ∀ c ∈ ds, isdigit c = true) (hlen : ds.length ≤ 9)
    (hrest : ∀ c, rest.head? = some c → isdigit c = false) :
    strtoull (ds ++ rest) = decimal_value ds := by
  cases ds with
  | nil => exact absurd rfl hne
  | cons d ds' =>
    have hd : isdigit d = true := hds d (List.mem_cons_self _ _)
    have hd2 : 48 ≤ d ∧ d ≤ 57 := by
      simpa only [isdigit, Bool.and_eq_true, decide_eq_true_eq] using hd
    have hsp : isspace d = false := by
      simp only [isspace, Bool.or_eq_false_iff, decide_eq_false_iff_not, Bool.and_eq_false_iff]
      omega
    have hv := strtoull_digits_append (d :: ds') rest hds hrest 0
    have hlt := decimal_value_lt (d :: ds') hds hlen
    unfold strtoull
    have hdw : (d :: ds' ++ rest).dropWhile isspace = d :: ds' ++ rest := by
      simp [List.dropWhile, hsp]
    simp only [hdw]
    have hh : (d :: ds' ++ rest).head? = some d := rfl
    have h45 : ¬ (some d = some 45) := by simp; omega
    have h43 : ¬ (some d = some 43) := by simp; omega
    simp only [hh, h45, h43, or_self, if_false, hv]
    unfold decimal_value at hlt ⊢
    rw [if_neg (by unfold ULLONG_MAX; omega)]

theorem dec_digits_isdigit (L : Nat) : ∀ c ∈ dec_digits L, isdigit c = true := by
  intro c hc
  unfold dec_digits at hc
  split_ifs at hc with h0
  · rw [List.mem_singleton.mp hc]; rfl
  · rw [List.mem_map] at hc
    obtain ⟨d, hd, rfl⟩ := hc
    have := Nat.digits_lt_base (by decide : 1 < 10) (List.mem_reverse.mp hd)
    simp only [isdigit, Bool.and_eq_true, decide_eq_true_eq]
    omega

theorem dec_digits_ne_nil (L : Nat) : dec_digits L ≠ [] := by
  unfold dec_digits
  split_ifs with h0
  · simp
  · simp [Nat.digits_ne_nil_iff_ne_zero, h0]

theorem decimal_value_reverse_map (ds : List Nat) :
    decimal_value (ds.reverse.map (fun d => d + 48)) = Nat.ofDigits 10 ds := by
  unfold decimal_value
  induction ds with
  | nil => simp
  | cons d ds ih =>
    rw [List.reverse_cons, List.map_append, List.foldl_append, ih, Nat.ofDigits_cons]
    simp
    omega

theorem dec_digits_value (L : Nat) : decimal_value (dec_digits L) = L := by
  unfold dec_digits
  split_ifs with h0
  · rw [h0]; rfl
  · rw [decimal_value_reverse_map, Nat.ofDigits_digits]

theorem dec_digits_length_le (L : Nat) (h : L < 1000000000) : (dec_digits L).length ≤ 9 := by
  unfold dec_digits
  split_ifs with h0
  · simp
  · rw [List.length_map, List.length_reverse]
    by_contra hgt
    have h10 : 10 ^ 10 ≤ 10 ^ (Nat.digits 10 L).length :=
      Nat.pow_le_pow_right (by decide) (by omega)
    have := Nat.base_pow_length_digits_le 10 L (by decide) h0
    omega

/-- The payload stage when the payload fits: the `L` payload bytes go to `dst`, one more
byte is taken off the stream, and the result is 0 with `*out_len = L`. -/
theorem defblock_payload_fits (s : Scope) (cap L : Nat) (payload tail : List Nat)
    (hopen : s.instr ≠ VI_NULL) (hterm : s.termchar_en = false)
    (hd : delivers s.rx (payload ++ tail)) (hL : payload.length = L) (hcap : L ≤ cap)
    (h32 : L < 4294967296) :
    (defblock_payload s cap L).rc = 0 ∧ (defblock_payload s cap L).out_len = some L ∧
    (defblock_payload s cap L).dst = payload ∧
    delivers (defblock_payload s cap L).s.rx (tail.drop 1) := by
  obtain ⟨h1, h2, h3, h4, h5⟩ := scope_read_exact_delivers s L payload tail hopen hterm hd hL h32
  obtain ⟨k1, -, -⟩ := scope_read_one_delivers (scope_read s L true).s tail
    (by rw [h4]; exact hopen) h5 h3
  unfold defblock_payload
  rw [if_neg (by omega), if_neg (by rw [h1]; simp)]
  exact ⟨rfl, rfl, h2, k1⟩

/-- The payload stage when the payload does not fit: the `L` payload bytes are drained,
one more byte is taken off the stream, nothing is stored, and the result is -6. -/
theorem defblock_payload_skips (s : Scope) (cap L : Nat) (payload tail : List Nat)
    (hopen : s.instr ≠ VI_NULL) (hterm : s.termchar_en = false)
    (hd : delivers s.rx (payload ++ tail)) (hL : payload.length = L) (hcap : cap < L) :
    (defblock_payload s cap L).rc = -6 ∧ (defblock_payload s cap L).out_len = none ∧
    (defblock_payload s cap L).dst = [] ∧
    delivers (defblock_payload s cap L).s.rx (tail.drop 1) := by
  obtain ⟨h1, h2, h3, h4⟩ :=
    scope_skip_bytes_delivers L s L payload tail hopen hterm hd hL (le_refl _)
  obtain ⟨k1, -, -⟩ := scope_read_one_delivers (scope_skip_bytes L s L).2 tail
    (by rw [h3]; exact hopen) h4 h2
  unfold defblock_payload
  rw [if_pos (by omega), if_neg (by rw [h1]; simp)]
  exact ⟨rfl, rfl, rfl, k1⟩

/-- The header stage on a well-formed header whose length digits are followed in
`lenbuf` by something that is not a digit: the header is taken off the stream and the
payload stage runs with the decimal value of the digits. -/
theorem scope_read_defblock_header (s : Scope) (cap : Nat) (lenbuf ds rest : List Nat)
    (hopen : s.instr ≠ VI_NULL) (hterm : s.termchar_en = false)
    (hd : delivers s.rx (block_header ds ++ rest)) (hne : ds ≠ [])
    (hds : ∀ c ∈ ds, isdigit c = true) (hlen : ds.length ≤ 9)
    (hbuf : ends_number lenbuf ds.length) :
    ∃ s2, scope_read_defblock s cap lenbuf = defblock_payload s2 cap (decimal_value ds) ∧
      s2.instr ≠ VI_NULL ∧ s2.termchar_en = false ∧ delivers s2.rx rest := by
  have hpos : 0 < ds.length := List.length_pos.mpr hne
  have hd1 : delivers s.rx ([35, 48 + ds.length] ++ (ds ++ rest)) := by
    simpa [block_header] using hd
  obtain ⟨a1, a2, a3, a4, a5⟩ :=
    scope_read_exact_delivers s 2 [35, 48 + ds.length] (ds ++ rest) hopen hterm hd1 rfl
      (by decide)
  have hc0 : char_of_byte ((scope_read s 2 true).buf.getD 0 0) = 35 := by
    rw [a2]; rfl
  have hc1 : char_of_byte ((scope_read s 2 true).buf.getD 1 0) - 48 = (ds.length : Int) := by
    rw [a2]
    simp only [List.getD_cons_succ, List.getD_cons_zero, char_of_byte]
    rw [if_neg (by omega)]
    push_cast
    omega
  obtain ⟨b1, b2, b3, b4, b5⟩ :=
    scope_read_exact_delivers (scope_read s 2 true).s ds.length ds rest
      (by rw [a4]; exact hopen) a5 a3 rfl (by omega)
  refine ⟨(scope_read (scope_read s 2 true).s ds.length true).s, ?_,
    by rw [b4, a4]; exact hopen, b5, b3⟩
  unfold scope_read_defblock
  rw [if_neg hopen, if_neg (by rw [a1]; simp), if_neg (by rw [hc0]; simp), hc1,
    if_neg (by omega), Int.toNat_ofNat, if_neg (by omega), if_neg (by rw [b1]; simp), b2]
  congr 1
  unfold store
  exact strtoull_of_digits ds (lenbuf.drop ds.length) hne hds hlen hbuf

/-- The whole call on a well-formed block that fits, the length digits followed in
`lenbuf` by something that is not a digit. -/
theorem scope_read_defblock_fits (s : Scope) (cap : Nat) (lenbuf ds payload tail : List Nat)
    (hopen : s.instr ≠ VI_NULL) (hterm : s.termchar_en = false)
    (hd : delivers s.rx (block_header ds ++ payload ++ tail)) (hne : ds ≠ [])
    (hds : ∀ c ∈ ds, isdigit c = true) (hlen : ds.length ≤ 9)
    (hval : decimal_value ds = payload.length) (hcap : payload.length ≤ cap)
    (hbuf : ends_number lenbuf ds.length) :
    (scope_read_defblock s cap lenbuf).rc = 0 ∧
    (scope_read_defblock s cap lenbuf).out_len = some payload.length ∧
    (scope_read_defblock s cap lenbuf).dst = payload ∧
    delivers (scope_read_defblock s cap lenbuf).s.rx (tail.drop 1) := by
  rw [List.append_assoc] at hd
  obtain ⟨s2, heq, h1, h2, h3⟩ :=
    scope_read_defblock_header s cap lenbuf ds (payload ++ tail) hopen hterm hd hne hds hlen hbuf
  have hlt := decimal_value_lt ds hds hlen
  rw [heq, hval]
  exact defblock_payload_fits s2 cap payload.length payload tail h1 h2 h3 rfl hcap (by omega)

/-- The whole call on a well-formed block that does not fit, the length digits followed
in `lenbuf` by something that is not a digit. -/
theorem scope_read_defblock_skips (s : Scope) (cap : Nat) (lenbuf ds payload tail : List Nat)
    (hopen : s.instr ≠ VI_NULL) (hterm : s.termchar_en = false)
    (hd : delivers s.rx (block_header ds ++ payload ++ tail)) (hne : ds ≠ [])
    (hds : ∀ c ∈ ds, isdigit c = true) (hlen : ds.length ≤ 9)
    (hval : decimal_value ds = payload.length) (hcap : cap < payload.length)
    (hbuf : ends_number lenbuf ds.length) :
    (scope_read_defblock s cap lenbuf).rc = -6 ∧
    (scope_read_defblock s cap lenbuf).out_len = none ∧
    (scope_read_defblock s cap lenbuf).dst = [] ∧
    delivers (scope_read_defblock s cap lenbuf).s.rx (tail.drop 1) := by
  rw [List.append_assoc] at hd
  obtain ⟨s2, heq, h1, h2, h3⟩ :=
    scope_read_defblock_header s cap lenbuf ds (payload ++ tail) hopen hterm hd hne hds hlen hbuf
  rw [heq, hval]
  exact defblock_payload_skips s2 cap payload.length payload tail h1 h2 h3 rfl hcap

/-- The header test: a stream that does not start with `#` and a digit `1` to `9` is
refused after its first two bytes, with -3 or -4, nothing stored. -/
theorem scope_read_defblock_rejects (s : Scope) (cap : Nat) (lenbuf : List Nat)
    (h0 h1 : Nat) (rest : List Nat) (hopen : s.instr ≠ VI_NULL)
    (hterm : s.termchar_en = false) (hd : delivers s.rx (h0 :: h1 :: rest))
    (hb0 : h0 < 256) (hb1 : h1 < 256) :
    (h0 ≠ 35 → (scope_read_defblock s cap lenbuf).rc = -3 ∧
      (scope_read_defblock s cap lenbuf).out_len = none ∧
      (scope_read_defblock s cap lenbuf).dst = [] ∧
      delivers (scope_read_defblock s cap lenbuf).s.rx rest) ∧
    (h0 = 35 → ¬ (49 ≤ h1 ∧ h1 ≤ 57) → (scope_read_defblock s cap lenbuf).rc = -4 ∧
      (scope_read_defblock s cap lenbuf).out_len = none ∧
      (scope_read_defblock s cap lenbuf).dst = [] ∧
      delivers (scope_read_defblock s cap lenbuf).s.rx rest) := by
  have hd1 : delivers s.rx ([h0, h1] ++ rest) := hd
  obtain ⟨a1, a2, a3, -, -⟩ :=
    scope_read_exact_delivers s 2 [h0, h1] rest hopen hterm hd1 rfl (by decide)
  have hg0 : (scope_read s 2 true).buf.getD 0 0 = h0 := by rw [a2]; rfl
  have hg1 : (scope_read s 2 true).buf.getD 1 0 = h1 := by rw [a2]; rfl
  constructor
  · intro hne
    have hc : char_of_byte h0 ≠ 35 := by
      unfold char_of_byte
      split_ifs <;> omega
    unfold scope_read_defblock
    rw [if_neg hopen, if_neg (by rw [a1]; simp), hg0, if_pos hc]
    exact ⟨rfl, rfl, rfl, a3⟩
  · intro heq hnd
    have hc : char_of_byte h0 = 35 := by
      unfold char_of_byte
      split_ifs <;> omega
    have hc1 : char_of_byte h1 - 48 ≤ 0 ∨ char_of_byte h1 - 48 > 9 := by
      unfold char_of_byte
      split_ifs <;> omega
    unfold scope_read_defblock
    rw [if_neg hopen, if_neg (by rw [a1]; simp), hg0, if_neg (by rw [hc]; simp), hg1,
      if_pos hc1]
    exact ⟨rfl, rfl, rfl, a3⟩

/-! ## The loop bounds are never reached -/

/-- Fuel of `scope_read_loop`: any bound from `rem` on gives the same result. -/
theorem scope_read_loop_fuel (f1 : Nat) :
    ∀ (f2 : Nat) (s : Scope) (rem total : Nat) (buf : List Nat), rem ≤ f1 → rem ≤ f2 →
    scope_read_loop f1 s rem total buf = scope_read_loop f2 s rem total buf := by
  induction f1 with
  | zero =>
    intro f2 s rem total buf h1 _
    have h0 : rem = 0 := by omega
    subst h0
    cases f2 with
    | zero => rfl
    | succ f2 => rw [scope_read_loop, scope_read_loop, if_pos rfl]
  | succ f1 ih =>
    intro f2 s rem total buf h1 h2
    cases f2 with
    | zero =>
      have h0 : rem = 0 := by omega
      subst h0
      rw [scope_read_loop, scope_read_loop, if_pos rfl]
    | succ f2 =>
      rw [scope_read_loop, scope_read_loop]
      split_ifs with h0 h3 h4
      · rfl
      · rfl
      · rfl
      · exact ih f2 _ _ _ _ (by omega) (by omega)

/-- Fuel of `scope_write_loop`: any bound from the length on gives the same result. -/
theorem scope_write_loop_fuel (f1 : Nat) :
    ∀ (f2 : Nat) (s : Scope) (p : List Nat), p.length ≤ f1 → p.length ≤ f2 →
    scope_write_loop f1 s p = scope_write_loop f2 s p := by
  induction f1 with
  | zero =>
    intro f2 s p h1 _
    have h0 : p.length = 0 := by omega
    cases f2 with
    | zero => rfl
    | succ f2 => rw [scope_write_loop, scope_write_loop, if_pos h0]
  | succ f1 ih =>
    intro f2 s p h1 h2
    cases f2 with
    | zero =>
      have h0 : p.length = 0 := by omega
      rw [scope_write_loop, scope_write_loop, if_pos h0]
    | succ f2 =>
      rw [scope_write_loop, scope_write_loop]
      split_ifs with h0 h3
      · rfl
      · rfl
      · have hw : (viWrite s p (write_chunk p.length)).1.wrote ≠ 0 := (not_or.mp h3).2
        have hl : (p.drop (viWrite s p (write_chunk p.length)).1.wrote).length ≤ p.length - 1 := by
          rw [List.length_drop]; omega
        exact ih f2 _ _ (by omega) (by omega)

/-- Fuel of `scope_skip_bytes`: any bound from `n` on gives the same result. -/
theorem scope_skip_bytes_fuel (f1 : Nat) :
    ∀ (f2 : Nat) (s : Scope) (n : Nat), n ≤ f1 → n ≤ f2 →
    scope_skip_bytes f1 s n = scope_skip_bytes f2 s n := by
  induction f1 with
  | zero =>
    intro f2 s n h1 _
    have h0 : n = 0 := by omega
    subst h0
    cases f2 with
    | zero => rfl
    | succ f2 => rw [scope_skip_bytes, scope_skip_bytes, if_pos rfl]
  | succ f1 ih =>
    intro f2 s n h1 h2
    cases f2 with
    | zero =>
      have h0 : n = 0 := by omega
      subst h0
      rw [scope_skip_bytes, scope_skip_bytes, if_pos rfl]
    | succ f2 =>
      rw [scope_skip_bytes, scope_skip_bytes]
      generalize scope_read s (if n > 1024 then 1024 else n) false = o
      by_cases h0 : n = 0
      · rw [if_pos h0, if_pos h0]
      · rw [if_neg h0, if_neg h0]
        by_cases h3 : o.rc ≠ 0
        · rw [if_pos h3, if_pos h3]
        · rw [if_neg h3, if_neg h3]
          by_cases h4 : o.out_len.getD 0 = 0
          · rw [if_pos h4, if_pos h4]
          · rw [if_neg h4, if_neg h4]
            exact ih f2 _ _ (by omega) (by omega)

/-- Fuel of `parse_channels_loop`: any bound above the length gives the same result. -/
theorem parse_channels_loop_fuel (f1 : Nat) :
    ∀ (f2 : Nat) (out : RunConfig) (p : List Char) (rc_all : Int),
    p.length < f1 → p.length < f2 →
    parse_channels_loop f1 out p rc_all = parse_channels_loop f2 out p rc_all := by
  induction f1 with
  | zero => intro f2 out p rc_all h1 _; omega
  | succ f1 ih =>
    intro f2 out p rc_all h1 h2
    cases f2 with
    | zero => omega
    | succ f2 =>
      rw [parse_channels_loop, parse_channels_loop]
      by_cases hp : p = []
      · rw [if_pos hp, if_pos hp]
      · have hpl : p.length ≠ 0 := fun h => hp (List.length_eq_zero.mp h)
        have hl : (p.drop ((first_element p).length + 1)).length < p.length := by
          rw [List.length_drop]; omega
        rw [if_neg hp, if_neg hp]
        by_cases he : element_of p ≠ []
        · rw [if_pos he, if_pos he]
          by_cases hq : (first_element p).length = p.length
          · rw [if_pos hq, if_pos hq]
          · rw [if_neg hq, if_neg hq]
            exact ih f2 _ _ _ (by omega) (by omega)
        · rw [if_neg he, if_neg he]
          by_cases hq : (first_element p).length = p.length
          · rw [if_pos hq, if_pos hq]
          · rw [if_neg hq, if_neg hq]
            exact ih f2 _ _ _ (by omega) (by omega)

/-! ## The claims on the transport and the channel list -/

/-- C11: the round trip holds when the byte that follows the length digits in the
uninitialised array `lenbuf` is not a digit, and fails otherwise.  For every payload of
length `L ≤ cap`, `L < 10^9`, on a stream that holds the header with the decimal digits
of `L`, the payload and any tail, `scope_read_defblock` returns 0, sets `*out_len = L`
and leaves the payload in `dst`, provided `lenbuf` ends the number after the digits.
On the stream `#15HELLO` with a line feed and `cap = 8` this is the result when `lenbuf`
holds NUL bytes; when it holds the digits `10` of an earlier call, `strtoull` reads the
length 50 and the call returns -6 with nothing in `dst`. -/
theorem C11_defblock_round_trip_needs_terminated_lenbuf :
    (∀ (s : Scope) (cap : Nat) (lenbuf payload tail : List Nat),
      s.instr ≠ VI_NULL → s.termchar_en = false →
      delivers s.rx (block_header (dec_digits payload.length) ++ payload ++ tail) →
      payload.length ≤ cap → payload.length < 1000000000 →
      ends_number lenbuf (dec_digits payload.length).length →
      (scope_read_defblock s cap lenbuf).rc = 0 ∧
      (scope_read_defblock s cap lenbuf).out_len = some payload.length ∧
      (scope_read_defblock s cap lenbuf).dst = payload) ∧
    ((scope_read_defblock (stream_session hello_block) 8 clean_lenbuf).rc = 0 ∧
      (scope_read_defblock (stream_session hello_block) 8 clean_lenbuf).out_len = some 5 ∧
      (scope_read_defblock (stream_session hello_block) 8 clean_lenbuf).dst =
        [72, 69, 76, 76, 79]) ∧
    ((scope_read_defblock (stream_session hello_block) 8 stale_lenbuf).rc = -6 ∧
      (scope_read_defblock (stream_session hello_block) 8 stale_lenbuf).out_len = none ∧
      (scope_read_defblock (stream_session hello_block) 8 stale_lenbuf).dst = []) := by
  refine ⟨?_, by decide, by decide⟩
  intro s cap lenbuf payload tail hopen hterm hd hcap hL hbuf
  obtain ⟨h1, h2, h3, -⟩ :=
    scope_read_defblock_fits s cap lenbuf (dec_digits payload.length) payload tail hopen hterm hd
      (dec_digits_ne_nil _) (dec_digits_isdigit _) (dec_digits_length_le _ hL)
      (dec_digits_value _) hcap hbuf
  exact ⟨h1, h2, h3⟩

/-- C12: the drain keeps the stream in step when the byte that follows the length
digits in the uninitialised array `lenbuf` is not a digit, and not otherwise.  For every
block whose length `L < 10^9` exceeds `cap`, on a stream that holds the header, the
payload, a line feed and any rest, `scope_read_defblock` returns -6, stores nothing in
`dst` or `*out_len`, and leaves exactly the rest in the stream, provided `lenbuf` ends
the number after the digits.  On the stream `#15HELLO`, line feed, `#13abc`, line feed
with `cap = 3` this is the result when `lenbuf` holds NUL bytes; when it holds the digits
`10` of an earlier call, the call drains 50 bytes and the next block is gone. -/
theorem C12_defblock_drain_needs_terminated_lenbuf :
    (∀ (s : Scope) (cap : Nat) (lenbuf payload rest : List Nat),
      s.instr ≠ VI_NULL → s.termchar_en = false →
      delivers s.rx (block_header (dec_digits payload.length) ++ payload ++ 10 :: rest) →
      cap < payload.length → payload.length < 1000000000 →
      ends_number lenbuf (dec_digits payload.length).length →
      (scope_read_defblock s cap lenbuf).rc = -6 ∧
      (scope_read_defblock s cap lenbuf).out_len = none ∧
      (scope_read_defblock s cap lenbuf).dst = [] ∧
      delivers (scope_read_defblock s cap lenbuf).s.rx rest) ∧
    ((scope_read_defblock (stream_session (hello_block ++ abc_block)) 3 clean_lenbuf).rc = -6 ∧
      (scope_read_defblock (stream_session (hello_block ++ abc_block)) 3 clean_lenbuf).dst = [] ∧
      (scope_read_defblock (stream_session (hello_block ++ abc_block)) 3 clean_lenbuf).s.rx =
        [⟨0, abc_block⟩]) ∧
    ((scope_read_defblock (stream_session (hello_block ++ abc_block)) 3 stale_lenbuf).rc = -6 ∧
      (scope_read_defblock (stream_session (hello_block ++ abc_block)) 3 stale_lenbuf).s.rx =
        []) := by
  refine ⟨?_, by decide, by decide⟩
  intro s cap lenbuf payload rest hopen hterm hd hcap hL hbuf
  exact scope_read_defblock_skips s cap lenbuf (dec_digits payload.length) payload (10 :: rest)
    hopen hterm hd (dec_digits_ne_nil _) (dec_digits_isdigit _) (dec_digits_length_le _ hL)
    (dec_digits_value _) hcap hbuf

/-- C13: after the payload `scope_read_defblock` takes one more byte off the stream
whatever that byte is.  For every block that fits (the array `lenbuf` ending the number
after the length digits), the call returns 0 and the stream is left without the first
byte that followed the payload; with nothing after the payload the call returns 0 too.
On the stream `#15HELLO` followed directly by `#13abc`, the first call returns 0 with
`HELLO` and removes the `#` of the second block, and the call that follows fails
with -3. -/
theorem C13_byte_after_payload_is_consumed :
    (∀ (s : Scope) (cap : Nat) (lenbuf payload tail : List Nat),
      s.instr ≠ VI_NULL → s.termchar_en = false →
      delivers s.rx (block_header (dec_digits payload.length) ++ payload ++ tail) →
      payload.length ≤ cap → payload.length < 1000000000 →
      ends_number lenbuf (dec_digits payload.length).length →
      (scope_read_defblock s cap lenbuf).rc = 0 ∧
      delivers (scope_read_defblock s cap lenbuf).s.rx (tail.drop 1)) ∧
    ((scope_read_defblock (stream_session hello_block_no_lf) 8 clean_lenbuf).rc = 0 ∧
      (scope_read_defblock (stream_session hello_block_no_lf) 8 clean_lenbuf).dst =
        [72, 69, 76, 76, 79]) ∧
    ((scope_read_defblock (stream_session (hello_block_no_lf ++ abc_block)) 8
        clean_lenbuf).rc = 0 ∧
      (scope_read_defblock (stream_session (hello_block_no_lf ++ abc_block)) 8
        clean_lenbuf).dst = [72, 69, 76, 76, 79] ∧
      (scope_read_defblock (stream_session (hello_block_no_lf ++ abc_block)) 8
        clean_lenbuf).s.rx = [⟨0, [49, 51, 97, 98, 99, 10]⟩] ∧
      (scope_read_defblock
        (scope_read_defblock (stream_session (hello_block_no_lf ++ abc_block)) 8
          clean_lenbuf).s 8 clean_lenbuf).rc = -3) := by
  refine ⟨?_, by decide, by decide⟩
  intro s cap lenbuf payload tail hopen hterm hd hcap hL hbuf
  obtain ⟨h1, -, -, h4⟩ :=
    scope_read_defblock_fits s cap lenbuf (dec_digits payload.length) payload tail hopen hterm hd
      (dec_digits_ne_nil _) (dec_digits_isdigit _) (dec_digits_length_le _ hL)
      (dec_digits_value _) hcap hbuf
  exact ⟨h1, h4⟩

/-- C14: the header test is as claimed, the length is not.  A stream whose first byte is
not `#` is refused with -3, one whose second byte is not a digit `1` to `9` with -4, in
both cases after the two header bytes and with nothing stored, so a header is accepted
only in the form claimed.  The payload length used is what `strtoull` reads in
`lenbuf`: the decimal value of the `n` length digits when the byte after them in the
uninitialised array is not a digit.  On the stream `#15HELLO` followed by more bytes,
with `cap = 64`, the length used is 5 when `lenbuf` holds NUL bytes and 50 when it holds
the digits `10` of an earlier call. -/
theorem C14_defblock_length_reads_past_digits :
    (∀ (s : Scope) (cap : Nat) (lenbuf : List Nat) (h0 h1 : Nat) (rest : List Nat),
      s.instr ≠ VI_NULL → s.termchar_en = false → delivers s.rx (h0 :: h1 :: rest) →
      h0 < 256 → h1 < 256 →
      (h0 ≠ 35 → (scope_read_defblock s cap lenbuf).rc = -3 ∧
        (scope_read_defblock s cap lenbuf).out_len = none ∧
        (scope_read_defblock s cap lenbuf).dst = [] ∧
        delivers (scope_read_defblock s cap lenbuf).s.rx rest) ∧
      (h0 = 35 → ¬ (49 ≤ h1 ∧ h1 ≤ 57) → (scope_read_defblock s cap lenbuf).rc = -4 ∧
        (scope_read_defblock s cap lenbuf).out_len = none ∧
        (scope_read_defblock s cap lenbuf).dst = [] ∧
        delivers (scope_read_defblock s cap lenbuf).s.rx rest) ∧
      ((scope_read_defblock s cap lenbuf).rc ≠ -3 ∧ (scope_read_defblock s cap lenbuf).rc ≠ -4 →
        h0 = 35 ∧ 49 ≤ h1 ∧ h1 ≤ 57)) ∧
    (∀ (s : Scope) (cap : Nat) (lenbuf ds rest : List Nat),
      s.instr ≠ VI_NULL → s.termchar_en = false → delivers s.rx (block_header ds ++ rest) →
      ds ≠ [] → (∀ c ∈ ds, isdigit c = true) → ds.length ≤ 9 →
      ends_number lenbuf ds.length →
      ∃ s2, scope_read_defblock s cap lenbuf = defblock_payload s2 cap (decimal_value ds) ∧
        delivers s2.rx rest) ∧
    ((scope_read_defblock (stream_session hello_block_and_more) 64 clean_lenbuf).rc = 0 ∧
      (scope_read_defblock (stream_session hello_block_and_more) 64 clean_lenbuf).out_len =
        some 5) ∧
    (decimal_value [53] = 5 ∧
      (scope_read_defblock (stream_session hello_block_and_more) 64 stale_lenbuf).rc = 0 ∧
      (scope_read_defblock (stream_session hello_block_and_more) 64 stale_lenbuf).out_len =
        some 50 ∧
      (scope_read_defblock (stream_session hello_block_and_more) 64 stale_lenbuf).dst =
        [72, 69, 76, 76, 79, 10] ++ List.replicate 44 65) := by
  refine ⟨?_, ?_, by decide, by decide⟩
  · intro s cap lenbuf h0 h1 rest hopen hterm hd hb0 hb1
    obtain ⟨r1, r2⟩ := scope_read_defblock_rejects s cap lenbuf h0 h1 rest hopen hterm hd hb0 hb1
    refine ⟨r1, r2, ?_⟩
    rintro ⟨n3, n4⟩
    by_cases h35 : h0 = 35
    · by_cases hdig : 49 ≤ h1 ∧ h1 ≤ 57
      · exact ⟨h35, hdig⟩
      · exact absurd (r2 h35 hdig).1 n4
    · exact absurd (r1 h35).1 n3
  · intro s cap lenbuf ds rest hopen hterm hd hne hds hlen hbuf
    obtain ⟨s2, heq, -, -, h3⟩ :=
      scope_read_defblock_header s cap lenbuf ds rest hopen hterm hd hne hds hlen hbuf
    exact ⟨s2, heq, h3⟩

/-- C15 as stated fails for a reply that contains a NUL byte: for the reply CR, NUL, LF
`scope_query` returns 0 and the buffer holds the string CR, which ends in CR and is not
the received bytes without their trailing CR and LF. -/
theorem C15_counterexample :
    (scope_query query_nul_demo [42, 73] [9, 9, 9, 9, 9, 9, 9, 9]).rc = 0 ∧
    (scope_query query_nul_demo [42, 73] [9, 9, 9, 9, 9, 9, 9, 9]).s.rlog = [⟨0, [13, 0, 10]⟩] ∧
    (scope_query query_nul_demo [42, 73] [9, 9, 9, 9, 9, 9, 9, 9]).resp =
      [13, 0, 0, 0, 9, 9, 9, 9] ∧
    c_string (scope_query query_nul_demo [42, 73] [9, 9, 9, 9, 9, 9, 9, 9]).resp = [13] ∧
    strip_crlf [13, 0, 10] = [13, 0] := by
  decide

/-- C15 (amended): whenever `scope_query` returns 0, it issued one read, `resp_cap` is
at least 1, and the buffer holds the received bytes without their trailing CR and LF
followed by a NUL, at most `resp_cap - 1` bytes before the NUL.  When the received
bytes contain no NUL, that is the string the buffer holds, and it does not end in CR
or LF. -/
theorem C15_scope_query_string (s : Scope) (cmd resp : List Nat)
    (h : (scope_query s cmd resp).rc = 0) :
    ∃ r : ViRead, (scope_query s cmd resp).s.rlog = s.rlog ++ [r] ∧ 1 ≤ resp.length ∧
      (scope_query s cmd resp).resp.take (strip_crlf r.data).length = strip_crlf r.data ∧
      (scope_query s cmd resp).resp.getD (strip_crlf r.data).length 1 = 0 ∧
      (strip_crlf r.data).length ≤ resp.length - 1 ∧
      (0 ∉ r.data →
        c_string (scope_query s cmd resp).resp = strip_crlf r.data ∧
        (c_string (scope_query s cmd resp).resp).length ≤ resp.length - 1 ∧
        (c_string (scope_query s cmd resp).resp).getLast? ≠ some 10 ∧
        (c_string (scope_query s cmd resp).resp).getLast? ≠ some 13) := by
  obtain ⟨r, hlog, -, hle, hpos, hresp⟩ := scope_query_ok s cmd resp h
  have hsl := strip_crlf_length_le r.data
  have hshape : (scope_query s cmd resp).resp =
      strip_crlf r.data ++ 0 ::
        (List.replicate (r.data.length - (strip_crlf r.data).length) 0 ++
          resp.drop (r.data.length + 1)) := by
    rw [hresp, List.replicate_succ]
    simp
  refine ⟨r, hlog, hpos, ?_, ?_, by omega, ?_⟩
  · rw [hshape]; simp
  · rw [hshape, List.getD_eq_getElem?_getD, List.getElem?_append_right (le_refl _)]
    simp
  · intro hnul
    have hnul2 : 0 ∉ strip_crlf r.data := fun hm => hnul (mem_strip_crlf _ _ hm)
    have hc : c_string (scope_query s cmd resp).resp = strip_crlf r.data := by
      rw [hshape]; exact c_string_append_zero _ _ hnul2
    rw [hc]
    exact ⟨rfl, by omega, strip_crlf_getLast r.data⟩

/-- C15 at a concrete input: the reply `ABCDEF` and a line feed, read into ten bytes. -/
theorem C15_scope_query_string_witness :
    (scope_query query_demo [42, 73] [9, 9, 9, 9, 9, 9, 9, 9, 9, 9]).rc = 0 ∧
    c_string (scope_query query_demo [42, 73] [9, 9, 9, 9, 9, 9, 9, 9, 9, 9]).resp =
      [65, 66, 67, 68, 69, 70] ∧
    ∃ r : ViRead,
      (scope_query query_demo [42, 73] [9, 9, 9, 9, 9, 9, 9, 9, 9, 9]).s.rlog =
        query_demo.rlog ++ [r] ∧
      1 ≤ ([9, 9, 9, 9, 9, 9, 9, 9, 9, 9] : List Nat).length ∧
      (scope_query query_demo [42, 73] [9, 9, 9, 9, 9, 9, 9, 9, 9, 9]).resp.take
        (strip_crlf r.data).length = strip_crlf r.data ∧
      (scope_query query_demo [42, 73] [9, 9, 9, 9, 9, 9, 9, 9, 9, 9]).resp.getD
        (strip_crlf r.data).length 1 = 0 ∧
      (strip_crlf r.data).length ≤ ([9, 9, 9, 9, 9, 9, 9, 9, 9, 9] : List Nat).length - 1 ∧
      (0 ∉ r.data →
        c_string (scope_query query_demo [42, 73] [9, 9, 9, 9, 9, 9, 9, 9, 9, 9]).resp =
          strip_crlf r.data ∧
        (c_string (scope_query query_demo [42, 73] [9, 9, 9, 9, 9, 9, 9, 9, 9, 9]).resp).length ≤
          ([9, 9, 9, 9, 9, 9, 9, 9, 9, 9] : List Nat).length - 1 ∧
        (c_string (scope_query query_demo [42, 73] [9, 9, 9, 9, 9, 9, 9, 9, 9, 9]).resp).getLast? ≠
          some 10 ∧
        (c_string (scope_query query_demo [42, 73] [9, 9, 9, 9, 9, 9, 9, 9, 9, 9]).resp).getLast? ≠
          some 13) :=
  ⟨by decide, by decide,
    C15_scope_query_string query_demo [42, 73] [9, 9, 9, 9, 9, 9, 9, 9, 9, 9] (by decide)⟩

/-- C16 as stated fails: the reply `ABCDEF` and a line feed does not fit in the four
bytes a buffer of five leaves, the read stops with `VI_SUCCESS_MAX_CNT` before the line
feed, and `scope_query` returns 0 with `ABCD` in the buffer; the rest of the reply stays
in the stream. -/
theorem C16_counterexample :
    (scope_query query_demo [42, 73] [9, 9, 9, 9, 9]).rc = 0 ∧
    (scope_query query_demo [42, 73] [9, 9, 9, 9, 9]).resp = [65, 66, 67, 68, 0] ∧
    (scope_query query_demo [42, 73] [9, 9, 9, 9, 9]).s.rlog =
      [⟨VI_SUCCESS_MAX_CNT, [65, 66, 67, 68]⟩] ∧
    (scope_query query_demo [42, 73] [9, 9, 9, 9, 9]).s.rx = [⟨0, [69, 70, 10]⟩] := by
  decide

/-- C16 (amended): `scope_query` has no failure for a truncated reply.  On an open
session whose instrument accepts the command, when the reply is longer than
`resp_cap - 1` bytes and has no line feed among its first `resp_cap - 1` bytes, the read
stops with `VI_SUCCESS_MAX_CNT`, `scope_query` returns 0, the buffer holds these
`resp_cap - 1` bytes without their trailing CR followed by a NUL, and the rest of the
reply stays in the stream. -/
theorem C16_scope_query_truncated (s : Scope) (cmd resp : List Nat) (w : ViWrite)
    (tx : List ViWrite) (p : ViRead) (rest : List ViRead)
    (hopen : s.instr ≠ VI_NULL) (hcap : 1 ≤ resp.length)
    (hcap32 : resp.length - 1 < 4294967296) (hcmd : cmd.length + 1 < 4294967296)
    (htx : s.tx = w :: tx) (hw : 0 ≤ w.st ∧ cmd.length + 1 ≤ w.wrote)
    (hrx : s.rx = p :: rest) (hlong : resp.length - 1 < p.data.length)
    (hnolf : 10 ∉ p.data.take (resp.length - 1)) :
    (scope_query s cmd resp).rc = 0 ∧
    (scope_query s cmd resp).s.rlog =
      s.rlog ++ [⟨VI_SUCCESS_MAX_CNT, p.data.take (resp.length - 1)⟩] ∧
    (scope_query s cmd resp).s.rx = ⟨p.st, p.data.drop (resp.length - 1)⟩ :: rest ∧
    (scope_query s cmd resp).resp.take (strip_crlf (p.data.take (resp.length - 1))).length =
      strip_crlf (p.data.take (resp.length - 1)) ∧
    (scope_query s cmd resp).resp.getD
      (strip_crlf (p.data.take (resp.length - 1))).length 1 = 0 := by
  have hwr : viWrite s (cmd ++ [10]) (VI_UINT32 (cmd.length + 1)) =
      (⟨w.st, cmd.length + 1⟩,
        { s with tx := tx, wlog := s.wlog ++ [(w.st, (cmd ++ [10]).take (cmd.length + 1))] }) := by
    unfold viWrite
    rw [htx]
    simp only [VI_UINT32, Nat.mod_eq_of_lt hcmd, Nat.min_eq_right hw.2]
  have hrd := viRead_max_cnt
    { ({ s with tx := tx, wlog := s.wlog ++ [(w.st, (cmd ++ [10]).take (cmd.length + 1))] } :
        Scope) with termchar_en := true }
    (resp.length - 1) p rest hrx hlong hnolf
  have hu : VI_UINT32 (resp.length - 1) = resp.length - 1 := Nat.mod_eq_of_lt hcap32
  have hu2 : VI_UINT32 (cmd.length + 1) = cmd.length + 1 := Nat.mod_eq_of_lt hcmd
  have hrc : (scope_query s cmd resp).rc = 0 ∧
      (scope_query s cmd resp).s.rlog =
        s.rlog ++ [⟨VI_SUCCESS_MAX_CNT, p.data.take (resp.length - 1)⟩] ∧
      (scope_query s cmd resp).s.rx = ⟨p.st, p.data.drop (resp.length - 1)⟩ :: rest := by
    unfold scope_query
    have h1 : ¬ (s.instr = VI_NULL ∨ resp.length = 0) := by
      intro h; rcases h with h | h
      · exact hopen h
      · omega
    have h2 : ¬ ((⟨w.st, cmd.length + 1⟩ : ViWrite).st < VI_SUCCESS ∨
        (⟨w.st, cmd.length + 1⟩ : ViWrite).wrote ≠ cmd.length + 1) := by
      simp only [VI_SUCCESS]; omega
    rw [if_neg h1, hwr, hu, hu2, if_neg h2]
    simp [hrd]
  obtain ⟨r, hlog, -, -, -, hresp⟩ := scope_query_ok s cmd resp hrc.1
  have hr : r = ⟨VI_SUCCESS_MAX_CNT, p.data.take (resp.length - 1)⟩ := by
    have := hlog.symm.trans hrc.2.1
    simpa using this
  subst hr
  have hsl := strip_crlf_length_le (p.data.take (resp.length - 1))
  refine ⟨hrc.1, hrc.2.1, hrc.2.2, ?_, ?_⟩
  · rw [hresp]; simp
  · rw [hresp, List.replicate_succ, List.getD_eq_getElem?_getD, List.append_assoc,
      List.getElem?_append_right (le_refl _)]
    simp

/-- C16 (amended) at a concrete input: the reply `ABCDEF` and a line feed, read into
five bytes. -/
theorem C16_scope_query_truncated_witness :
    (([9, 9, 9, 9, 9] : List Nat).length - 1 < (⟨0, [65, 66, 67, 68, 69, 70, 10]⟩ : ViRead).data.length ∧
      10 ∉ (⟨0, [65, 66, 67, 68, 69, 70, 10]⟩ : ViRead).data.take
        (([9, 9, 9, 9, 9] : List Nat).length - 1)) ∧
    ((scope_query query_demo [42, 73] [9, 9, 9, 9, 9]).rc = 0 ∧
    (scope_query query_demo [42, 73] [9, 9, 9, 9, 9]).s.rlog =
      query_demo.rlog ++ [⟨VI_SUCCESS_MAX_CNT,
        (⟨0, [65, 66, 67, 68, 69, 70, 10]⟩ : ViRead).data.take
          (([9, 9, 9, 9, 9] : List Nat).length - 1)⟩] ∧
    (scope_query query_demo [42, 73] [9, 9, 9, 9, 9]).s.rx =
      ⟨(⟨0, [65, 66, 67, 68, 69, 70, 10]⟩ : ViRead).st,
        (⟨0, [65, 66, 67, 68, 69, 70, 10]⟩ : ViRead).data.drop
          (([9, 9, 9, 9, 9] : List Nat).length - 1)⟩ :: [] ∧
    (scope_query query_demo [42, 73] [9, 9, 9, 9, 9]).resp.take
      (strip_crlf ((⟨0, [65, 66, 67, 68, 69, 70, 10]⟩ : ViRead).data.take
        (([9, 9, 9, 9, 9] : List Nat).length - 1))).length =
      strip_crlf ((⟨0, [65, 66, 67, 68, 69, 70, 10]⟩ : ViRead).data.take
        (([9, 9, 9, 9, 9] : List Nat).length - 1)) ∧
    (scope_query query_demo [42, 73] [9, 9, 9, 9, 9]).resp.getD
      (strip_crlf ((⟨0, [65, 66, 67, 68, 69, 70, 10]⟩ : ViRead).data.take
        (([9, 9, 9, 9, 9] : List Nat).length - 1))).length 1 = 0) :=
  ⟨by decide,
    C16_scope_query_truncated query_demo [42, 73] [9, 9, 9, 9, 9] ⟨0, 100⟩ []
      ⟨0, [65, 66, 67, 68, 69, 70, 10]⟩ [] (by decide) (by decide) (by decide) (by decide)
      rfl (by decide) rfl (by decide) (by decide)⟩

/-- C17: on an open session, for every buffer and every sequence of results of the
underlying writes, `scope_write` returns 0 exactly when every `viWrite` call it issued
succeeded and accepted at least one byte, and then the accepted bytes in order are the
whole buffer; otherwise it returns -2 and the call that failed or accepted nothing is
the last one it issued; for an empty buffer it returns 0 and issues no call. -/
theorem C17_scope_write (s : Scope) (buf : List Nat) (hopen : s.instr ≠ VI_NULL) :
    (∃ calls, (scope_write s buf).s.wlog = s.wlog ++ calls ∧
      ((scope_write s buf).rc = 0 ↔ ∀ c ∈ calls, 0 ≤ c.1 ∧ c.2 ≠ []) ∧
      ((scope_write s buf).rc = 0 → accepted calls = buf) ∧
      ((scope_write s buf).rc ≠ 0 → (scope_write s buf).rc = -2 ∧
        ∃ init last, calls = init ++ [last] ∧ (∀ c ∈ init, 0 ≤ c.1 ∧ c.2 ≠ []) ∧
          (last.1 < 0 ∨ last.2 = []) ∧ ∃ rest, accepted calls ++ rest = buf)) ∧
    (buf = [] → (scope_write s buf).rc = 0 ∧ (scope_write s buf).s = s) := by
  constructor
  · have hw : scope_write s buf = scope_write_loop buf.length s buf := by
      unfold scope_write
      rw [if_neg hopen]
      split_ifs with h0
      · have : buf = [] := List.length_eq_zero.mp h0
        subst this
        rfl
      · rfl
    rw [hw]
    obtain ⟨calls, hlog, hres⟩ := scope_write_loop_spec buf.length s buf (le_refl _)
    refine ⟨calls, hlog, ?_⟩
    rcases hres with ⟨h1, h2, h3⟩ | ⟨h1, init, last, h2, h3, h4, h5⟩
    · exact ⟨⟨fun _ => h2, fun _ => h1⟩, fun _ => h3, fun h => absurd h1 h⟩
    · refine ⟨⟨fun h => ?_, fun h => ?_⟩, fun h => ?_, fun _ => ⟨h1, init, last, h2, h3, h4, h5⟩⟩
      · rw [h1] at h; exact absurd h (by decide)
      · have hl := h last (by simp [h2])
        rcases h4 with h4 | h4
        · omega
        · exact absurd h4 hl.2
      · rw [h1] at h; exact absurd h (by decide)
  · rintro rfl
    unfold scope_write
    rw [if_neg hopen]
    simp

/-- C17 at a concrete input: five bytes accepted as three and two. -/
theorem C17_scope_write_witness :
    write_demo.instr ≠ VI_NULL ∧
    ((scope_write write_demo [1, 2, 3, 4, 5]).rc = 0 ∧
      (scope_write write_demo [1, 2, 3, 4, 5]).s.wlog = [(0, [1, 2, 3]), (0, [4, 5])]) ∧
    ((∃ calls, (scope_write write_demo [1, 2, 3, 4, 5]).s.wlog = write_demo.wlog ++ calls ∧
      ((scope_write write_demo [1, 2, 3, 4, 5]).rc = 0 ↔ ∀ c ∈ calls, 0 ≤ c.1 ∧ c.2 ≠ []) ∧
      ((scope_write write_demo [1, 2, 3, 4, 5]).rc = 0 → accepted calls = [1, 2, 3, 4, 5]) ∧
      ((scope_write write_demo [1, 2, 3, 4, 5]).rc ≠ 0 →
        (scope_write write_demo [1, 2, 3, 4, 5]).rc = -2 ∧
        ∃ init last, calls = init ++ [last] ∧ (∀ c ∈ init, 0 ≤ c.1 ∧ c.2 ≠ []) ∧
          (last.1 < 0 ∨ last.2 = []) ∧ ∃ rest, accepted calls ++ rest = [1, 2, 3, 4, 5])) ∧
    (([1, 2, 3, 4, 5] : List Nat) = [] → (scope_write write_demo [1, 2, 3, 4, 5]).rc = 0 ∧
      (scope_write write_demo [1, 2, 3, 4, 5]).s = write_demo)) :=
  ⟨by decide, by decide, C17_scope_write write_demo [1, 2, 3, 4, 5] (by decide)⟩

/-- C18 as stated fails for `exact = false`: when the one read times out after three of
the eight bytes asked for, `scope_read` returns -2 and stores no byte count, although
the read delivered three bytes. -/
theorem C18_counterexample :
    (scope_read read_timeout_demo 8 false).rc = -2 ∧
      (scope_read read_timeout_demo 8 false).out_len = none ∧
      (scope_read read_timeout_demo 8 false).s.rlog = [⟨VI_ERROR_TMO, [1, 2, 3]⟩] := by
  decide

/-- C18 (amended): on an open session, `scope_read` with `exact = true` returns 0
exactly when the reads it issued delivered `len` bytes in total, every one of them
successful and with at least one byte, and then `*out_len = len`; otherwise it
returns -3 right after the first read that failed or delivered nothing, with `*out_len`
the number of bytes received, which is below `len`; in both cases `buf` holds the
received bytes in arrival order.  With `exact = false` it issues exactly one read, whose
bytes go to `buf`; it returns 0 and stores the byte count when the read succeeded, and
returns -2 and stores nothing when it failed. -/
theorem C18_scope_read (s : Scope) (len : Nat) (hopen : s.instr ≠ VI_NULL) :
    (∃ reads, (scope_read s len true).s.rlog = s.rlog ++ reads ∧
      (scope_read s len true).buf = delivered reads ∧
      ((scope_read s len true).rc = 0 ↔ (delivered reads).length = len) ∧
      ((scope_read s len true).rc = 0 →
        (∀ r ∈ reads, 0 ≤ r.st ∧ r.data ≠ []) ∧ (scope_read s len true).out_len = some len) ∧
      ((scope_read s len true).rc ≠ 0 → (scope_read s len true).rc = -3 ∧
        (scope_read s len true).out_len = some (delivered reads).length ∧
        (delivered reads).length < len ∧
        ∃ init last, reads = init ++ [last] ∧ (∀ r ∈ init, 0 ≤ r.st ∧ r.data ≠ []) ∧
          (last.st < 0 ∨ last.data = []) ∧ (delivered init).length < len)) ∧
    (∃ r, (scope_read s len false).s.rlog = s.rlog ++ [r] ∧
      (scope_read s len false).buf = r.data ∧
      (0 ≤ r.st → (scope_read s len false).rc = 0 ∧
        (scope_read s len false).out_len = some r.data.length) ∧
      (r.st < 0 → (scope_read s len false).rc = -2 ∧
        (scope_read s len false).out_len = none)) := by
  constructor
  · have hw : scope_read s len true = scope_read_loop len s len 0 [] := by
      unfold scope_read
      rw [if_neg hopen]
      simp
    rw [hw]
    obtain ⟨reads, hlog, hbuf, hres⟩ := scope_read_loop_spec len s len 0 [] (le_refl _)
    refine ⟨reads, hlog, by simpa using hbuf, ?_⟩
    rcases hres with ⟨h1, h2, h3, h4⟩ | ⟨h1, h2, hlt, init, last, h3, h4, h5, h6⟩
    · exact ⟨⟨fun _ => h3, fun _ => h1⟩, fun _ => ⟨h2, by simpa using h4⟩,
        fun h => absurd h1 h⟩
    · refine ⟨⟨fun h => ?_, fun h => ?_⟩, fun h => ?_,
        fun _ => ⟨h1, by simpa using h2, hlt, init, last, h3, h4, h5, h6⟩⟩
      · rw [h1] at h; exact absurd h (by decide)
      · omega
      · rw [h1] at h; exact absurd h (by decide)
  · obtain ⟨hlog, -⟩ := viRead_spec s (VI_UINT32 len)
    refine ⟨(viRead s (VI_UINT32 len)).1, ?_, ?_, ?_, ?_⟩
    · unfold scope_read
      rw [if_neg hopen]
      split_ifs <;> first | exact hlog | simp_all
    · unfold scope_read
      rw [if_neg hopen]
      split_ifs <;> simp_all
    · intro h
      have hn : ¬ ((viRead s (VI_UINT32 len)).1.st < VI_SUCCESS ∧
          (viRead s (VI_UINT32 len)).1.st ≠ VI_SUCCESS_MAX_CNT) := by
        rw [status_failed_iff]; omega
      unfold scope_read
      rw [if_neg hopen, if_pos rfl, if_neg hn]
      exact ⟨rfl, rfl⟩
    · intro h
      have hn : (viRead s (VI_UINT32 len)).1.st < VI_SUCCESS ∧
          (viRead s (VI_UINT32 len)).1.st ≠ VI_SUCCESS_MAX_CNT := by
        rw [status_failed_iff]; exact h
      unfold scope_read
      rw [if_neg hopen, if_pos rfl, if_pos hn]
      exact ⟨rfl, rfl⟩

/-- C18 (amended) at a concrete input: five bytes requested from an instrument that
sends three bytes and then two. -/
theorem C18_scope_read_witness :
    read_demo.instr ≠ VI_NULL ∧
    ((scope_read read_demo 5 true).rc = 0 ∧ (scope_read read_demo 5 true).buf = [1, 2, 3, 4, 5]) ∧
    ((∃ reads, (scope_read read_demo 5 true).s.rlog = read_demo.rlog ++ reads ∧
      (scope_read read_demo 5 true).buf = delivered reads ∧
      ((scope_read read_demo 5 true).rc = 0 ↔ (delivered reads).length = 5) ∧
      ((scope_read read_demo 5 true).rc = 0 →
        (∀ r ∈ reads, 0 ≤ r.st ∧ r.data ≠ []) ∧
          (scope_read read_demo 5 true).out_len = some 5) ∧
      ((scope_read read_demo 5 true).rc ≠ 0 → (scope_read read_demo 5 true).rc = -3 ∧
        (scope_read read_demo 5 true).out_len = some (delivered reads).length ∧
        (delivered reads).length < 5 ∧
        ∃ init last, reads = init ++ [last] ∧ (∀ r ∈ init, 0 ≤ r.st ∧ r.data ≠ []) ∧
          (last.st < 0 ∨ last.data = []) ∧ (delivered init).length < 5)) ∧
    (∃ r, (scope_read read_demo 5 false).s.rlog = read_demo.rlog ++ [r] ∧
      (scope_read read_demo 5 false).buf = r.data ∧
      (0 ≤ r.st → (scope_read read_demo 5 false).rc = 0 ∧
        (scope_read read_demo 5 false).out_len = some r.data.length) ∧
      (r.st < 0 → (scope_read read_demo 5 false).rc = -2 ∧
        (scope_read read_demo 5 false).out_len = none))) :=
  ⟨by decide, by decide, C18_scope_read read_demo 5 (by decide)⟩

/-- C19 as stated fails for the empty name: with 8 names stored the empty name is not
in the list, and `add_channel` returns -2, not -3. -/
theorem C19_counterexample :
    full_config.channels.length = 8 ∧ full_config.n_channels = 8 ∧
    "" ∉ full_config.channels ∧ add_channel full_config "" = (-2, full_config) := by
  decide

/-- C19 (amended): on a configuration whose `n_channels` is the length of its list,
`add_channel` returns 0 and appends the name at the end exactly when the name is
non-empty, not in the list, and fewer than 8 names are stored; for a non-empty name it
returns -1 when the name is in the list and -3 when it is new and 8 are stored, and for
the empty name it returns -2, the configuration unchanged in the three cases.  After any
sequence of calls on the empty configuration the names are pairwise distinct, a
subsequence of the names offered in their order, at most 8, counted by `n_channels`,
and a non-empty name offered is missing only when 8 are stored. -/
theorem C19_add_channel (out : RunConfig) (ch : String) (names : List String)
    (hwf : out.n_channels = out.channels.length) :
    (add_channel out ch =
        (0, { out with channels := out.channels ++ [ch], n_channels := out.n_channels + 1 }) ↔
      (ch ≠ "" ∧ ch ∉ out.channels ∧ out.channels.length < 8)) ∧
    ((add_channel out ch).1 = 0 ↔ (ch ≠ "" ∧ ch ∉ out.channels ∧ out.channels.length < 8)) ∧
    (ch ≠ "" → ch ∈ out.channels → add_channel out ch = (-1, out)) ∧
    (ch ≠ "" → ch ∉ out.channels → 8 ≤ out.channels.length → add_channel out ch = (-3, out)) ∧
    (ch = "" → add_channel out ch = (-2, out)) ∧
    ((add_channels empty_config names).channels.Nodup ∧
      (add_channels empty_config names).channels.Sublist names ∧
      (add_channels empty_config names).channels.length ≤ 8 ∧
      (add_channels empty_config names).n_channels =
        (add_channels empty_config names).channels.length ∧
      (∀ n ∈ names, n ≠ "" → n ∈ (add_channels empty_config names).channels ∨
        (add_channels empty_config names).channels.length = 8)) := by
  have htake : out.channels.take out.n_channels = out.channels := by
    rw [hwf]; exact List.take_length _
  refine ⟨?_, ?_, ?_, ?_, ?_, ?_⟩
  · rcases add_channel_cases out ch hwf with ⟨heq, h⟩ | ⟨-, hne, hrej⟩
    · exact ⟨fun _ => h, fun _ => heq⟩
    · constructor
      · intro h; rw [h] at hne; exact absurd rfl hne
      · rintro ⟨h1, h2, h3⟩
        rcases hrej with h | h | h
        · exact absurd h h1
        · exact absurd h h2
        · omega
  · rcases add_channel_cases out ch hwf with ⟨heq, h⟩ | ⟨-, hne, hrej⟩
    · exact ⟨fun _ => h, fun _ => by rw [heq]⟩
    · constructor
      · intro h; exact absurd h hne
      · rintro ⟨h1, h2, h3⟩
        rcases hrej with h | h | h
        · exact absurd h h1
        · exact absurd h h2
        · omega
  · intro h1 h2
    unfold add_channel
    rw [htake, if_neg h1, if_pos h2]
  · intro h1 h2 h3
    have h4 : out.n_channels ≥ SCOPE_MAX_CHANS := by unfold SCOPE_MAX_CHANS; omega
    unfold add_channel
    rw [htake, if_neg h1, if_neg h2, if_pos h4]
  · intro h1
    unfold add_channel
    rw [if_pos h1]
  · obtain ⟨i1, i2, i3, ⟨added, i4, i5⟩, i6⟩ :=
      add_channels_inv names empty_config rfl (by simp [empty_config]) (by simp [empty_config])
    have : (add_channels empty_config names).channels = added := by
      rw [i4]; simp [empty_config]
    exact ⟨i2, this ▸ i5, i3, i1, i6⟩

/-- C19 (amended) at a concrete input: `MATH` offered to a configuration holding
`CHAN1` and `CHAN2`, and the sequence `CHAN1`, `CHAN2`, `CHAN1`, `MATH` offered to the
empty configuration. -/
theorem C19_add_channel_witness :
    (add_channels empty_config ["CHAN1", "CHAN2"]).n_channels =
      (add_channels empty_config ["CHAN1", "CHAN2"]).channels.length ∧
    add_channel (add_channels empty_config ["CHAN1", "CHAN2"]) "MATH" =
      (0, { empty_config with channels := ["CHAN1", "CHAN2", "MATH"], n_channels := 3 }) ∧
    (add_channels empty_config ["CHAN1", "CHAN2", "CHAN1", "MATH"]).channels =
      ["CHAN1", "CHAN2", "MATH"] ∧
    ((add_channel (add_channels empty_config ["CHAN1", "CHAN2"]) "MATH").1 = 0 ↔
      ("MATH" ≠ "" ∧ "MATH" ∉ (add_channels empty_config ["CHAN1", "CHAN2"]).channels ∧
        (add_channels empty_config ["CHAN1", "CHAN2"]).channels.length < 8)) ∧
    (add_channels empty_config ["CHAN1", "CHAN2", "CHAN1", "MATH"]).channels.Nodup :=
  ⟨by decide, by decide, by decide,
    (C19_add_channel (add_channels empty_config ["CHAN1", "CHAN2"]) "MATH"
      ["CHAN1", "CHAN2", "CHAN1", "MATH"] (by decide)).2.1,
    (C19_add_channel (add_channels empty_config ["CHAN1", "CHAN2"]) "MATH"
      ["CHAN1", "CHAN2", "CHAN1", "MATH"] (by decide)).2.2.2.2.2.1⟩

/-- C20: for every argument whose comma-separated elements are each shorter than 64
characters, `parse_channels_list` returns what the specification gives: the
configuration after calling `add_channel`, in order, on each element with its leading
and trailing white space removed, the elements that are empty then being skipped, and
the code of the first of these calls that did not return 0, which is 0 exactly when
every call returned 0. -/
theorem C20_parse_channels_list (out : RunConfig) (arg : String)
    (hshort : ∀ e ∈ split_commas arg.data, e.length < 64) :
    parse_channels_list out arg = parse_channels_spec out arg ∧
    (parse_channels_list out arg).2 = add_channels out (offered_names arg.data) ∧
    (parse_channels_list out arg).1 = first_failure (call_codes out (offered_names arg.data)) ∧
    ((parse_channels_list out arg).1 = 0 ↔
      ∀ rc ∈ call_codes out (offered_names arg.data), rc = 0) := by
  have h : parse_channels_list out arg = parse_channels_spec out arg := by
    unfold parse_channels_list parse_channels_spec
    rw [parse_channels_loop_spec _ out arg.data 0 (by omega) hshort]
    simp
  refine ⟨h, ?_, ?_, ?_⟩
  · rw [h]; rfl
  · rw [h]; rfl
  · rw [h]; exact first_failure_eq_zero_iff _

/-- C20 at a concrete input: an argument with white space, an empty element, a repeated
name and a trailing comma. -/
theorem C20_parse_channels_list_witness :
    (∀ e ∈ split_commas (" CHAN1, CHAN2 ,,MATH,CHAN1, " : String).data, e.length < 64) ∧
    offered_names (" CHAN1, CHAN2 ,,MATH,CHAN1, " : String).data =
      ["CHAN1", "CHAN2", "MATH", "CHAN1"] ∧
    (parse_channels_list empty_config " CHAN1, CHAN2 ,,MATH,CHAN1, ").1 = -1 ∧
    (parse_channels_list empty_config " CHAN1, CHAN2 ,,MATH,CHAN1, ").2.channels =
      ["CHAN1", "CHAN2", "MATH"] ∧
    parse_channels_list empty_config " CHAN1, CHAN2 ,,MATH,CHAN1, " =
      parse_channels_spec empty_config " CHAN1, CHAN2 ,,MATH,CHAN1, " :=
  ⟨by decide, by decide, by decide, by decide,
    (C20_parse_channels_list empty_config " CHAN1, CHAN2 ,,MATH,CHAN1, " (by decide)).1⟩

/-! ### The slice handed to `acquire` and the hand-off variables -/

theorem sliceInv_init (p : Setup) (hb : 1 ≤ p.n_flush_traces) :
    SliceInv p (engine_init p) :=
  ⟨by simp [engine_init], fun _ => by simp [engine_init]; omega, by simp [engine_init],
    by simp [engine_init]⟩

theorem sliceInv_step (p : Setup) (hb : 1 ≤ p.n_flush_traces)
    (s : EngineState) (e : Event) (s1 : EngineState)
    (hI : SliceInv p s) (h : Step p s e s1) : SliceInv p s1 := by
  obtain ⟨hle, hlt, ha, hb2⟩ := hI
  cases h with
  | stop_request => exact ⟨hle, hlt, ha, hb2⟩
  | prep rc hp =>
    have h1 := hlt (Or.inl hp)
    exact ⟨hle, fun _ => h1, ha, hb2⟩
  | loop_head hp =>
    have h1 := hlt (Or.inr (Or.inl hp))
    unfold loop_head_step
    split_ifs <;> exact ⟨hle, by simp <;> omega, ha, hb2⟩
  | handoff_lock hp =>
    unfold handoff_lock_step
    split_ifs <;> exact ⟨hle, by simp, ha, hb2⟩
  | handoff_wait s1 hp h1 =>
    rcases handoff_wait_step_some h1 with ⟨_, rfl⟩ | ⟨_, _, rfl⟩
    · exact ⟨hle, by simp, ha, hb2⟩
    · exact ⟨by simp, by simp; omega, ha, hb2⟩
  | tail hp =>
    unfold tail_step
    split_ifs <;> exact ⟨hle, by simp, ha, hb2⟩
  | tail_count hp => exact ⟨hle, by simp [tail_count_step], ha, hb2⟩
  | stop_writer hp => exact ⟨hle, by simp [stop_writer_step], ha, hb2⟩
  | join hp hw => exact ⟨hle, by simp [teardown_step], ha, hb2⟩
  | acquire rc hp =>
    have h1 := hlt (Or.inr (Or.inr (Or.inl hp)))
    unfold acquire_step store_trace
    split_ifs <;> constructor <;> simp <;> (try split_ifs) <;> (try simp [ha, hb2]) <;> omega
  | reconnect rc hp =>
    have h1 := hlt (Or.inr (Or.inr (Or.inr hp)))
    unfold reconnect_step
    split_ifs
    · exact ⟨hle, fun _ => h1, ha, hb2⟩
    · exact ⟨hle, by simp, ha, hb2⟩
  | tail_write r s1 hp h1 =>
    rcases tail_write_step_some h1 with ⟨w, _, _, rfl⟩ | ⟨_, rfl⟩ | ⟨_, rfl⟩
    · refine ⟨hle, ?_, ha, hb2⟩
      intro h; dsimp only at h; split_ifs at h <;> simp at h
    · exact ⟨hle, hlt, ha, hb2⟩
    · exact ⟨hle, by simp, ha, hb2⟩
  | writer_loop_head hw =>
    unfold writer_loop_head_step
    split_ifs <;> exact ⟨hle, hlt, ha, hb2⟩
  | writer_wait s1 hw h1 =>
    rcases writer_wait_step_some h1 with ⟨_, _, rfl⟩ | ⟨_, rfl⟩
    · exact ⟨hle, hlt, ha, hb2⟩
    · exact ⟨hle, hlt, ha, hb2⟩
  | writer_count hw => exact ⟨hle, hlt, ha, hb2⟩
  | writer_write r s1 hw h1 =>
    rcases writer_write_step_some h1 with ⟨w, _, _, rfl⟩ | ⟨_, rfl⟩ | ⟨_, rfl⟩
    · exact ⟨hle, hlt, ha, hb2⟩
    · exact ⟨hle, hlt, ha, hb2⟩
    · exact ⟨hle, hlt, ha, hb2⟩

theorem run_sliceInv {p : Setup} {es : List Event} {s : EngineState}
    (hb : 1 ≤ p.n_flush_traces) (h : run p (engine_init p) es = some s) : SliceInv p s :=
  run_invariant p (fun _ => True) (SliceInv p)
    (fun s e s1 _ hI hS => sliceInv_step p hb s e s1 hI hS) es _ _ (fun _ _ => trivial)
    (sliceInv_init p hb) h

theorem other_buf_other_buf (a : Nat) : other_buf (other_buf a) = if a = 0 then 0 else 1 := by
  unfold other_buf
  by_cases h : a = 0 <;> simp [h]

theorem readyInv_init (p : Setup) : ReadyInv p (engine_init p) :=
  ⟨Or.inl rfl, Or.inl rfl, Or.inl rfl, fun _ => rfl, fun h => by simp [engine_init] at h,
    fun _ => ⟨rfl, by simp [engine_init], by simp [engine_init]⟩⟩

theorem readyInv_step (p : Setup) (s : EngineState) (e : Event) (s1 : EngineState)
    (hI : ReadyInv p s) (h : Step p s e s1) : ReadyInv p s1 := by
  obtain ⟨hr, hi, ha, hf, hn, hns⟩ := hI
  cases h with
  | stop_request => exact ⟨hr, hi, ha, hf, hn, hns⟩
  | prep rc hp => exact ⟨hr, hi, ha, hf, hn, fun h => ⟨(hns h).1, by simp [prep_step]⟩⟩
  | loop_head hp =>
    unfold loop_head_step
    split_ifs <;> exact ⟨hr, hi, ha, hf, hn, fun h => ⟨(hns h).1, by simp⟩⟩
  | handoff_lock hp =>
    have hst : p.store = true := by
      by_contra hc
      exact (hns (by simpa using hc)).2.1 hp
    unfold handoff_lock_step
    split_ifs <;> exact ⟨hr, hi, ha, hf, hn, fun h => absurd (hst.symm.trans h) (by decide)⟩
  | handoff_wait s1 hp h1 =>
    have hst : p.store = true := by
      by_contra hc
      exact (hns (by simpa using hc)).2.2 hp
    rcases handoff_wait_step_some h1 with ⟨_, rfl⟩ | ⟨_, _, rfl⟩
    · exact ⟨hr, hi, ha, hf, hn, fun h => absurd (hst.symm.trans h) (by decide)⟩
    · refine ⟨Or.inr rfl, ?_, ?_, ?_, ?_, fun h => absurd (hst.symm.trans h) (by decide)⟩
      · by_cases h0 : s.active_buf = 0 <;> simp [h0]
      · unfold other_buf
        by_cases h0 : s.active_buf = 0 <;> simp [h0]
      · intro h; simp at h
      · intro _
        exact (other_buf_other_buf s.active_buf).symm
  | tail hp =>
    unfold tail_step
    split_ifs <;> exact ⟨hr, hi, ha, hf, hn, fun h => ⟨(hns h).1, by simp⟩⟩
  | tail_count hp =>
    exact ⟨hr, hi, ha, hf, hn, fun h => ⟨(hns h).1, by simp [tail_count_step]⟩⟩
  | stop_writer hp =>
    exact ⟨hr, hi, ha, hf, hn, fun h => ⟨(hns h).1, by simp [stop_writer_step]⟩⟩
  | join hp hw => exact ⟨hr, hi, ha, hf, hn, fun h => ⟨(hns h).1, by simp [teardown_step]⟩⟩
  | acquire rc hp =>
    by_cases hst : p.store = true
    · unfold acquire_step store_trace
      simp only [hst]
      split_ifs <;> exact ⟨hr, hi, ha, hf, hn, fun h => absurd (hst.symm.trans h) (by decide)⟩
    · have hst2 : p.store = false := by simpa using hst
      have h0 := (hns hst2).1
      unfold acquire_step store_trace
      simp only [hst2, Bool.false_eq_true, if_false]
      split_ifs <;> refine ⟨hr, hi, ?_, hf, fun h => ?_, fun h => ⟨h0, by simp⟩⟩ <;>
        first
        | exact ha
        | (exfalso; have h2 : 1 ≤ s.handoffs := h; omega)
        | (simp only [other_buf]; split_ifs; all_goals simp)
  | reconnect rc hp =>
    unfold reconnect_step
    split_ifs <;> exact ⟨hr, hi, ha, hf, hn, fun h => ⟨(hns h).1, by simp⟩⟩
  | tail_write r s1 hp h1 =>
    rcases tail_write_step_some h1 with ⟨w, _, _, rfl⟩ | ⟨_, rfl⟩ | ⟨_, rfl⟩
    · refine ⟨hr, hi, ha, hf, hn, fun h => ⟨(hns h).1, ?_, ?_⟩⟩ <;>
        (dsimp only; split_ifs <;> simp)
    · exact ⟨hr, hi, ha, hf, hn, hns⟩
    · exact ⟨hr, hi, ha, hf, hn, fun h => ⟨(hns h).1, by simp⟩⟩
  | writer_loop_head hw =>
    unfold writer_loop_head_step
    split_ifs <;> exact ⟨hr, hi, ha, hf, hn, hns⟩
  | writer_wait s1 hw h1 =>
    rcases writer_wait_step_some h1 with ⟨_, _, rfl⟩ | ⟨_, rfl⟩
    · exact ⟨hr, hi, ha, hf, hn, hns⟩
    · exact ⟨Or.inl rfl, hi, ha, hf, hn, hns⟩
  | writer_count hw => exact ⟨hr, hi, ha, hf, hn, hns⟩
  | writer_write r s1 hw h1 =>
    rcases writer_write_step_some h1 with ⟨w, _, _, rfl⟩ | ⟨_, rfl⟩ | ⟨_, rfl⟩
    · exact ⟨hr, hi, ha, hf, hn, hns⟩
    · exact ⟨hr, hi, ha, hf, hn, hns⟩
    · exact ⟨hr, hi, ha, hf, hn, hns⟩

theorem run_readyInv {p : Setup} {es : List Event} {s : EngineState}
    (h : run p (engine_init p) es = some s) : ReadyInv p s :=
  run_invariant p (fun _ => True) (ReadyInv p)
    (fun s e s1 _ hI hS => readyInv_step p s e s1 hI hS) es _ _ (fun _ _ => trivial)
    (readyInv_init p) h

theorem handoffOrKeep_step (p : Setup) (s : EngineState) (e : Event) (s1 : EngineState)
    (ha : s.active_buf = 0 ∨ s.active_buf = 1) (h : Step p s e s1) : HandoffOrKeep s s1 := by
  cases h with
  | stop_request => exact Or.inl ⟨rfl, rfl⟩
  | prep rc hp => exact Or.inl ⟨rfl, rfl⟩
  | loop_head hp =>
    unfold loop_head_step
    split_ifs <;> exact Or.inl ⟨rfl, rfl⟩
  | handoff_lock hp =>
    unfold handoff_lock_step
    split_ifs <;> exact Or.inl ⟨rfl, rfl⟩
  | handoff_wait s1 hp h1 =>
    rcases handoff_wait_step_some h1 with ⟨_, rfl⟩ | ⟨_, hr0, rfl⟩
    · exact Or.inl ⟨rfl, rfl⟩
    · refine Or.inr ⟨rfl, ?_, rfl, rfl, hp, hr0⟩
      rcases ha with h0 | h0 <;> simp [h0]
  | tail hp =>
    unfold tail_step
    split_ifs <;> exact Or.inl ⟨rfl, rfl⟩
  | tail_count hp => exact Or.inl ⟨rfl, rfl⟩
  | stop_writer hp => exact Or.inl ⟨rfl, rfl⟩
  | join hp hw => exact Or.inl ⟨rfl, rfl⟩
  | acquire rc hp =>
    unfold HandoffOrKeep acquire_step store_trace
    split_ifs <;> (try simp) <;> (try split_ifs) <;> (try simp)
  | reconnect rc hp =>
    unfold reconnect_step
    split_ifs <;> exact Or.inl ⟨rfl, rfl⟩
  | tail_write r s1 hp h1 =>
    rcases tail_write_step_some h1 with ⟨w, _, _, rfl⟩ | ⟨_, rfl⟩ | ⟨_, rfl⟩ <;>
      exact Or.inl ⟨rfl, rfl⟩
  | writer_loop_head hw =>
    unfold writer_loop_head_step
    split_ifs <;> exact Or.inl ⟨rfl, rfl⟩
  | writer_wait s1 hw h1 =>
    rcases writer_wait_step_some h1 with ⟨_, _, rfl⟩ | ⟨_, rfl⟩ <;> exact Or.inl ⟨rfl, rfl⟩
  | writer_count hw => exact Or.inl ⟨rfl, rfl⟩
  | writer_write r s1 hw h1 =>
    rcases writer_write_step_some h1 with ⟨w, _, _, rfl⟩ | ⟨_, rfl⟩ | ⟨_, rfl⟩ <;>
      exact Or.inl ⟨rfl, rfl⟩

/-! ### Queries: what a call leaves in the write log -/

theorem scope_query_sent (s : Scope) (cmd resp : List Nat)
    (hopen : s.instr ≠ VI_NULL) (hcap : resp.length ≠ 0) :
    (scope_query s cmd resp).s.wlog.length = s.wlog.length + 1 ∧
      (scope_query s cmd resp).s.instr = s.instr := by
  obtain ⟨hw, -, hi, -⟩ := viWrite_spec s (cmd ++ [10]) (VI_UINT32 (cmd.length + 1))
  unfold scope_query
  rw [if_neg (by simp [hopen, hcap])]
  by_cases h2 : (viWrite s (cmd ++ [10]) (VI_UINT32 (cmd.length + 1))).1.st < VI_SUCCESS ∨
      (viWrite s (cmd ++ [10]) (VI_UINT32 (cmd.length + 1))).1.wrote ≠
        VI_UINT32 (cmd.length + 1)
  · rw [if_pos h2]
    exact ⟨by rw [hw]; simp, hi⟩
  · rw [if_neg h2]
    generalize (viWrite s (cmd ++ [10]) (VI_UINT32 (cmd.length + 1))).2 = s1 at hw hi ⊢
    obtain ⟨-, -, hri, -, -, hrw, -⟩ := viRead_spec { s1 with termchar_en := true }
      (VI_UINT32 (resp.length - 1))
    generalize viRead { s1 with termchar_en := true } (VI_UINT32 (resp.length - 1)) = r
      at hri hrw ⊢
    dsimp only
    split_ifs <;> exact ⟨by simp only [hrw, hw]; simp, by simp only [hri, hi]⟩

theorem scope_query_first_byte (s : Scope) (cmd resp : List Nat)
    (h : (scope_query s cmd resp).rc = 0) :
    ∃ r : ViRead, (scope_query s cmd resp).s.rlog = s.rlog ++ [r] ∧
      (scope_query s cmd resp).resp.getD 0 0 = (strip_crlf r.data).headD 0 := by
  obtain ⟨r, hlog, -, -, -, hresp⟩ := scope_query_ok s cmd resp h
  refine ⟨r, hlog, ?_⟩
  rw [hresp]
  cases hs : strip_crlf r.data with
  | nil => simp [List.replicate_succ]
  | cons c cs => simp

theorem scope_query_rc (s : Scope) (cmd resp : List Nat) :
    (scope_query s cmd resp).rc = -1 ∨ (scope_query s cmd resp).rc = -2 ∨
      (scope_query s cmd resp).rc = -3 ∨ (scope_query s cmd resp).rc = 0 := by
  unfold scope_query
  dsimp only
  split_ifs <;> simp

/-! ### The probe of a candidate -/

theorem viSetAttribute_ok (t : TestSession) (attr : ViAttr) (v : Nat) (h : t.attr_st = []) :
    (viSetAttribute t attr v).1 = VI_SUCCESS ∧
      (viSetAttribute t attr v).2.attr_st = [] ∧
      (viSetAttribute t attr v).2.tmo_log = t.tmo_log ∧
      (viSetAttribute t attr v).2.tmo =
        (if attr = .VI_ATTR_TMO_VALUE then v else t.tmo) := by
  unfold viSetAttribute
  cases attr <;> simp [h, VI_SUCCESS]

theorem _set_common_attrs_ok (t : TestSession) (timeout_ms : Nat) (h : t.attr_st = []) :
    (_set_common_attrs t timeout_ms).1 = 0 ∧
      (_set_common_attrs t timeout_ms).2.attr_st = [] ∧
      (_set_common_attrs t timeout_ms).2.tmo_log = t.tmo_log ∧
      (_set_common_attrs t timeout_ms).2.tmo = timeout_ms := by
  obtain ⟨a1, b1, c1, d1⟩ := viSetAttribute_ok t .VI_ATTR_TMO_VALUE timeout_ms h
  obtain ⟨a2, b2, c2, d2⟩ := viSetAttribute_ok (viSetAttribute t .VI_ATTR_TMO_VALUE timeout_ms).2
    .VI_ATTR_TERMCHAR_EN 0 b1
  obtain ⟨a3, b3, c3, d3⟩ := viSetAttribute_ok
    (viSetAttribute (viSetAttribute t .VI_ATTR_TMO_VALUE timeout_ms).2 .VI_ATTR_TERMCHAR_EN 0).2
    .VI_ATTR_TERMCHAR 10 b2
  unfold _set_common_attrs
  rw [if_neg (by rw [a1]; decide), if_neg (by rw [a2]; decide), if_neg (by rw [a3]; decide)]
  refine ⟨rfl, b3, by rw [c3, c2, c1], ?_⟩
  rw [d3, d2, d1]
  simp

theorem _idn_matches_tmo_log (t : TestSession) (needle : Option (List Nat))
    (h : t.attr_st = []) :
    (_idn_matches t needle).2.tmo_log = t.tmo_log ++ [t.tmo] ∨
      (_idn_matches t needle).2.tmo_log = t.tmo_log ++ [t.tmo, t.tmo] := by
  have hw : (test_write t (str_bytes "*IDN?\n") 6).2.attr_st = [] ∧
      (test_write t (str_bytes "*IDN?\n") 6).2.tmo_log = t.tmo_log ++ [t.tmo] ∧
      (test_write t (str_bytes "*IDN?\n") 6).2.tmo = t.tmo := ⟨h, rfl, rfl⟩
  unfold _idn_matches
  generalize test_write t (str_bytes "*IDN?\n") 6 = w at hw
  obtain ⟨hw1, hw2, hw3⟩ := hw
  dsimp only
  by_cases h1 : w.1.st < VI_SUCCESS
  · rw [if_pos h1]; exact Or.inl hw2
  · rw [if_neg h1]
    right
    obtain ⟨-, b1, c1, d1⟩ := viSetAttribute_ok w.2 .VI_ATTR_TERMCHAR 10 hw1
    obtain ⟨-, b2, c2, d2⟩ := viSetAttribute_ok (viSetAttribute w.2 .VI_ATTR_TERMCHAR 10).2
      .VI_ATTR_TERMCHAR_EN 1 b1
    generalize (viSetAttribute (viSetAttribute w.2 .VI_ATTR_TERMCHAR 10).2
      .VI_ATTR_TERMCHAR_EN 1).2 = a2 at b2 c2 d2
    have hr : (test_read a2 255).2.attr_st = [] ∧
        (test_read a2 255).2.tmo_log = a2.tmo_log ++ [a2.tmo] := ⟨b2, rfl⟩
    generalize test_read a2 255 = r at hr
    obtain ⟨-, -, c3, -⟩ := viSetAttribute_ok r.2 .VI_ATTR_TERMCHAR_EN 0 hr.1
    have hfin : (viSetAttribute r.2 .VI_ATTR_TERMCHAR_EN 0).2.tmo_log =
        t.tmo_log ++ [t.tmo, t.tmo] := by
      rw [c3, hr.2, c2, c1, d2, d1, hw2, hw3]
      simp
    split_ifs
    · exact hfin
    · cases needle with
      | none => exact hfin
      | some nd => exact hfin

/-! ### The channel line of the log header -/

theorem strncat_fits (dst src : String) (n : Nat) (h : src.length ≤ n) :
    strncat dst src n = dst ++ src := by
  unfold strncat
  rw [List.take_of_length_le (show src.data.length ≤ n from h)]

theorem intercalate_go_length (s : String) : ∀ (l : List String) (acc : String),
    acc.length ≤ (String.intercalate.go acc s l).length := by
  intro l
  induction l with
  | nil => intro acc; simp [String.intercalate.go]
  | cons a as ih =>
    intro acc
    simp only [String.intercalate.go]
    have := ih (acc ++ s ++ a)
    simp only [String.length_append] at this
    omega

theorem chbuf_loop_go : ∀ (rest : List String) (acc : String) (i : Nat),
    0 < i → acc ≠ "" → (String.intercalate.go acc "," rest).length < 256 →
    chbuf_loop i rest acc = String.intercalate.go acc "," rest := by
  intro rest
  induction rest with
  | nil => intro acc i _ _ _; simp [chbuf_loop, String.intercalate.go]
  | cons a as ih =>
    intro acc i hi hacc hlen
    simp only [String.intercalate.go] at hlen ⊢
    have hl := intercalate_go_length "," as (acc ++ "," ++ a)
    simp only [String.length_append] at hl
    have hc : (",".length : Nat) = 1 := rfl
    unfold chbuf_loop
    rw [if_pos ⟨hi, hacc⟩, strncat_fits acc "," _ (by rw [hc]; omega),
      strncat_fits (acc ++ ",") a _ (by simp only [String.length_append]; omega)]
    apply ih _ _ (Nat.succ_pos i) _ hlen
    intro h
    have := congrArg String.length h
    simp only [String.length_append] at this
    rw [hc] at this
    simp at this

theorem chbuf_loop_intercalate (names : List String) (hnames : "" ∉ names)
    (hlen : (",".intercalate names).length < 256) :
    chbuf_loop 0 names "" = ",".intercalate names := by
  cases names with
  | nil => rfl
  | cons a as =>
    have ha : a ≠ "" := fun h => hnames (by rw [h]; exact List.mem_cons_self _ _)
    simp only [String.intercalate] at hlen ⊢
    have hl := intercalate_go_length "," as a
    unfold chbuf_loop
    rw [if_neg (by simp), strncat_fits "" a _ (by simp; omega)]
    rw [String.empty_append]
    exact chbuf_loop_go as a 1 (by decide) ha hlen

/-! ### The command line -/

theorem getopt_long_dash_s (rest : List String) :
    ∃ rs b, getopt_long ("-s" :: rest).length optstring.data longopts ("-s" :: rest) =
      (⟨63, none⟩ :: rs, b) := by
  have hs : shortopt optstring.data 's' = none := by decide
  have hd : ("-s" : String).data = ['-', 's'] := rfl
  rw [List.length_cons, getopt_long, if_neg (by decide)]
  simp only [hd, short_cluster, hs]
  exact ⟨_, _, rfl⟩

theorem engine_parse_cli_args_dash_s (rest : List String) (now : Int) (R : Nat) :
    (engine_parse_cli_args ("-s" :: rest) now R).1 = -1 := by
  obtain ⟨rs, b, h⟩ := getopt_long_dash_s rest
  unfold engine_parse_cli_args
  rw [h]
  have : parse_option now empty_config ⟨63, none⟩ = .error (-1) := by
    unfold parse_option
    simp
  simp only [parse_options, this]

/-! ### Reading a trace -/

/-- C21: the option string of line 63 does not list `s`, so `getopt_long` answers `'?'`
to the short flag `-s` and `engine_parse_cli_args` returns -1 whenever `-s` is the
first argument, whatever follows; for the arguments
`-n 4 -b 2 -s 100 -c CHAN1 -w 0 -o out` it returns -1 at the third option.  The long
form is accepted: the `switch` has the case `'s'` (result 115), which stores the value
in `n_samples`, and with `--nsamples 100` in place of `-s 100` the same arguments give
0 with `n_samples = 100`, `n_traces = 4`, `n_flush_traces = 2` and the channel list
`[CHAN1]`. -/
theorem C21_short_nsamples_flag_rejected :
    (∀ (rest : List String) (now : Int) (R : Nat),
      (engine_parse_cli_args ("-s" :: rest) now R).1 = -1) ∧
    shortopt optstring.data 's' = none ∧
    longopt_find longopts "nsamples" = some (true, 115) ∧
    (∀ (now : Int) (cfg : RunConfig) (v : String),
      parse_option now cfg ⟨115, some v⟩ =
        .ok { cfg with n_samples := strtoull (str_bytes v), raw_start_idx := 1 }) ∧
    (getopt_long 12 optstring.data longopts
      ["-n", "4", "-b", "2", "-s", "100", "-c", "CHAN1", "-w", "0", "-o", "out"]).1.map
        (fun r => r.opt) = [110, 98, 63, 99, 119, 111] ∧
    (engine_parse_cli_args
      ["-n", "4", "-b", "2", "-s", "100", "-c", "CHAN1", "-w", "0", "-o", "out"]
      1700000000 8589934592).1 = -1 ∧
    engine_parse_cli_args
      ["-n", "4", "-b", "2", "--nsamples", "100", "-c", "CHAN1", "-w", "0", "-o", "out"]
      1700000000 8589934592 =
      (0, { instr_name := none, coding := 0, n_samples := 100, raw_start_idx := 1,
            n_traces := 4, n_flush_traces := 2, channels := ["CHAN1"], n_channels := 1,
            outfile := some "out_1700000000", verbose := false, diagnose := false }) := by
  refine ⟨engine_parse_cli_args_dash_s, by decide, by decide, ?_, by decide, by decide,
    by decide⟩
  intro now cfg v
  unfold parse_option
  simp

/-- C23: `ds1000ze_check_if_armed` looks at the first character of the reply only.
Whenever it returns 0 it has issued one read and stores `true` exactly when the reply,
its trailing CR and LF removed, begins with `W` or `R`; so the reply `RUN` gives
`*armed = true` although it is neither `WAIT` nor `READY`, against the comment of
line 202.  The replies `WAIT` and `READY` give `true`, the replies `AUTO`, `TD` and
`STOP` give `false`. -/
theorem C23_armed_tests_first_character :
    (∀ (s : Scope) (resp : List Nat), (ds1000ze_check_if_armed s resp).rc = 0 →
      ∃ r : ViRead, (ds1000ze_check_if_armed s resp).s.rlog = s.rlog ++ [r] ∧
        (ds1000ze_check_if_armed s resp).armed =
          some (decide ((strip_crlf r.data).headD 0 = 87 ∨
            (strip_crlf r.data).headD 0 = 82))) ∧
    (ds1000ze_check_if_armed (reply_session "RUN") stale_resp).rc = 0 ∧
    (ds1000ze_check_if_armed (reply_session "RUN") stale_resp).armed = some true ∧
    "RUN" ≠ "WAIT" ∧ "RUN" ≠ "READY" ∧
    (ds1000ze_check_if_armed (reply_session "WAIT") stale_resp).armed = some true ∧
    (ds1000ze_check_if_armed (reply_session "READY") stale_resp).armed = some true ∧
    (ds1000ze_check_if_armed (reply_session "AUTO") stale_resp).armed = some false ∧
    (ds1000ze_check_if_armed (reply_session "TD") stale_resp).armed = some false ∧
    (ds1000ze_check_if_armed (reply_session "STOP") stale_resp).armed = some false := by
  refine ⟨?_, by decide, by decide, by decide, by decide, by decide, by decide, by decide,
    by decide, by decide⟩
  intro s resp h
  unfold ds1000ze_check_if_armed at h ⊢
  by_cases hq : (scope_query s (str_bytes ":TRIG:STAT?") resp).rc < 0
  · rw [if_pos hq] at h; simp at h
  · rw [if_neg hq]
    have h0 : (scope_query s (str_bytes ":TRIG:STAT?") resp).rc = 0 := by
      rcases scope_query_rc s (str_bytes ":TRIG:STAT?") resp with h1 | h1 | h1 | h1 <;> omega
    obtain ⟨r, hlog, hfirst⟩ := scope_query_first_byte s _ resp h0
    exact ⟨r, hlog, by simp only [hfirst]⟩

/-- C24 as stated fails twice.  When the instrument answers `*IDN?` and then nothing,
`engine_diagnose` returns -4 right after the trigger-status query: the sample-rate and
waveform-mode queries are not sent and the driver dump is not called.  When only the
waveform-mode query goes unanswered, that query fails and `engine_diagnose` still
returns 0. -/
theorem C24_counterexample :
    (engine_diagnose 0 (diagnose_session ["RIGOL"])).rc = -4 ∧
    commands_sent (engine_diagnose 0 (diagnose_session ["RIGOL"])).s =
      [str_bytes "*IDN?\n", str_bytes ":TRIG:STAT?\n"] ∧
    (engine_diagnose 0 (diagnose_session ["RIGOL"])).calls = [.init, .destroy] ∧
    (wmode_query (diagnose_session ["RIGOL", "STOP", "1.0e9"])).rc = -3 ∧
    (engine_diagnose 0 (diagnose_session ["RIGOL", "STOP", "1.0e9"])).s =
      (wmode_query (diagnose_session ["RIGOL", "STOP", "1.0e9"])).s ∧
    (engine_diagnose 0 (diagnose_session ["RIGOL", "STOP", "1.0e9"])).rc = 0 ∧
    engine_run_diagnose 0 (diagnose_session ["RIGOL", "STOP", "1.0e9"]) = 0 := by
  set_option maxRecDepth 100000 in
  decide

/-- C24 (amended): after a successful driver init on an open session, the first failure
among the identification, trigger-status and sample-rate queries ends `engine_diagnose`
at once, with -3, -4 or -5: one, two or three commands have been sent, no later query
follows, and the driver is destroyed without its dump being called.  When the three
succeed the waveform-mode query is sent, its result is ignored, the driver dump is
called and the return value is 0.  So `engine_diagnose` returns 0, and `engine_run` 0
instead of -1, exactly when the first three queries succeed. -/
theorem C24_diagnose_stops_at_first_failure (s : Scope) (hopen : s.instr ≠ VI_NULL) :
    ((idn_query s).rc ≠ 0 →
      (engine_diagnose 0 s).rc = -3 ∧ (engine_diagnose 0 s).s = (idn_query s).s ∧
      (commands_sent (engine_diagnose 0 s).s).length = (commands_sent s).length + 1 ∧
      (engine_diagnose 0 s).calls = [.init, .destroy]) ∧
    ((idn_query s).rc = 0 → (trig_query s).rc ≠ 0 →
      (engine_diagnose 0 s).rc = -4 ∧ (engine_diagnose 0 s).s = (trig_query s).s ∧
      (commands_sent (engine_diagnose 0 s).s).length = (commands_sent s).length + 2 ∧
      (engine_diagnose 0 s).calls = [.init, .destroy]) ∧
    ((idn_query s).rc = 0 → (trig_query s).rc = 0 → (srate_query s).rc ≠ 0 →
      (engine_diagnose 0 s).rc = -5 ∧ (engine_diagnose 0 s).s = (srate_query s).s ∧
      (commands_sent (engine_diagnose 0 s).s).length = (commands_sent s).length + 3 ∧
      (engine_diagnose 0 s).calls = [.init, .destroy]) ∧
    ((idn_query s).rc = 0 → (trig_query s).rc = 0 → (srate_query s).rc = 0 →
      (engine_diagnose 0 s).rc = 0 ∧ (engine_diagnose 0 s).s = (wmode_query s).s ∧
      (commands_sent (engine_diagnose 0 s).s).length = (commands_sent s).length + 4 ∧
      (engine_diagnose 0 s).calls = [.init, .dump_log, .destroy]) ∧
    ((engine_diagnose 0 s).rc = 0 ↔
      ((idn_query s).rc = 0 ∧ (trig_query s).rc = 0 ∧ (srate_query s).rc = 0)) ∧
    (engine_run_diagnose 0 s = 0 ↔
      ((idn_query s).rc = 0 ∧ (trig_query s).rc = 0 ∧ (srate_query s).rc = 0)) ∧
    (DriverCall.dump_log ∈ (engine_diagnose 0 s).calls ↔ (engine_diagnose 0 s).rc = 0) := by
  have hcap : ∀ n : Nat, n ≠ 0 → (List.replicate n (0 : Nat)).length ≠ 0 := by
    intro n hn; simpa using hn
  obtain ⟨w1, i1⟩ := scope_query_sent s (str_bytes "*IDN?") (List.replicate 256 0) hopen
    (hcap 256 (by decide))
  have o1 : (idn_query s).s.instr ≠ VI_NULL := by unfold idn_query; rw [i1]; exact hopen
  obtain ⟨w2, i2⟩ := scope_query_sent (idn_query s).s (str_bytes ":TRIG:STAT?")
    (List.replicate 16 0) o1 (hcap 16 (by decide))
  have o2 : (trig_query s).s.instr ≠ VI_NULL := by unfold trig_query; rw [i2]; exact o1
  obtain ⟨w3, i3⟩ := scope_query_sent (trig_query s).s (str_bytes ":ACQ:SRAT?")
    (List.replicate 64 0) o2 (hcap 64 (by decide))
  have o3 : (srate_query s).s.instr ≠ VI_NULL := by unfold srate_query; rw [i3]; exact o2
  obtain ⟨w4, -⟩ := scope_query_sent (srate_query s).s (str_bytes ":WAV:MODE?")
    (List.replicate 32 0) o3 (hcap 32 (by decide))
  have l1 : (commands_sent (idn_query s).s).length = (commands_sent s).length + 1 := by
    unfold commands_sent idn_query; simp only [List.length_map]; exact w1
  have l2 : (commands_sent (trig_query s).s).length = (commands_sent s).length + 2 := by
    unfold commands_sent at l1 ⊢; unfold trig_query
    simp only [List.length_map] at l1 ⊢; rw [w2, l1]
  have l3 : (commands_sent (srate_query s).s).length = (commands_sent s).length + 3 := by
    unfold commands_sent at l2 ⊢; unfold srate_query
    simp only [List.length_map] at l2 ⊢; rw [w3, l2]
  have l4 : (commands_sent (wmode_query s).s).length = (commands_sent s).length + 4 := by
    unfold commands_sent at l3 ⊢; unfold wmode_query
    simp only [List.length_map] at l3 ⊢; rw [w4, l3]
  have e : engine_diagnose 0 s =
      if (idn_query s).rc ≠ 0 then ⟨-3, (idn_query s).s, [.init, .destroy], []⟩
      else if (trig_query s).rc ≠ 0 then
        ⟨-4, (trig_query s).s, [.init, .destroy], [(idn_query s).resp]⟩
      else if (srate_query s).rc ≠ 0 then
        ⟨-5, (srate_query s).s, [.init, .destroy], [(idn_query s).resp, (trig_query s).resp]⟩
      else
        ⟨0, (wmode_query s).s, [.init, .dump_log, .destroy],
          [(idn_query s).resp, (trig_query s).resp, (srate_query s).resp,
            (wmode_query s).resp]⟩ := by
    unfold engine_diagnose
    rw [if_neg (by simp)]
    rfl
  unfold engine_run_diagnose
  rw [e]
  by_cases h1 : (idn_query s).rc = 0
  · by_cases h2 : (trig_query s).rc = 0
    · by_cases h3 : (srate_query s).rc = 0
      · simp [h1, h2, h3, l4]
      · simp [h1, h2, h3, l3]
    · simp [h1, h2, l2]
  · simp [h1, l1]

/-- C24 (amended) on an instrument that answers the identification and the trigger
status and then falls silent: the sample-rate query fails, three commands were sent,
the return value is -5 and the driver dump is not called. -/
theorem C24_diagnose_stops_at_first_failure_witness :
    (idn_query (diagnose_session ["RIGOL", "STOP"])).rc = 0 ∧
    (trig_query (diagnose_session ["RIGOL", "STOP"])).rc = 0 ∧
    (srate_query (diagnose_session ["RIGOL", "STOP"])).rc ≠ 0 ∧
    (engine_diagnose 0 (diagnose_session ["RIGOL", "STOP"])).rc = -5 ∧
    (engine_diagnose 0 (diagnose_session ["RIGOL", "STOP"])).s =
      (srate_query (diagnose_session ["RIGOL", "STOP"])).s ∧
    (commands_sent (engine_diagnose 0 (diagnose_session ["RIGOL", "STOP"])).s).length =
      (commands_sent (diagnose_session ["RIGOL", "STOP"])).length + 3 ∧
    (engine_diagnose 0 (diagnose_session ["RIGOL", "STOP"])).calls = [.init, .destroy] :=
  ⟨by set_option maxRecDepth 100000 in decide, by set_option maxRecDepth 100000 in decide,
    by set_option maxRecDepth 100000 in decide,
    (C24_diagnose_stops_at_first_failure (diagnose_session ["RIGOL", "STOP"])
      (by decide)).2.2.1 (by set_option maxRecDepth 100000 in decide)
      (by set_option maxRecDepth 100000 in decide)
      (by set_option maxRecDepth 100000 in decide)⟩

/-- C25: for every configuration as `add_channel` builds it (the counter is the length
of the list, no name is empty) whose names joined by commas are shorter than 256
characters, the text `open_log_file` writes consists of six lines: `acq_start_time`,
`instrument_name`, then `channels=` with the names in configuration order joined by
commas, `coding=BYTE` for coding 0 and `coding=SHORT` for coding 1, `nsamples=` and
`ntraces_per_flush=` with the two sizes in decimal.  The file is written whenever the
configuration has an output file and `fopen` succeeds, and `close_log_file` ends an
open file with the lines `acquisition_end_time` and, last,
`ntraces_written=<total_traces_written>`. -/
theorem C25_log_header_and_trailer (cfg : RunConfig) (fopen_ok : Bool) (tbuf header : String)
    (hwf : cfg.n_channels = cfg.channels.length) (hnames : "" ∉ cfg.channels)
    (hlen : (",".intercalate cfg.channels).length < 256)
    (h : open_log_file cfg fopen_ok tbuf = some header) :
    (∃ coding_line : String,
      header = text_of_lines
        ["acq_start_time=" ++ tbuf,
         "instrument_name=" ++ cfg.instr_name.getD "",
         "channels=" ++ ",".intercalate cfg.channels,
         coding_line,
         "nsamples=" ++ toString cfg.n_samples,
         "ntraces_per_flush=" ++ toString cfg.n_flush_traces] ∧
      (cfg.coding = 0 → coding_line = "coding=BYTE") ∧
      (cfg.coding = 1 → coding_line = "coding=SHORT")) ∧
    (cfg.outfile ≠ none → open_log_file cfg true tbuf ≠ none) ∧
    (∀ (text tbuf2 : String) (total_traces_written : Nat),
      close_log_file (some text) tbuf2 total_traces_written =
        (0, some (text ++ text_of_lines
          ["acquisition_end_time=" ++ tbuf2,
           "ntraces_written=" ++ toString total_traces_written]))) := by
  have hch : chbuf_loop 0 (cfg.channels.take cfg.n_channels) "" =
      ",".intercalate cfg.channels := by
    rw [hwf, List.take_length]
    exact chbuf_loop_intercalate cfg.channels hnames hlen
  refine ⟨⟨"coding=" ++ (if cfg.coding = 0 then "BYTE" else "SHORT"), ?_, ?_, ?_⟩, ?_, ?_⟩
  · unfold open_log_file at h
    cases ho : cfg.outfile with
    | none => rw [ho] at h; simp at h
    | some o =>
      rw [ho] at h
      by_cases hf : fopen_ok = false
      · simp [hf] at h
      · simp only [if_neg hf, Option.some.injEq] at h
        rw [← h, hch]
        simp only [text_of_lines, List.map, String.join, List.foldl, String.append_assoc,
          String.empty_append]
  · intro h0; rw [if_pos h0]; rfl
  · intro h1; rw [if_neg (by omega)]; rfl
  · intro ho
    unfold open_log_file
    cases hc : cfg.outfile with
    | none => exact absurd hc ho
    | some o => simp
  · intro text tbuf2 n
    simp only [close_log_file, text_of_lines, List.map, String.join, List.foldl,
      String.append_assoc, String.empty_append]

/-- C25 on scenario S2 (`-n 5 -b 2 -s 100 -c CHAN1 -c CHAN2 -w 1`): the header names
`CHAN1,CHAN2`, `SHORT`, 100 samples and batches of 2. -/
theorem C25_log_header_and_trailer_witness :
    open_log_file s2_config true "2023.11.14-22:13:20" =
      some ("acq_start_time=2023.11.14-22:13:20\ninstrument_name=\nchannels=CHAN1,CHAN2\n" ++
        "coding=SHORT\nnsamples=100\nntraces_per_flush=2\n") ∧
    close_log_file (some "acq_start_time=T\n") "2023.11.14-22:14:00" 3 =
      (0, some "acq_start_time=T\nacquisition_end_time=2023.11.14-22:14:00\nntraces_written=3\n") ∧
    ∃ coding_line : String,
      ("acq_start_time=2023.11.14-22:13:20\ninstrument_name=\nchannels=CHAN1,CHAN2\n" ++
        "coding=SHORT\nnsamples=100\nntraces_per_flush=2\n") = text_of_lines
        ["acq_start_time=" ++ "2023.11.14-22:13:20",
         "instrument_name=" ++ s2_config.instr_name.getD "",
         "channels=" ++ ",".intercalate s2_config.channels,
         coding_line,
         "nsamples=" ++ toString s2_config.n_samples,
         "ntraces_per_flush=" ++ toString s2_config.n_flush_traces] ∧
      (s2_config.coding = 0 → coding_line = "coding=BYTE") ∧
      (s2_config.coding = 1 → coding_line = "coding=SHORT") :=
  ⟨by decide, by decide,
    (C25_log_header_and_trailer s2_config true "2023.11.14-22:13:20" _ (by decide) (by decide)
      (by decide) (by decide)).1⟩

/-- C26: in every state a run reaches, whatever the order of producer and writer steps
and whatever the acquire and write results, `ready_batches` is 0 or 1 and
`next_write_batch_idx` is 0 or 1; it is the initial 0 before the first hand-off and
afterwards the index of the buffer the producer is not filling, the one it handed over
last; a step either is no hand-off and leaves `next_write_batch_idx` alone, or it is
the hand-off of lines 407-416, taken with no batch pending, which sets it to the
buffer that was active, marks one batch ready and makes the other buffer active. -/
theorem C26_ready_batches_and_index (p : Setup) (es : List Event) (s : EngineState)
    (hrun : run p (engine_init p) es = some s) :
    (s.ready_batches = 0 ∨ s.ready_batches = 1) ∧
    (s.next_write_batch_idx = 0 ∨ s.next_write_batch_idx = 1) ∧
    (s.handoffs = 0 → s.next_write_batch_idx = 0) ∧
    (1 ≤ s.handoffs → s.next_write_batch_idx = other_buf s.active_buf) ∧
    (∀ e s1, step p s e = some s1 →
      (s1.handoffs = s.handoffs ∧ s1.next_write_batch_idx = s.next_write_batch_idx) ∨
      (s1.handoffs = s.handoffs + 1 ∧ s1.next_write_batch_idx = s.active_buf ∧
        s1.ready_batches = 1 ∧ s1.active_buf = other_buf s.active_buf ∧
        s.ppc = .handoff_wait ∧ s.ready_batches = 0)) := by
  obtain ⟨hr, hi, ha, hf, hn, _⟩ := run_readyInv hrun
  exact ⟨hr, hi, hf, hn, fun e s1 h => handoffOrKeep_step p s e s1 ha (step_sound h)⟩

/-- C26 on scenario S1 up to its first hand-off: one batch is ready, it is `buf_a`
(index 0) and the producer now fills `buf_b`. -/
theorem C26_ready_batches_and_index_witness :
    run (store_setup 4 2 100) (engine_init (store_setup 4 2 100)) first_handoff_schedule =
      some first_handoff_state ∧
    first_handoff_state.handoffs = 1 ∧ first_handoff_state.ready_batches = 1 ∧
    first_handoff_state.next_write_batch_idx = 0 ∧ first_handoff_state.active_buf = 1 ∧
    (1 ≤ first_handoff_state.handoffs →
      first_handoff_state.next_write_batch_idx = other_buf first_handoff_state.active_buf) :=
  ⟨by decide, by decide, by decide, by decide, by decide,
    (C26_ready_batches_and_index (store_setup 4 2 100) first_handoff_schedule
      first_handoff_state (by decide)).2.2.2.1⟩

/-- C27: for every setup `engine_run` computes with `n_flush_traces ≥ 1`, with or
without an output file, and every run (any acquire, reconnect and write results in any
order), whenever the producer is about to call `acquire` the batch counter is below
`n_flush_traces`, the slot exists in the active buffer, and the slice of
`bytes_per_trace` bytes at offset `traces_in_flush_batch × bytes_per_trace` ends at or
before `bytes_per_flush_batch`, none of these products wrapping. -/
theorem C27_acquire_slice_inside_buffer (cfg : RunConfig) (R : Nat) (p : Setup)
    (es : List Event) (s : EngineState)
    (hsetup : engine_run_setup cfg R = .ok p) (hb : 1 ≤ cfg.n_flush_traces)
    (hrun : run p (engine_init p) es = some s) (hpc : s.ppc = .acquire) :
    s.traces_in_flush_batch < p.n_flush_traces ∧
    s.traces_in_flush_batch * p.bytes_per_trace + p.bytes_per_trace ≤
      p.bytes_per_flush_batch ∧
    dst_offset p s + p.bytes_per_trace ≤ p.bytes_per_flush_batch ∧
    p.bytes_per_flush_batch ≤ SIZE_MAX ∧
    s.traces_in_flush_batch < (active_buffer s).length := by
  obtain ⟨_, hn, _, hsize, hbatch⟩ := engine_run_setup_ok hsetup
  have hb1 : 1 ≤ p.n_flush_traces := by rw [hn]; exact hb
  obtain ⟨_, hlt, ha, hb2⟩ := run_sliceInv hb1 hrun
  have h1 := hlt (Or.inr (Or.inr (Or.inl hpc)))
  have h2 : (s.traces_in_flush_batch + 1) * p.bytes_per_trace ≤
      p.n_flush_traces * p.bytes_per_trace := Nat.mul_le_mul_right _ h1
  rw [Nat.add_mul, Nat.one_mul, Nat.mul_comm p.n_flush_traces] at h2
  refine ⟨h1, ?_, ?_, ?_, ?_⟩
  · rw [hbatch]; exact h2
  · unfold dst_offset; rw [hbatch]; exact h2
  · rw [hbatch]; exact hsize
  · unfold active_buffer
    split_ifs
    · rw [ha]; exact h1
    · rw [hb2]; exact h1

/-- C27 on a run without an output file (100 samples, one channel, batches of 2): at
the third acquire call, after one captured trace and one hard failure, the slice is
bytes 100 to 199 of the 200-byte buffer. -/
theorem C27_acquire_slice_inside_buffer_witness :
    engine_run_setup (sized_config 100 1 0 2) 8589934592 = .ok slice_demo_setup ∧
    run slice_demo_setup (engine_init slice_demo_setup) slice_demo_schedule =
      some slice_demo_state ∧
    slice_demo_state.ppc = .acquire ∧ slice_demo_state.traces_in_flush_batch = 1 ∧
    dst_offset slice_demo_setup slice_demo_state = 100 ∧
    slice_demo_state.traces_in_flush_batch * slice_demo_setup.bytes_per_trace +
        slice_demo_setup.bytes_per_trace ≤ slice_demo_setup.bytes_per_flush_batch :=
  ⟨by decide, by decide, by decide, by decide, by decide,
    (C27_acquire_slice_inside_buffer (sized_config 100 1 0 2) 8589934592 slice_demo_setup
      slice_demo_schedule slice_demo_state (by decide) (by decide) (by decide)
      (by decide)).2.1⟩

/-- C28: the `*IDN?` exchange of a probe runs with the session's general timeout, not
with the 1000 ms of line 139: `_set_common_attrs(test, s->timeout_ms)` sets
`VI_ATTR_TMO_VALUE` again before `_idn_matches` is called.  For every candidate whose
attribute calls succeed, the write and the read of the probe both see `timeout_ms`;
for a scope opened with `timeout_ms = 0` the probe of the first candidate runs with
the default 2500 ms, and with `timeout_ms = 30000` it runs with 30000 ms, against the
comment of line 138 (a short probe timeout so that a misbehaving device does not stall
the search). -/
theorem C28_probe_runs_with_general_timeout :
    (∀ (timeout_ms : Nat) (test : TestSession) (needle : Option (List Nat)),
      test.attr_st = [] →
      (probe_candidate timeout_ms test needle).2.tmo_log = test.tmo_log ++ [timeout_ms] ∨
      (probe_candidate timeout_ms test needle).2.tmo_log =
        test.tmo_log ++ [timeout_ms, timeout_ms]) ∧
    (scope_auto_open 0 (some (str_bytes "DS1")) VI_SUCCESS
      (some [some (fresh_candidate "RIGOL,DS1104Z")])).rc = 0 ∧
    (scope_auto_open 0 (some (str_bytes "DS1")) VI_SUCCESS
      (some [some (fresh_candidate "RIGOL,DS1104Z")])).probed.map (fun t => t.tmo_log) =
        [[2500, 2500]] ∧
    (scope_auto_open 30000 (some (str_bytes "DS1")) VI_SUCCESS
      (some [some (fresh_candidate "RIGOL,DS1104Z")])).probed.map (fun t => t.tmo_log) =
        [[30000, 30000]] ∧
    (scope_auto_open 30000 (some (str_bytes "DS1")) VI_SUCCESS
      (some [some (fresh_candidate "RIGOL,DS1104Z")])).probed.map
        (fun t => t.io.wlog.map Prod.snd) = [[str_bytes "*IDN?\n"]] := by
  refine ⟨?_, by decide, by decide, by decide, by decide⟩
  intro timeout_ms test needle h
  obtain ⟨-, b0, c0, -⟩ := viSetAttribute_ok test .VI_ATTR_TMO_VALUE 1000 h
  obtain ⟨a1, b1, c1, d1⟩ := _set_common_attrs_ok
    (viSetAttribute test .VI_ATTR_TMO_VALUE 1000).2 timeout_ms b0
  unfold probe_candidate
  dsimp only
  rw [if_pos a1]
  have := _idn_matches_tmo_log
    (_set_common_attrs (viSetAttribute test .VI_ATTR_TMO_VALUE 1000).2 timeout_ms).2 needle b1
  rw [c1, c0, d1] at this
  exact this

/-- C29: for every configuration (the field `coding` is a `uint8_t`) on which
`enforce_flush_limit` returns 0, the size computation of `engine_run` takes no error
exit, neither `-4` nor `-5`, and sets `bytes_per_trace` to the exact product
`n_samples × n_channels × (coding+1)` and `bytes_per_flush_batch` to the exact product
`bytes_per_trace × n_flush_traces`; both fit in `size_t` and the batch is the size
the planner compared with half of the RAM. -/
theorem C29_sizes_agree_with_planner (cfg : RunConfig) (R : Nat)
    (hc : cfg.coding < 256) (h : enforce_flush_limit cfg R = 0) :
    ∃ p, engine_run_setup cfg R = .ok p ∧
      engine_run_setup cfg R ≠ .error (-4) ∧ engine_run_setup cfg R ≠ .error (-5) ∧
      p.bytes_per_trace = cfg.n_samples * cfg.n_channels * (cfg.coding + 1) ∧
      p.bytes_per_flush_batch = p.bytes_per_trace * cfg.n_flush_traces ∧
      p.bytes_per_trace = exact_trace_bytes cfg ∧
      p.bytes_per_flush_batch = exact_batch_bytes cfg ∧
      p.bytes_per_flush_batch ≤ SIZE_MAX ∧ p.bytes_per_flush_batch ≤ R / 2 := by
  obtain ⟨h0, h1, h2, h3⟩ := (enforce_flush_limit_eq_zero_iff cfg R).mp h
  unfold exact_trace_bytes at h0 h1
  unfold exact_batch_bytes at h2 h3
  have hcm : (cfg.coding + 1) % 4294967296 = cfg.coding + 1 := Nat.mod_eq_of_lt (by omega)
  have hsc : cfg.n_samples * cfg.n_channels ≤ SIZE_MAX :=
    le_trans (Nat.le_mul_of_pos_right _ (Nat.succ_pos _)) h1
  have hscm : cfg.n_samples * cfg.n_channels % (SIZE_MAX + 1) =
      cfg.n_samples * cfg.n_channels := Nat.mod_eq_of_lt (by omega)
  have htm : cfg.n_samples * cfg.n_channels * (cfg.coding + 1) % (SIZE_MAX + 1) =
      cfg.n_samples * cfg.n_channels * (cfg.coding + 1) := Nat.mod_eq_of_lt (by omega)
  have hbm : cfg.n_samples * cfg.n_channels * (cfg.coding + 1) * cfg.n_flush_traces %
      (SIZE_MAX + 1) =
      cfg.n_samples * cfg.n_channels * (cfg.coding + 1) * cfg.n_flush_traces :=
    Nat.mod_eq_of_lt (by omega)
  have e1 : ¬ (cfg.n_channels ≠ 0 ∧ cfg.n_samples > SIZE_MAX / cfg.n_channels) := by
    rintro ⟨hn, hg⟩
    have : cfg.n_samples ≤ SIZE_MAX / cfg.n_channels :=
      (Nat.le_div_iff_mul_le (Nat.pos_of_ne_zero hn)).mpr hsc
    omega
  have e2 : ¬ ((cfg.coding + 1) % 4294967296 ≠ 0 ∧
      cfg.n_samples * cfg.n_channels % (SIZE_MAX + 1) >
        SIZE_MAX / ((cfg.coding + 1) % 4294967296)) := by
    rw [hcm, hscm]
    rintro ⟨_, hg⟩
    have : cfg.n_samples * cfg.n_channels ≤ SIZE_MAX / (cfg.coding + 1) :=
      (Nat.le_div_iff_mul_le (Nat.succ_pos _)).mpr h1
    omega
  have e3 : ¬ (cfg.n_flush_traces ≠ 0 ∧
      cfg.n_samples * cfg.n_channels % (SIZE_MAX + 1) * ((cfg.coding + 1) % 4294967296) %
        (SIZE_MAX + 1) > SIZE_MAX / cfg.n_flush_traces) := by
    rw [hcm, hscm, htm]
    rintro ⟨hn, hg⟩
    have : cfg.n_samples * cfg.n_channels * (cfg.coding + 1) ≤
        SIZE_MAX / cfg.n_flush_traces :=
      (Nat.le_div_iff_mul_le (Nat.pos_of_ne_zero hn)).mpr h2
    omega
  have hrun : engine_run_setup cfg R = .ok
      { n_traces := cfg.n_traces
        n_flush_traces := cfg.n_flush_traces
        bytes_per_trace := cfg.n_samples * cfg.n_channels * (cfg.coding + 1)
        bytes_per_flush_batch :=
          cfg.n_samples * cfg.n_channels * (cfg.coding + 1) * cfg.n_flush_traces
        store := cfg.outfile.isSome } := by
    unfold engine_run_setup
    rw [if_neg (by simp [h]), if_neg e1, if_neg e2, if_neg e3, hcm, hscm, htm, hbm]
  refine ⟨_, hrun, ?_, ?_, rfl, rfl, rfl, rfl, h2, h3⟩
  · rw [hrun]; simp
  · rw [hrun]; simp

/-- C29 on 100 samples, 2 channels, WORD coding and batches of 2 with 8 GiB of RAM:
400 bytes a trace and 800 bytes a batch. -/
theorem C29_sizes_agree_with_planner_witness :
    enforce_flush_limit (sized_config 100 2 1 2) 8589934592 = 0 ∧
    ∃ p, engine_run_setup (sized_config 100 2 1 2) 8589934592 = .ok p ∧
      engine_run_setup (sized_config 100 2 1 2) 8589934592 ≠ .error (-4) ∧
      engine_run_setup (sized_config 100 2 1 2) 8589934592 ≠ .error (-5) ∧
      p.bytes_per_trace = 100 * 2 * (1 + 1) ∧
      p.bytes_per_flush_batch = p.bytes_per_trace * 2 ∧
      p.bytes_per_trace = exact_trace_bytes (sized_config 100 2 1 2) ∧
      p.bytes_per_flush_batch = exact_batch_bytes (sized_config 100 2 1 2) ∧
      p.bytes_per_flush_batch ≤ SIZE_MAX ∧ p.bytes_per_flush_batch ≤ 8589934592 / 2 :=
  ⟨by decide,
    C29_sizes_agree_with_planner (sized_config 100 2 1 2) 8589934592 (by decide) (by decide)⟩

/-- C30: the skip line of lines 347 and 359 is written to `core->fp_log` for every
negative acquire result, in store mode and in no-store mode alike, while the handle is
opened only in store mode: in a run without an output file (`-n 0 -b 2`, 100 bytes a
trace) a first acquire call returning `ACQ_ERR_ARM_TIMEOUT`, or `-7`, makes the loop write
its skip line to a log handle that was never opened. -/
theorem C30_skip_line_without_log_file :
    (∀ (p : Setup) (s : EngineState) (rc : Int), rc < 0 →
      (acquire_step p s rc).skip_log = (s.ti + 1, s.total_traces_captured, rc) :: s.skip_log) ∧
    (∀ p : Setup, fp_log_open p = p.store) ∧
    slice_demo_setup.store = false ∧ fp_log_open slice_demo_setup = false ∧
    engine_run_setup (sized_config 100 1 0 2) 8589934592 = .ok slice_demo_setup ∧
    (run slice_demo_setup (engine_init slice_demo_setup) nostore_soft_miss_schedule).map
      (fun s => s.skip_log) = some [(0, 0, -1000)] ∧
    (run slice_demo_setup (engine_init slice_demo_setup) nostore_hard_failure_schedule).map
      (fun s => s.skip_log) = some [(0, 0, -7)] := by
  refine ⟨?_, fun _ => rfl, by decide, by decide, by decide, by decide, by decide⟩
  intro p s rc hrc
  unfold acquire_step store_trace
  by_cases h1 : rc = ACQ_ERR_ARM_TIMEOUT ∨ rc = ACQ_ERR_TRIGGER_TIMEOUT
  · rw [if_pos h1]
  · rw [if_neg h1, if_pos hrc]

end ScopeAcquire
